import Mathlib

/-!
# contour-plus: the HTTPProxy reconciler

A shallow embedding of `controllers/httpproxy_controller.go`.

* The Kubernetes objects the reconciler touches are plain structures.
* The API server is a `Store` holding one collection per kind; the client
  operations `Get`, `List`, `Create`, `Update` act on it, record every call
  in a trace, and may fail with an injected store error (`Env.faults`).
* `CreateOrUpdate` and `SetControllerReference` follow controller-runtime.
* `Reconcile`, `reconcileDNSEndpoint`, `reconcileCertificate` and `listHPs`
  are translated statement by statement from the Go source.
-/

namespace ContourPlus

/-! ## Data model -/

/-- The four resource kinds the reconciler reads or writes. -/
inductive Kind where
  | HTTPProxy
  | Service
  | DNSEndpoint
  | Certificate
deriving DecidableEq, Repr

/-- Go `client.ObjectKey` (`types.NamespacedName`). -/
structure ObjectKey where
  Namespace : String
  Name : String
deriving DecidableEq, Repr

/-- Go `ObjectKey.String()`: namespace and name joined by a slash. -/
def ObjectKey.String (k : ObjectKey) : String :=
  k.Namespace ++ "/" ++ k.Name

/-- A parsed `group/version` pair, the content of `OwnerReference.APIVersion`. -/
structure GroupVersion where
  Group : String
  Version : String
deriving DecidableEq, Repr

/-- Go `metav1.OwnerReference`. -/
structure OwnerReference where
  APIVersion : GroupVersion
  Kind : String
  Name : String
  UID : String
  Controller : Option Bool
  BlockOwnerDeletion : Option Bool
deriving DecidableEq, Repr

/-- Go `metav1.ObjectMeta`, restricted to the fields the controller reads or
writes. `Annotations` is a Go map: `List.lookup` reads it. -/
structure ObjectMeta where
  Namespace : String := ""
  Name : String := ""
  UID : String := ""
  Annotations : List (String × String) := []
  OwnerReferences : List OwnerReference := []
deriving DecidableEq, Repr

/-- The namespaced name of an object. -/
def ObjectMeta.key (m : ObjectMeta) : ObjectKey :=
  { Namespace := m.Namespace, Name := m.Name }

/-- Go `projectcontourv1.TLS`. -/
structure TLS where
  SecretName : String := ""
deriving DecidableEq, Repr

/-- Go `projectcontourv1.VirtualHost`; `TLS` is a pointer, `none` is nil. -/
structure VirtualHost where
  Fqdn : String := ""
  TLS : Option TLS := none
deriving DecidableEq, Repr

/-- Go `projectcontourv1.HTTPProxySpec`; `VirtualHost` is a pointer. -/
structure HTTPProxySpec where
  VirtualHost : Option VirtualHost := none
deriving DecidableEq, Repr

/-- Go `projectcontourv1.HTTPProxy`. -/
structure HTTPProxy extends ObjectMeta where
  Spec : HTTPProxySpec := {}
deriving DecidableEq, Repr

/-- Go `corev1.LoadBalancerIngress`. -/
structure LoadBalancerIngress where
  IP : String := ""
  Hostname : String := ""
deriving DecidableEq, Repr

/-- Go `corev1.LoadBalancerStatus`. -/
structure LoadBalancerStatus where
  Ingress : List LoadBalancerIngress := []
deriving DecidableEq, Repr

/-- Go `corev1.ServiceStatus`. -/
structure ServiceStatus where
  LoadBalancer : LoadBalancerStatus := {}
deriving DecidableEq, Repr

/-- Go `corev1.Service`. -/
structure Service extends ObjectMeta where
  Status : ServiceStatus := {}
deriving DecidableEq, Repr

/-- Go `net.IP`, a byte slice; the nil slice is `bytes = []`. -/
structure IP where
  bytes : List Nat
deriving DecidableEq, Repr

/-- One record of a `DNSEndpoint`: a DNS name and its target addresses. -/
structure Endpoint where
  DNSName : String
  Targets : List IP
deriving DecidableEq, Repr

/-- Go `endpoint.DNSEndpointSpec`. -/
structure DNSEndpointSpec where
  Endpoints : List Endpoint := []
deriving DecidableEq, Repr

/-- Go `endpoint.DNSEndpoint`. -/
structure DNSEndpoint extends ObjectMeta where
  Spec : DNSEndpointSpec := {}
deriving DecidableEq, Repr

/-- Go `cmmeta.ObjectReference`, the issuer reference of a certificate. -/
structure ObjectReference where
  Name : String := ""
  Kind : String := ""
deriving DecidableEq, Repr

/-- Go `certmanagerv1alpha2.CertificateSpec`: the five fields the reconciler
sets, and two it never touches. -/
structure CertificateSpec where
  DNSNames : List String := []
  SecretName : String := ""
  CommonName : String := ""
  IssuerRef : ObjectReference := {}
  Organization : List String := []
  IsCA : Bool := false
deriving DecidableEq, Repr

/-- Go `certmanagerv1alpha2.Certificate`. -/
structure Certificate extends ObjectMeta where
  Spec : CertificateSpec := {}
deriving DecidableEq, Repr

/-- Go `certmanagerv1alpha2.IssuerKind`. -/
def IssuerKind : String := "Issuer"

/-- Go `certmanagerv1alpha2.ClusterIssuerKind`. -/
def ClusterIssuerKind : String := "ClusterIssuer"

/-- Modelled from the spec: the constant `excludeAnnotation`, declared outside
the given sources; its value is the annotation key the tests name. -/
def excludeAnnotation : String := "contour-plus.cybozu.com/exclude"

/-- Modelled from the spec: the constant `testACMETLSAnnotation`, declared
outside the given sources; its value is the annotation key the tests name. -/
def testACMETLSAnnotation : String := "kubernetes.io/tls-acme"

/-- Modelled from the spec: the constant `issuerNameAnnotation`, declared
outside the given sources; its value is the annotation key the tests name. -/
def issuerNameAnnotation : String := "cert-manager.io/issuer"

/-- Modelled from the spec: the constant `clusterIssuerNameAnnotation`,
declared outside the given sources; its value is the annotation key the tests
name. -/
def clusterIssuerNameAnnotation : String := "cert-manager.io/cluster-issuer"

/-- Go map indexing `m[k]`: the zero value (empty string) when `k` is absent. -/
def mapIndex (m : List (String × String)) (k : String) : String :=
  (m.lookup k).getD ""

/-! ## The object store and the client -/

/-- The API server's content, one collection per kind. -/
structure Store where
  HTTPProxies : List HTTPProxy := []
  Services : List Service := []
  DNSEndpoints : List DNSEndpoint := []
  Certificates : List Certificate := []
deriving DecidableEq, Repr

/-- One observable call: a client operation, or a call of the endpoint
synthesizer `makeEndpoints` with its arguments. -/
inductive Call where
  | get (k : Kind) (key : ObjectKey)
  | list (k : Kind)
  | create (k : Kind) (key : ObjectKey)
  | update (k : Kind) (key : ObjectKey)
  | makeEndpoints (hostname : String) (ips : List IP)
deriving DecidableEq, Repr

/-- Errors a reconcile pass can meet. `notFound` and `alreadyExists` come from
the store's content, `store` is any other failure of a store operation,
`alreadyOwned` is controller-runtime's `AlreadyOwnedError`, and `mutatedKey`
is `CreateOrUpdate` refusing a mutate function that renamed the object. -/
inductive Err where
  | notFound (k : Kind) (key : ObjectKey)
  | alreadyExists (k : Kind) (key : ObjectKey)
  | alreadyOwned (key : ObjectKey) (owner : OwnerReference)
  | mutatedKey
  | store (msg : String)
deriving DecidableEq, Repr

/-- Go `k8serrors.IsNotFound`. -/
def IsNotFound : Err → Bool
  | .notFound _ _ => true
  | _ => false

/-- Go `controllerutil.OperationResult`. -/
inductive OperationResult where
  | None
  | Created
  | Updated
deriving DecidableEq, Repr

/-- One line written to the reconciler's logger. -/
inductive LogEntry where
  | info (msg : String) (op : Option OperationResult)
  | error (err : Err) (msg : String)
deriving DecidableEq, Repr

/-- What the reconciler is linked against and cannot control: the standard
library's `net.ParseIP`, and the store failures of this pass (a call for
which `faults` answers `some msg` fails with `Err.store msg`). -/
structure Env where
  ParseIP : String → IP
  faults : Call → Option String

/-- The state threaded through a reconcile pass: the store, the calls made
so far and the log written so far. -/
structure St where
  store : Store := {}
  calls : List Call := []
  logs : List LogEntry := []
deriving DecidableEq, Repr

/-- Append one call to the trace. -/
def St.record (st : St) (c : Call) : St :=
  { st with calls := st.calls ++ [c] }

/-- Append one line to the log. -/
def St.log (st : St) (e : LogEntry) : St :=
  { st with logs := st.logs ++ [e] }

/-- How the client reaches the collection of one kind of object. -/
structure Resource (α : Type) where
  kind : Kind
  key : α → ObjectKey
  items : Store → List α
  setItems : Store → List α → Store

/-- The HTTPProxy collection. -/
def HTTPProxies : Resource HTTPProxy where
  kind := Kind.HTTPProxy
  key := fun o => o.toObjectMeta.key
  items := fun s => s.HTTPProxies
  setItems := fun s l => { s with HTTPProxies := l }

/-- The Service collection. -/
def Services : Resource Service where
  kind := Kind.Service
  key := fun o => o.toObjectMeta.key
  items := fun s => s.Services
  setItems := fun s l => { s with Services := l }

/-- The DNSEndpoint collection. -/
def DNSEndpoints : Resource DNSEndpoint where
  kind := Kind.DNSEndpoint
  key := fun o => o.toObjectMeta.key
  items := fun s => s.DNSEndpoints
  setItems := fun s l => { s with DNSEndpoints := l }

/-- The Certificate collection. -/
def Certificates : Resource Certificate where
  kind := Kind.Certificate
  key := fun o => o.toObjectMeta.key
  items := fun s => s.Certificates
  setItems := fun s l => { s with Certificates := l }

/-- The object stored under a key, if any. -/
def Resource.find {α : Type} (res : Resource α) (s : Store) (key : ObjectKey) : Option α :=
  (res.items s).find? (fun o => decide (res.key o = key))

/-- Go `client.Get`: records the call; fails with the injected store error if
there is one, with NotFound if nothing is stored under the key. -/
def Client.Get {α : Type} (env : Env) (res : Resource α) (key : ObjectKey) (st : St) :
    Except Err α × St :=
  let st1 := st.record (Call.get res.kind key)
  match env.faults (Call.get res.kind key) with
  | some msg => (Except.error (Err.store msg), st1)
  | none =>
    match res.find st.store key with
    | some o => (Except.ok o, st1)
    | none => (Except.error (Err.notFound res.kind key), st1)

/-- Go `client.List` without options: every object of the kind, across all
namespaces, in store order. -/
def Client.List {α : Type} (env : Env) (res : Resource α) (st : St) :
    Except Err (List α) × St :=
  let st1 := st.record (Call.list res.kind)
  match env.faults (Call.list res.kind) with
  | some msg => (Except.error (Err.store msg), st1)
  | none => (Except.ok (res.items st.store), st1)

/-- Go `client.Create`: fails with AlreadyExists when the key is taken. -/
def Client.Create {α : Type} (env : Env) (res : Resource α) (obj : α) (st : St) :
    Option Err × St :=
  let st1 := st.record (Call.create res.kind (res.key obj))
  match env.faults (Call.create res.kind (res.key obj)) with
  | some msg => (some (Err.store msg), st1)
  | none =>
    match res.find st.store (res.key obj) with
    | some _ => (some (Err.alreadyExists res.kind (res.key obj)), st1)
    | none =>
      (none, { st1 with store := res.setItems st.store (res.items st.store ++ [obj]) })

/-- Go `client.Update`: replaces the object stored under the key; fails with
NotFound when there is none. -/
def Client.Update {α : Type} (env : Env) (res : Resource α) (obj : α) (st : St) :
    Option Err × St :=
  let st1 := st.record (Call.update res.kind (res.key obj))
  match env.faults (Call.update res.kind (res.key obj)) with
  | some msg => (some (Err.store msg), st1)
  | none =>
    match res.find st.store (res.key obj) with
    | none => (some (Err.notFound res.kind (res.key obj)), st1)
    | some _ =>
      let items := (res.items st.store).map (fun o => if res.key o = res.key obj then obj else o)
      (none, { st1 with store := res.setItems st.store items })

/-! ## controller-runtime: owner references and CreateOrUpdate -/

/-- Go `referSameObject`: two owner references name the same object when
group, kind and name agree. -/
def referSameObject (a b : OwnerReference) : Bool :=
  decide (a.APIVersion.Group = b.APIVersion.Group) && decide (a.Kind = b.Kind) &&
    decide (a.Name = b.Name)

/-- Go `metav1.NewControllerRef` for an HTTPProxy owner. -/
def NewControllerRef (owner : HTTPProxy) : OwnerReference :=
  { APIVersion := { Group := "projectcontour.io", Version := "v1" }
    Kind := "HTTPProxy"
    Name := owner.Name
    UID := owner.UID
    Controller := some true
    BlockOwnerDeletion := some true }

/-- The loop of `SetControllerReference` over the existing references: the
last reference to the same owner is replaced by `ref` (`some` of the new list),
`none` says there is no such reference, and the first reference to another
controller stops the loop with that reference. -/
def replaceControllerRef (ref : OwnerReference) :
    List OwnerReference → Except OwnerReference (Option (List OwnerReference))
  | [] => Except.ok none
  | r :: rs =>
    if referSameObject ref r then
      match replaceControllerRef ref rs with
      | Except.error o => Except.error o
      | Except.ok (some rs1) => Except.ok (some (r :: rs1))
      | Except.ok none => Except.ok (some (ref :: rs))
    else if r.Controller = some true then
      Except.error r
    else
      match replaceControllerRef ref rs with
      | Except.error o => Except.error o
      | Except.ok (some rs1) => Except.ok (some (r :: rs1))
      | Except.ok none => Except.ok none

/-- Go `controllerutil.SetControllerReference(owner, object, scheme)` on the
object's metadata: fails with AlreadyOwned when the object has another
controller, otherwise replaces or appends the owner's controller reference. -/
def SetControllerReference (owner : HTTPProxy) (m : ObjectMeta) : Except Err ObjectMeta :=
  match replaceControllerRef (NewControllerRef owner) m.OwnerReferences with
  | Except.error o => Except.error (Err.alreadyOwned m.key o)
  | Except.ok (some refs) => Except.ok { m with OwnerReferences := refs }
  | Except.ok none =>
    Except.ok { m with OwnerReferences := m.OwnerReferences ++ [NewControllerRef owner] }

/-- Go `controllerutil.MutateFn`, a closure over the object: here a function
of the object that also reports the calls it made. -/
abbrev MutateFn (α : Type) := α → Except Err α × List Call

/-- Go `controllerutil.mutate`: run the closure, then refuse a changed key. -/
def mutate {α : Type} (res : Resource α) (f : MutateFn α) (key : ObjectKey) (obj : α) :
    Except Err α × List Call :=
  match f obj with
  | (Except.error e, cs) => (Except.error e, cs)
  | (Except.ok obj1, cs) =>
    if res.key obj1 = key then (Except.ok obj1, cs) else (Except.error Err.mutatedKey, cs)

/-- Go `controllerutil.CreateOrUpdate`: fetch the object; when it is absent,
mutate the given object and create it; when it is present, mutate the stored
object and update it unless the mutation changed nothing. -/
def CreateOrUpdate {α : Type} [DecidableEq α] (env : Env) (res : Resource α) (obj : α)
    (f : MutateFn α) (st : St) : (OperationResult × Option Err) × St :=
  let key := res.key obj
  match Client.Get env res key st with
  | (Except.error e, st1) =>
    if !IsNotFound e then ((OperationResult.None, some e), st1)
    else
      match mutate res f key obj with
      | (Except.error e1, cs) =>
        ((OperationResult.None, some e1), { st1 with calls := st1.calls ++ cs })
      | (Except.ok obj1, cs) =>
        match Client.Create env res obj1 { st1 with calls := st1.calls ++ cs } with
        | (some e2, st2) => ((OperationResult.None, some e2), st2)
        | (none, st2) => ((OperationResult.Created, none), st2)
  | (Except.ok existing, st1) =>
    match mutate res f key existing with
    | (Except.error e1, cs) =>
      ((OperationResult.None, some e1), { st1 with calls := st1.calls ++ cs })
    | (Except.ok obj1, cs) =>
      if existing = obj1 then
        ((OperationResult.None, none), { st1 with calls := st1.calls ++ cs })
      else
        match Client.Update env res obj1 { st1 with calls := st1.calls ++ cs } with
        | (some e2, st2) => ((OperationResult.None, some e2), st2)
        | (none, st2) => ((OperationResult.Updated, none), st2)

/-! ## The reconciler -/

/-- Go `HTTPProxyReconciler`: the configuration fields. The embedded client is
the pair of `Env` and `St`, the logger is `St.logs`. -/
structure HTTPProxyReconciler where
  ServiceKey : ObjectKey
  IssuerKey : ObjectKey := { Namespace := "", Name := "" }
  Prefix : String := ""
  DefaultIssuerName : String := ""
  DefaultIssuerKind : String := ""
  CreateDNSEndpoint : Bool := false
  CreateCertificate : Bool := false

/-- Go `ctrl.Request`. -/
structure Request where
  Namespace : String
  Name : String
deriving DecidableEq, Repr

/-- Go `ctrl.Result`; the reconciler only ever returns the zero value. -/
structure Result where
  Requeue : Bool := false
  RequeueAfter : Nat := 0
deriving DecidableEq, Repr

/-- Modelled from the spec: `makeEndpoints`, the endpoint synthesizer, which
`reconcileDNSEndpoint` calls but which is defined outside the given sources.
Section 4.2: one DNS record entry associating the name with the full address
set, in the order given. -/
def makeEndpoints (hostname : String) (ips : List IP) : List Endpoint :=
  [{ DNSName := hostname, Targets := ips }]

/-- The loop of `reconcileDNSEndpoint` over the service's ingress entries
(lines 101-106): entries with an empty IP are skipped, the others are parsed
and appended to `serviceIPs`. -/
def collectServiceIPs (env : Env) : List LoadBalancerIngress → List IP → List IP
  | [], serviceIPs => serviceIPs
  | ing :: rest, serviceIPs =>
    if ing.IP.length = 0 then collectServiceIPs env rest serviceIPs
    else collectServiceIPs env rest (serviceIPs ++ [env.ParseIP ing.IP])

/-- The closure `reconcileDNSEndpoint` hands to `CreateOrUpdate` (lines
120-123). -/
def mutateDNSEndpoint (hp : HTTPProxy) (fqdn : String) (serviceIPs : List IP) :
    MutateFn DNSEndpoint :=
  fun de =>
    let de1 : DNSEndpoint := { de with Spec := { de.Spec with Endpoints := makeEndpoints fqdn serviceIPs } }
    match SetControllerReference hp de1.toObjectMeta with
    | Except.error e => (Except.error e, [Call.makeEndpoints fqdn serviceIPs])
    | Except.ok m => (Except.ok { de1 with toObjectMeta := m }, [Call.makeEndpoints fqdn serviceIPs])

/-- Go `HTTPProxyReconciler.reconcileDNSEndpoint`. -/
def reconcileDNSEndpoint (env : Env) (r : HTTPProxyReconciler) (hp : HTTPProxy) (st : St) :
    Option Err × St :=
  if !r.CreateDNSEndpoint then (none, st)
  else
    match hp.Spec.VirtualHost with
    | none => (none, st)
    | some vh =>
      let fqdn := vh.Fqdn
      if fqdn.length = 0 then (none, st)
      else
        match Client.Get env Services r.ServiceKey st with
        | (Except.error err, st1) => (some err, st1)
        | (Except.ok svc, st1) =>
          let serviceIPs := collectServiceIPs env svc.Status.LoadBalancer.Ingress []
          if serviceIPs.length = 0 then
            (none, st1.log (LogEntry.info ("no IP address for service " ++ r.ServiceKey.String) none))
          else
            let de : DNSEndpoint := { Namespace := hp.Namespace, Name := r.Prefix ++ hp.Name }
            match CreateOrUpdate env DNSEndpoints de (mutateDNSEndpoint hp fqdn serviceIPs) st1 with
            | ((_, some err), st2) => (some err, st2)
            | ((op, none), st2) =>
              (none, st2.log (LogEntry.info "DNSEndpoint successfully reconciled" (some op)))

/-- The issuer resolution of `reconcileCertificate` (lines 152-161): the
defaults, overridden by the issuer annotation, overridden in turn by the
cluster-issuer annotation. -/
def resolveIssuer (r : HTTPProxyReconciler) (hp : HTTPProxy) : String × String :=
  let issuer : String × String := (r.DefaultIssuerName, r.DefaultIssuerKind)
  let issuer : String × String :=
    match hp.Annotations.lookup issuerNameAnnotation with
    | some name => (name, IssuerKind)
    | none => issuer
  match hp.Annotations.lookup clusterIssuerNameAnnotation with
  | some name => (name, ClusterIssuerKind)
  | none => issuer

/-- The closure `reconcileCertificate` hands to `CreateOrUpdate` (lines
171-178). -/
def mutateCertificate (hp : HTTPProxy) (vh : VirtualHost) (tls : TLS)
    (issuerName issuerKind : String) : MutateFn Certificate :=
  fun crt =>
    let crt1 : Certificate := { crt with Spec := { crt.Spec with
      DNSNames := [vh.Fqdn]
      SecretName := tls.SecretName
      CommonName := vh.Fqdn
      IssuerRef := { crt.Spec.IssuerRef with Name := issuerName, Kind := issuerKind } } }
    match SetControllerReference hp crt1.toObjectMeta with
    | Except.error e => (Except.error e, [])
    | Except.ok m => (Except.ok { crt1 with toObjectMeta := m }, [])

/-- Go `HTTPProxyReconciler.reconcileCertificate`. -/
def reconcileCertificate (env : Env) (r : HTTPProxyReconciler) (hp : HTTPProxy) (st : St) :
    Option Err × St :=
  if !r.CreateCertificate then (none, st)
  else if mapIndex hp.Annotations testACMETLSAnnotation ≠ "true" then (none, st)
  else
    match hp.Spec.VirtualHost with
    | none => (none, st)
    | some vh =>
      if vh.Fqdn = "" then (none, st)
      else
        match vh.TLS with
        | none => (none, st)
        | some tls =>
          if tls.SecretName = "" then (none, st)
          else
            let issuerName := (resolveIssuer r hp).1
            let issuerKind := (resolveIssuer r hp).2
            if issuerName = "" then (none, st.log (LogEntry.info "no issuer name" none))
            else
              let crt : Certificate := { Namespace := hp.Namespace, Name := r.Prefix ++ hp.Name }
              match CreateOrUpdate env Certificates crt
                  (mutateCertificate hp vh tls issuerName issuerKind) st with
              | ((_, some err), st2) => (some err, st2)
              | ((op, none), st2) =>
                (none, st2.log (LogEntry.info "Certificate successfully reconciled" (some op)))

/-- Go `HTTPProxyReconciler.Reconcile`. -/
def Reconcile (env : Env) (r : HTTPProxyReconciler) (req : Request) (st : St) :
    (Result × Option Err) × St :=
  let objKey : ObjectKey := { Namespace := req.Namespace, Name := req.Name }
  match Client.Get env HTTPProxies objKey st with
  | (Except.error err, st1) =>
    if IsNotFound err then (({}, none), st1)
    else (({}, some err), st1.log (LogEntry.error err "unable to get HTTPProxy resources"))
  | (Except.ok hp, st1) =>
    if mapIndex hp.Annotations excludeAnnotation = "true" then (({}, none), st1)
    else
      match reconcileDNSEndpoint env r hp st1 with
      | (some err, st2) =>
        (({}, some err), st2.log (LogEntry.error err "unable to reconcile DNSEndpoint"))
      | (none, st2) =>
        match reconcileCertificate env r hp st2 with
        | (some err, st3) =>
          (({}, some err), st3.log (LogEntry.error err "unable to reconcile Certificate"))
        | (none, st3) => (({}, none), st3)

/-- The loop of `listHPs` (lines 207-212): entry `i` of the slice of requests
is overwritten with the name and namespace of the `i`-th HTTPProxy. -/
def fillRequests : List HTTPProxy → Nat → List Request → List Request
  | [], _, requests => requests
  | hp :: rest, i, requests =>
    fillRequests rest (i + 1) (requests.set i { Namespace := hp.Namespace, Name := hp.Name })

/-- The mapping function `listHPs` of `SetupWithManager`: the event object is
given by its namespace and name; `make` allocates one zero-valued request per
listed HTTPProxy, the loop fills them in. -/
def listHPs (env : Env) (r : HTTPProxyReconciler) (a : ObjectMeta) (st : St) :
    List Request × St :=
  if a.Namespace ≠ r.ServiceKey.Namespace then ([], st)
  else if a.Name ≠ r.ServiceKey.Name then ([], st)
  else
    match Client.List env HTTPProxies st with
    | (Except.error err, st1) =>
      ([], st1.log (LogEntry.error err "listing HTTPProxy failed"))
    | (Except.ok items, st1) =>
      let requests := List.replicate items.length ({ Namespace := "", Name := "" } : Request)
      (fillRequests items 0 requests, st1)

/-! ## Observations and reference definitions -/

/-- The calls a pass made: what the trace holds beyond the calls of the state
the pass started from. -/
def callsSince (st st1 : St) : List Call :=
  st1.calls.drop st.calls.length

/-- The lines a pass logged: what the log holds beyond the starting state's. -/
def logsSince (st st1 : St) : List LogEntry :=
  st1.logs.drop st.logs.length

/-- The key of both derived resources of an HTTPProxy: its namespace, and
its name behind the reconciler's prefix (lines 116-117 and 169-170). -/
def derivedKey (r : HTTPProxyReconciler) (hp : HTTPProxy) : ObjectKey :=
  { Namespace := hp.Namespace, Name := r.Prefix ++ hp.Name }

/-- The guards of `reconcileCertificate` on the object (lines 136-150) read
as one test: the virtual host and TLS block the branch goes on with, or `none`
when a guard ends the branch. -/
def certificateInputs (hp : HTTPProxy) : Option (VirtualHost × TLS) :=
  if mapIndex hp.Annotations testACMETLSAnnotation ≠ "true" then none
  else
    match hp.Spec.VirtualHost with
    | none => none
    | some vh =>
      if vh.Fqdn = "" then none
      else
        match vh.TLS with
        | none => none
        | some tls => if tls.SecretName = "" then none else some (vh, tls)

/-- The reference definition of the watch router, in the specification's
words: no requests when the event object is not the target service (namespace
or name differs), no requests when listing failed, otherwise one request per
listed HTTPProxy, in list order, carrying its namespace and name. -/
def listHPsSpec (serviceKey : ObjectKey) (a : ObjectMeta)
    (listed : Except Err (List HTTPProxy)) : List Request :=
  if a.Namespace ≠ serviceKey.Namespace ∨ a.Name ≠ serviceKey.Name then []
  else
    match listed with
    | Except.error _ => []
    | Except.ok hps => hps.map (fun hp => { Namespace := hp.Namespace, Name := hp.Name })

/-- A call that writes to the store. -/
def Call.isWrite : Call → Bool
  | Call.create _ _ => true
  | Call.update _ _ => true
  | _ => false

/-- The list `ips` of the specification: the service's non-empty ingress IP
strings in service order, each parsed. -/
def serviceIPsSpec (env : Env) (svc : Service) : List IP :=
  (svc.Status.LoadBalancer.Ingress.filter (fun ing => decide (ing.IP ≠ ""))).map
    (fun ing => env.ParseIP ing.IP)

/-- The reference definition of issuer resolution, in the specification's
words: the cluster-issuer annotation wins, then the issuer annotation, then
the configured default. -/
def resolveIssuerSpec (annotations : List (String × String))
    (defaultIssuerName defaultIssuerKind : String) : String × String :=
  match annotations.lookup clusterIssuerNameAnnotation with
  | some name => (name, ClusterIssuerKind)
  | none =>
    match annotations.lookup issuerNameAnnotation with
    | some name => (name, IssuerKind)
    | none => (defaultIssuerName, defaultIssuerKind)

/-! ## A worked scenario

The scenario of the specification's section 8: an HTTPProxy `a/foo` asking for
a certificate, the target service holding one address and one hostname-only
entry, the prefix `x-` and the default issuer `ca1`. -/

/-- An environment without store failures; addresses are parsed to the bytes
of their text. -/
def exampleEnv : Env where
  ParseIP := fun s => { bytes := s.toList.map Char.toNat }
  faults := fun _ => none

/-- Both features enabled, prefix `x-`, default issuer `ca1` of kind Issuer. -/
def exampleReconciler : HTTPProxyReconciler where
  ServiceKey := { Namespace := "ingress", Name := "contour" }
  Prefix := "x-"
  DefaultIssuerName := "ca1"
  DefaultIssuerKind := IssuerKind
  CreateDNSEndpoint := true
  CreateCertificate := true

/-- The virtual host of the scenario. -/
def exampleVirtualHost : VirtualHost where
  Fqdn := "foo.example.com"
  TLS := some { SecretName := "foo-tls" }

/-- The HTTPProxy `a/foo` of the scenario. -/
def exampleProxy : HTTPProxy where
  Namespace := "a"
  Name := "foo"
  UID := "uid-foo"
  Annotations := [("kubernetes.io/tls-acme", "true")]
  Spec := { VirtualHost := some exampleVirtualHost }

/-- The target service: one address, one hostname-only entry. -/
def exampleService : Service where
  Namespace := "ingress"
  Name := "contour"
  Status := { LoadBalancer := { Ingress := [{ IP := "10.0.0.1" }, { Hostname := "lb.example.com" }] } }

/-- The request for `a/foo`. -/
def exampleRequest : Request where
  Namespace := "a"
  Name := "foo"

/-- The store before the first pass: the HTTPProxy, the service, and a stale
DNSEndpoint under the derived name that another pass left behind. -/
def exampleState : St where
  store :=
    { HTTPProxies := [exampleProxy]
      Services := [exampleService]
      DNSEndpoints := [{ Namespace := "a", Name := "x-foo",
                         Spec := { Endpoints := [{ DNSName := "old.example.com", Targets := [] }] } }] }

/-- The HTTPProxy of the scenario, excluded by its annotation. -/
def exampleExcludedProxy : HTTPProxy :=
  { exampleProxy with
    Annotations := [("contour-plus.cybozu.com/exclude", "true"), ("kubernetes.io/tls-acme", "true")] }

/-- The store of the scenario with the excluded HTTPProxy in place. -/
def exampleExcludedState : St where
  store := { HTTPProxies := [exampleExcludedProxy], Services := [exampleService] }

/-- The HTTPProxy of the scenario carrying both issuer annotations. -/
def exampleBothIssuersProxy : HTTPProxy :=
  { exampleProxy with
    Annotations := [("kubernetes.io/tls-acme", "true"), ("cert-manager.io/issuer", "custom-issuer"),
      ("cert-manager.io/cluster-issuer", "custom-cluster-issuer")] }

/-- The store of the scenario with the doubly annotated HTTPProxy in place. -/
def exampleBothIssuersState : St where
  store := { HTTPProxies := [exampleBothIssuersProxy], Services := [exampleService] }

/-- The reconciler of the scenario without a default issuer name. -/
def exampleNoIssuerReconciler : HTTPProxyReconciler :=
  { exampleReconciler with DefaultIssuerName := "" }

/-- The HTTPProxy of the scenario with the issuer annotation alone. -/
def exampleIssuerProxy : HTTPProxy :=
  { exampleProxy with
    Annotations := [("kubernetes.io/tls-acme", "true"), ("cert-manager.io/issuer", "custom-issuer")] }

/-- The HTTPProxy of the scenario whose tls-acme annotation is not "true". -/
def exampleNoAcmeProxy : HTTPProxy :=
  { exampleProxy with Annotations := [("kubernetes.io/tls-acme", "aaa")] }

/-- The store of the scenario with that HTTPProxy in place. -/
def exampleNoAcmeState : St where
  store := { HTTPProxies := [exampleNoAcmeProxy], Services := [exampleService] }

/-- An HTTPProxy `a/foo` without a virtual-host block. -/
def exampleNullProxy : HTTPProxy where
  Namespace := "a"
  Name := "foo"

/-- A store holding that HTTPProxy alone: the target service is missing. -/
def exampleNullState : St where
  store := { HTTPProxies := [exampleNullProxy] }

/-- An HTTPProxy with an fqdn and the tls-acme annotation, but no TLS block. -/
def exampleNoTLSProxy : HTTPProxy where
  Namespace := "a"
  Name := "foo2"
  Annotations := [("kubernetes.io/tls-acme", "true")]
  Spec := { VirtualHost := some { Fqdn := "foo2.example.com" } }

/-- The target service before an address is assigned: a hostname-only entry. -/
def examplePendingService : Service :=
  { exampleService with Status := { LoadBalancer := { Ingress := [{ Hostname := "lb.example.com" }] } } }

/-- The store of the scenario with the pending service in place. -/
def examplePendingState : St where
  store := { HTTPProxies := [exampleProxy], Services := [examplePendingService] }

/-- The reconciler of the scenario with the certificate feature turned off. -/
def exampleDNSOnlyReconciler : HTTPProxyReconciler :=
  { exampleReconciler with CreateCertificate := false }

/-- The reconciler of the scenario with the DNS feature turned off. -/
def exampleCertificateOnlyReconciler : HTTPProxyReconciler :=
  { exampleReconciler with CreateDNSEndpoint := false }

/-- The store of the scenario without the target service. -/
def exampleNoServiceState : St where
  store := { HTTPProxies := [exampleProxy] }

/-- A store without any object. -/
def exampleEmptyState : St where
  store := {}

/-- An environment in which the fetch of the HTTPProxy `a/foo` fails. -/
def exampleFetchFailingEnv : Env where
  ParseIP := fun s => { bytes := s.toList.map Char.toNat }
  faults := fun c =>
    if c = Call.get Kind.HTTPProxy { Namespace := "a", Name := "foo" } then some "connection refused"
    else none

/-- An environment in which the creation of the Certificate `a/x-foo` fails. -/
def exampleCreateFailingEnv : Env where
  ParseIP := fun s => { bytes := s.toList.map Char.toNat }
  faults := fun c =>
    if c = Call.create Kind.Certificate { Namespace := "a", Name := "x-foo" } then some "quota exceeded"
    else none

/-- A second HTTPProxy, in another namespace. -/
def exampleOtherProxy : HTTPProxy where
  Namespace := "b"
  Name := "bar"

/-- A store with two HTTPProxies in two namespaces and the target service. -/
def exampleTwoProxiesState : St where
  store := { HTTPProxies := [exampleProxy, exampleOtherProxy], Services := [exampleService] }

/-- An environment in which listing the HTTPProxies fails. -/
def exampleListFailingEnv : Env where
  ParseIP := fun s => { bytes := s.toList.map Char.toNat }
  faults := fun c => if c = Call.list Kind.HTTPProxy then some "timeout" else none

/-- A store in which the HTTPProxy `a/foo` has lost its virtual host while the
derived DNSEndpoint and Certificate of an earlier pass are still there. -/
def exampleOrphanState : St where
  store :=
    { HTTPProxies := [exampleNullProxy]
      Services := [exampleService]
      DNSEndpoints := [{ Namespace := "a", Name := "x-foo",
                         Spec := { Endpoints := [{ DNSName := "foo.example.com", Targets := [] }] } }]
      Certificates := [{ Namespace := "a", Name := "x-foo",
                         Spec := { DNSNames := ["foo.example.com"], SecretName := "foo-tls" } }] }

/-! ## Lemmas: strings, the trace, the client -/

theorem String.length_eq_zero_iff (s : String) : s.length = 0 ↔ s = "" := by
  constructor
  · intro h
    apply String.ext
    exact List.length_eq_zero.mp h
  · intro h
    subst h
    rfl

@[simp] theorem St.record_store (st : St) (c : Call) : (st.record c).store = st.store := rfl

@[simp] theorem St.record_calls (st : St) (c : Call) : (st.record c).calls = st.calls ++ [c] := rfl

@[simp] theorem St.record_logs (st : St) (c : Call) : (st.record c).logs = st.logs := rfl

@[simp] theorem St.log_store (st : St) (e : LogEntry) : (st.log e).store = st.store := rfl

@[simp] theorem St.log_calls (st : St) (e : LogEntry) : (st.log e).calls = st.calls := rfl

@[simp] theorem St.log_logs (st : St) (e : LogEntry) : (st.log e).logs = st.logs ++ [e] := rfl

theorem callsSince_of_eq {st st1 : St} (cs : List Call) (h : st1.calls = st.calls ++ cs) :
    callsSince st st1 = cs := by
  simp [callsSince, h]

theorem logsSince_of_eq {st st1 : St} (ls : List LogEntry) (h : st1.logs = st.logs ++ ls) :
    logsSince st st1 = ls := by
  simp [logsSince, h]

theorem Resource.find_key {α : Type} (res : Resource α) {s : Store} {key : ObjectKey} {o : α}
    (h : res.find s key = some o) : res.key o = key := by
  have := List.find?_some h
  simpa using this

theorem Client.Get_snd {α : Type} (env : Env) (res : Resource α) (key : ObjectKey) (st : St) :
    (Client.Get env res key st).2 = st.record (Call.get res.kind key) := by
  unfold Client.Get
  cases env.faults (Call.get res.kind key) with
  | some msg => rfl
  | none =>
    cases res.find st.store key with
    | some o => rfl
    | none => rfl

theorem Client.Get_of_fault {α : Type} {env : Env} {res : Resource α} {key : ObjectKey} {st : St}
    {msg : String} (hf : env.faults (Call.get res.kind key) = some msg) :
    Client.Get env res key st = (Except.error (Err.store msg), st.record (Call.get res.kind key)) := by
  simp [Client.Get, hf]

theorem Client.Get_of_found {α : Type} {env : Env} {res : Resource α} {key : ObjectKey} {st : St}
    {o : α} (hf : env.faults (Call.get res.kind key) = none) (h : res.find st.store key = some o) :
    Client.Get env res key st = (Except.ok o, st.record (Call.get res.kind key)) := by
  simp [Client.Get, hf, h]

theorem Client.Get_of_absent {α : Type} {env : Env} {res : Resource α} {key : ObjectKey} {st : St}
    (hf : env.faults (Call.get res.kind key) = none) (h : res.find st.store key = none) :
    Client.Get env res key st =
      (Except.error (Err.notFound res.kind key), st.record (Call.get res.kind key)) := by
  simp [Client.Get, hf, h]

/-- The three ways a `Get` can end. -/
theorem Client.Get_cases {α : Type} (env : Env) (res : Resource α) (key : ObjectKey) (st : St) :
    (∃ msg, env.faults (Call.get res.kind key) = some msg ∧
      Client.Get env res key st =
        (Except.error (Err.store msg), st.record (Call.get res.kind key))) ∨
    (env.faults (Call.get res.kind key) = none ∧ res.find st.store key = none ∧
      Client.Get env res key st =
        (Except.error (Err.notFound res.kind key), st.record (Call.get res.kind key))) ∨
    (∃ o, env.faults (Call.get res.kind key) = none ∧ res.find st.store key = some o ∧
      Client.Get env res key st = (Except.ok o, st.record (Call.get res.kind key))) := by
  cases hf : env.faults (Call.get res.kind key) with
  | some msg => exact Or.inl ⟨msg, rfl, Client.Get_of_fault hf⟩
  | none =>
    cases h : res.find st.store key with
    | none => exact Or.inr (Or.inl ⟨rfl, rfl, Client.Get_of_absent hf h⟩)
    | some o => exact Or.inr (Or.inr ⟨o, rfl, rfl, Client.Get_of_found hf h⟩)

/-! ## Lemmas: CreateOrUpdate -/

/-- Whatever `CreateOrUpdate` does, it only appends to the trace, and what it
appends is a fetch or a write of the object's key, or a call the mutate
function made; the log is untouched; the store is untouched or only the
resource's own collection is replaced. -/
theorem CreateOrUpdate_frame {α : Type} [DecidableEq α] (env : Env) (res : Resource α) (obj : α)
    (f : MutateFn α) (st : St) :
    (∃ cs, (CreateOrUpdate env res obj f st).2.calls = st.calls ++ cs ∧
      ∀ c ∈ cs, c = Call.get res.kind (res.key obj) ∨ c = Call.create res.kind (res.key obj) ∨
        c = Call.update res.kind (res.key obj) ∨ ∃ o, c ∈ (f o).2) ∧
    (CreateOrUpdate env res obj f st).2.logs = st.logs ∧
    ((CreateOrUpdate env res obj f st).2.store = st.store ∨
      ∃ l, (CreateOrUpdate env res obj f st).2.store = res.setItems st.store l) := by
  rcases Client.Get_cases env res (res.key obj) st with ⟨msg, _, hg⟩ | ⟨_, _, hg⟩ | ⟨ex, _, _, hg⟩
  · simp only [CreateOrUpdate, hg, IsNotFound]
    refine ⟨⟨[Call.get res.kind (res.key obj)], by simp, by simp⟩, by simp, Or.inl (by simp)⟩
  · simp only [CreateOrUpdate, hg, IsNotFound, mutate]
    rcases hfo : f obj with ⟨_ | o1, cs⟩
    · refine ⟨⟨[Call.get res.kind (res.key obj)] ++ cs, by simp, ?_⟩, by simp, Or.inl (by simp)⟩
      intro c hc
      simp only [List.mem_append, List.mem_singleton] at hc
      rcases hc with hc | hc
      · exact Or.inl hc
      · exact Or.inr (Or.inr (Or.inr ⟨obj, by rw [hfo]; exact hc⟩))
    · have hcs : ∀ c ∈ cs, ∃ o, c ∈ (f o).2 := fun c hc => ⟨obj, by rw [hfo]; exact hc⟩
      by_cases hk : res.key o1 = res.key obj
      · simp only [hk, if_true, Client.Create]
        cases env.faults (Call.create res.kind (res.key obj)) with
        | some msg =>
          refine ⟨⟨[Call.get res.kind (res.key obj)] ++ cs ++ [Call.create res.kind (res.key obj)],
            by simp, ?_⟩, by simp, Or.inl (by simp)⟩
          intro c hc
          simp only [List.mem_append, List.mem_singleton] at hc
          rcases hc with (hc | hc) | hc
          · exact Or.inl hc
          · exact Or.inr (Or.inr (Or.inr (hcs c hc)))
          · exact Or.inr (Or.inl hc)
        | none =>
          cases res.find (St.record st (Call.get res.kind (res.key obj))).store (res.key obj) with
          | some _ =>
            refine ⟨⟨[Call.get res.kind (res.key obj)] ++ cs ++
              [Call.create res.kind (res.key obj)], by simp, ?_⟩, by simp, Or.inl (by simp)⟩
            intro c hc
            simp only [List.mem_append, List.mem_singleton] at hc
            rcases hc with (hc | hc) | hc
            · exact Or.inl hc
            · exact Or.inr (Or.inr (Or.inr (hcs c hc)))
            · exact Or.inr (Or.inl hc)
          | none =>
            refine ⟨⟨[Call.get res.kind (res.key obj)] ++ cs ++
              [Call.create res.kind (res.key obj)], by simp, ?_⟩, by simp, Or.inr ⟨_, by simp; rfl⟩⟩
            intro c hc
            simp only [List.mem_append, List.mem_singleton] at hc
            rcases hc with (hc | hc) | hc
            · exact Or.inl hc
            · exact Or.inr (Or.inr (Or.inr (hcs c hc)))
            · exact Or.inr (Or.inl hc)
      · simp only [hk, if_false]
        refine ⟨⟨[Call.get res.kind (res.key obj)] ++ cs, by simp, ?_⟩, by simp, Or.inl (by simp)⟩
        intro c hc
        simp only [List.mem_append, List.mem_singleton] at hc
        rcases hc with hc | hc
        · exact Or.inl hc
        · exact Or.inr (Or.inr (Or.inr (hcs c hc)))
  · simp only [CreateOrUpdate, hg, mutate]
    rcases hfo : f ex with ⟨_ | o1, cs⟩
    · refine ⟨⟨[Call.get res.kind (res.key obj)] ++ cs, by simp, ?_⟩, by simp, Or.inl (by simp)⟩
      intro c hc
      simp only [List.mem_append, List.mem_singleton] at hc
      rcases hc with hc | hc
      · exact Or.inl hc
      · exact Or.inr (Or.inr (Or.inr ⟨ex, by rw [hfo]; exact hc⟩))
    · have hcs : ∀ c ∈ cs, ∃ o, c ∈ (f o).2 := fun c hc => ⟨ex, by rw [hfo]; exact hc⟩
      by_cases hk : res.key o1 = res.key obj
      · simp only [hk, if_true]
        by_cases he : ex = o1
        · simp only [he, if_true]
          refine ⟨⟨[Call.get res.kind (res.key obj)] ++ cs, by simp, ?_⟩, by simp,
            Or.inl (by simp)⟩
          intro c hc
          simp only [List.mem_append, List.mem_singleton] at hc
          rcases hc with hc | hc
          · exact Or.inl hc
          · exact Or.inr (Or.inr (Or.inr (hcs c hc)))
        · simp only [he, if_false, Client.Update, hk]
          cases env.faults (Call.update res.kind (res.key obj)) with
          | some msg =>
            refine ⟨⟨[Call.get res.kind (res.key obj)] ++ cs ++
              [Call.update res.kind (res.key obj)], by simp, ?_⟩, by simp, Or.inl (by simp)⟩
            intro c hc
            simp only [List.mem_append, List.mem_singleton] at hc
            rcases hc with (hc | hc) | hc
            · exact Or.inl hc
            · exact Or.inr (Or.inr (Or.inr (hcs c hc)))
            · exact Or.inr (Or.inr (Or.inl hc))
          | none =>
            cases res.find (St.record st (Call.get res.kind (res.key obj))).store (res.key obj) with
            | none =>
              refine ⟨⟨[Call.get res.kind (res.key obj)] ++ cs ++
                [Call.update res.kind (res.key obj)], by simp, ?_⟩, by simp, Or.inl (by simp)⟩
              intro c hc
              simp only [List.mem_append, List.mem_singleton] at hc
              rcases hc with (hc | hc) | hc
              · exact Or.inl hc
              · exact Or.inr (Or.inr (Or.inr (hcs c hc)))
              · exact Or.inr (Or.inr (Or.inl hc))
            | some _ =>
              refine ⟨⟨[Call.get res.kind (res.key obj)] ++ cs ++
                [Call.update res.kind (res.key obj)], by simp, ?_⟩, by simp,
                Or.inr ⟨_, by simp; rfl⟩⟩
              intro c hc
              simp only [List.mem_append, List.mem_singleton] at hc
              rcases hc with (hc | hc) | hc
              · exact Or.inl hc
              · exact Or.inr (Or.inr (Or.inr (hcs c hc)))
              · exact Or.inr (Or.inr (Or.inl hc))
      · simp only [hk, if_false]
        refine ⟨⟨[Call.get res.kind (res.key obj)] ++ cs, by simp, ?_⟩, by simp, Or.inl (by simp)⟩
        intro c hc
        simp only [List.mem_append, List.mem_singleton] at hc
        rcases hc with hc | hc
        · exact Or.inl hc
        · exact Or.inr (Or.inr (Or.inr (hcs c hc)))

/-- A successful `CreateOrUpdate`: the fetch met no store failure, the mutate
function accepted the stored object (or the given one when none was stored),
and its result is what the store holds under the key afterwards. -/
theorem CreateOrUpdate_ok {α : Type} [DecidableEq α] {env : Env} {res : Resource α} {obj : α}
    {f : MutateFn α} {st st1 : St} {op : OperationResult}
    (hlaw : ∀ s l, res.items (res.setItems s l) = l)
    (h : CreateOrUpdate env res obj f st = ((op, none), st1)) :
    env.faults (Call.get res.kind (res.key obj)) = none ∧
    ∃ new, (f ((res.find st.store (res.key obj)).getD obj)).1 = Except.ok new ∧
      res.key new = res.key obj ∧ res.find st1.store (res.key obj) = some new := by
  rcases Client.Get_cases env res (res.key obj) st with ⟨msg, _, hg⟩ | ⟨hf, hn, hg⟩ | ⟨ex, hf, hs, hg⟩
  · simp [CreateOrUpdate, hg, IsNotFound] at h
  · refine ⟨hf, ?_⟩
    simp only [CreateOrUpdate, hg, IsNotFound, mutate] at h
    rw [hn]
    rcases hfo : f obj with ⟨_ | o1, cs⟩
    · simp [hfo] at h
    · by_cases hk : res.key o1 = res.key obj
      · simp only [hfo, hk, if_true, Client.Create] at h
        cases hc : env.faults (Call.create res.kind (res.key obj)) with
        | some msg => simp [hc] at h
        | none =>
          have hn1 : res.find (St.record st (Call.get res.kind (res.key obj))).store
              (res.key obj) = none := hn
          simp only [hc, hn1, Bool.not_true, Bool.false_eq_true, if_false, Prod.mk.injEq,
            and_true, true_and] at h
          refine ⟨o1, by simp [hfo], hk, ?_⟩
          rw [← h.2]
          simp only [Resource.find, hlaw, List.find?_append]
          have hn2 : List.find? (fun o => decide (res.key o = res.key obj)) (res.items st.store)
              = none := hn
          simp [St.record, hn2, hk]
      · simp [hfo, hk] at h
  · refine ⟨hf, ?_⟩
    simp only [CreateOrUpdate, hg, mutate] at h
    rw [hs]
    rcases hfo : f ex with ⟨_ | o1, cs⟩
    · simp [hfo] at h
    · by_cases hk : res.key o1 = res.key obj
      · simp only [hfo, hk, if_true] at h
        by_cases he : ex = o1
        · simp only [he, if_true, Prod.mk.injEq, and_true, true_and] at h
          refine ⟨o1, by simp [hfo], hk, ?_⟩
          rw [← h.2]
          simpa [he] using hs
        · simp only [he, if_false, Client.Update, hk] at h
          cases hc : env.faults (Call.update res.kind (res.key obj)) with
          | some msg => simp [hc] at h
          | none =>
            have hs1 : res.find (St.record st (Call.get res.kind (res.key obj))).store
                (res.key obj) = some ex := hs
            simp only [hc, hs1, Prod.mk.injEq, and_true, true_and] at h
            refine ⟨o1, by simp [hfo], hk, ?_⟩
            rw [← h.2]
            simp only [Resource.find, hlaw, List.find?_map]
            have hs2 : List.find? (fun o => decide (res.key o = res.key obj)) (res.items st.store)
                = some ex := hs
            have hfun : ((fun o => decide (res.key o = res.key obj)) ∘
                fun o => if res.key o = res.key obj then o1 else o) =
                (fun o => decide (res.key o = res.key obj)) := by
              funext o
              by_cases hko : res.key o = res.key obj <;> simp [hko, hk]
            simp [St.record, hfun, hs2, res.find_key hs]
      · simp [hfo, hk] at h

/-- A `CreateOrUpdate` whose mutate function leaves the stored object as it is
writes nothing and reports `None` (unchanged). -/
theorem CreateOrUpdate_unchanged {α : Type} [DecidableEq α] {env : Env} {res : Resource α}
    {obj ex : α} {f : MutateFn α} {st : St} {cs : List Call}
    (hf : env.faults (Call.get res.kind (res.key obj)) = none)
    (hs : res.find st.store (res.key obj) = some ex)
    (hfe : f ex = (Except.ok ex, cs)) :
    CreateOrUpdate env res obj f st =
      ((OperationResult.None, none),
        { st with calls := st.calls ++ [Call.get res.kind (res.key obj)] ++ cs }) := by
  have hk := res.find_key hs
  simp [CreateOrUpdate, Client.Get_of_found hf hs, mutate, hfe, hk, St.record]

/-! ## Lemmas: owner references and the mutate closures -/

theorem referSameObject_self (a : OwnerReference) : referSameObject a a = true := by
  simp [referSameObject]

theorem replaceControllerRef_some_idem (ref : OwnerReference) :
    ∀ (l l1 : List OwnerReference), replaceControllerRef ref l = Except.ok (some l1) →
      replaceControllerRef ref l1 = Except.ok (some l1)
  | [], l1, h => by simp [replaceControllerRef] at h
  | r :: rs, l1, h => by
    unfold replaceControllerRef at h
    by_cases hsame : referSameObject ref r = true
    · rcases hrec : replaceControllerRef ref rs with o | (_ | rs1)
      · simp [hsame, hrec] at h
      · simp [hsame, hrec] at h
        subst h
        simp [replaceControllerRef, referSameObject_self, hrec]
      · simp [hsame, hrec] at h
        subst h
        have ih := replaceControllerRef_some_idem ref rs rs1 hrec
        simp [replaceControllerRef, hsame, ih]
    · by_cases hc : r.Controller = some true
      · simp [hsame, hc] at h
      · rcases hrec : replaceControllerRef ref rs with o | (_ | rs1)
        · simp [hsame, hc, hrec] at h
        · simp [hsame, hc, hrec] at h
        · simp [hsame, hc, hrec] at h
          subst h
          have ih := replaceControllerRef_some_idem ref rs rs1 hrec
          simp [replaceControllerRef, hsame, hc, ih]

theorem replaceControllerRef_none_append (ref : OwnerReference) :
    ∀ (l : List OwnerReference), replaceControllerRef ref l = Except.ok none →
      replaceControllerRef ref (l ++ [ref]) = Except.ok (some (l ++ [ref]))
  | [], _ => by simp [replaceControllerRef, referSameObject_self]
  | r :: rs, h => by
    unfold replaceControllerRef at h
    by_cases hsame : referSameObject ref r = true
    · rcases hrec : replaceControllerRef ref rs with o | (_ | rs1) <;> simp [hsame, hrec] at h
    · by_cases hc : r.Controller = some true
      · simp [hsame, hc] at h
      · rcases hrec : replaceControllerRef ref rs with o | (_ | rs1)
        · simp [hsame, hc, hrec] at h
        · have ih := replaceControllerRef_none_append ref rs hrec
          simp [replaceControllerRef, hsame, hc, ih]
        · simp [hsame, hc, hrec] at h

/-- What a successful `SetControllerReference` returns: the same metadata with
new owner references, on which a second call changes nothing. -/
theorem SetControllerReference_ok {owner : HTTPProxy} {m m1 : ObjectMeta}
    (h : SetControllerReference owner m = Except.ok m1) :
    (∃ refs, m1 = { m with OwnerReferences := refs }) ∧
      SetControllerReference owner m1 = Except.ok m1 := by
  unfold SetControllerReference at h
  rcases hrec : replaceControllerRef (NewControllerRef owner) m.OwnerReferences with o | (_ | refs)
  · simp [hrec] at h
  · simp only [hrec, Except.ok.injEq] at h
    subst h
    refine ⟨⟨_, rfl⟩, ?_⟩
    have := replaceControllerRef_none_append _ _ hrec
    simp [SetControllerReference, this]
  · simp only [hrec, Except.ok.injEq] at h
    subst h
    refine ⟨⟨_, rfl⟩, ?_⟩
    have := replaceControllerRef_some_idem _ _ _ hrec
    simp [SetControllerReference, this]

theorem mutateDNSEndpoint_calls (hp : HTTPProxy) (fqdn : String) (ips : List IP)
    (de : DNSEndpoint) : (mutateDNSEndpoint hp fqdn ips de).2 = [Call.makeEndpoints fqdn ips] := by
  unfold mutateDNSEndpoint
  simp only []
  split <;> rfl

/-- The DNS closure, when it succeeds, sets the endpoints, keeps the key, and
is left unchanged by a second run. -/
theorem mutateDNSEndpoint_ok {hp : HTTPProxy} {fqdn : String} {ips : List IP}
    {de new : DNSEndpoint} (h : (mutateDNSEndpoint hp fqdn ips de).1 = Except.ok new) :
    new.Spec.Endpoints = makeEndpoints fqdn ips ∧
    new.toObjectMeta.key = de.toObjectMeta.key ∧
    mutateDNSEndpoint hp fqdn ips new = (Except.ok new, [Call.makeEndpoints fqdn ips]) := by
  unfold mutateDNSEndpoint at h
  simp only [] at h
  rcases hset : SetControllerReference hp de.toObjectMeta with e | m
  · simp [hset] at h
  · simp only [hset, Except.ok.injEq] at h
    subst h
    obtain ⟨⟨refs, hm⟩, hidem⟩ := SetControllerReference_ok hset
    refine ⟨rfl, by simp [hm, ObjectMeta.key], ?_⟩
    simp [mutateDNSEndpoint, hidem]

theorem mutateCertificate_calls (hp : HTTPProxy) (vh : VirtualHost) (tls : TLS)
    (issuerName issuerKind : String) (crt : Certificate) :
    (mutateCertificate hp vh tls issuerName issuerKind crt).2 = [] := by
  unfold mutateCertificate
  simp only []
  split <;> rfl

/-- The certificate closure, when it succeeds, sets the five fields, keeps the
others and the key, and is left unchanged by a second run. -/
theorem mutateCertificate_ok {hp : HTTPProxy} {vh : VirtualHost} {tls : TLS}
    {issuerName issuerKind : String} {crt new : Certificate}
    (h : (mutateCertificate hp vh tls issuerName issuerKind crt).1 = Except.ok new) :
    new.Spec.DNSNames = [vh.Fqdn] ∧ new.Spec.SecretName = tls.SecretName ∧
    new.Spec.CommonName = vh.Fqdn ∧
    new.Spec.IssuerRef = { Name := issuerName, Kind := issuerKind } ∧
    new.Spec.Organization = crt.Spec.Organization ∧ new.Spec.IsCA = crt.Spec.IsCA ∧
    new.toObjectMeta.key = crt.toObjectMeta.key ∧
    mutateCertificate hp vh tls issuerName issuerKind new = (Except.ok new, []) := by
  unfold mutateCertificate at h
  simp only [] at h
  rcases hset : SetControllerReference hp crt.toObjectMeta with e | m
  · simp [hset] at h
  · simp only [hset, Except.ok.injEq] at h
    subst h
    obtain ⟨⟨refs, hm⟩, hidem⟩ := SetControllerReference_ok hset
    refine ⟨rfl, rfl, rfl, rfl, rfl, rfl, by simp [hm, ObjectMeta.key], ?_⟩
    simp [mutateCertificate, hidem]

/-! ## Lemmas: the DNS branch -/

theorem collectServiceIPs_eq (env : Env) :
    ∀ (l : List LoadBalancerIngress) (acc : List IP),
      collectServiceIPs env l acc =
        acc ++ (l.filter (fun ing => decide (ing.IP ≠ ""))).map (fun ing => env.ParseIP ing.IP)
  | [], acc => by simp [collectServiceIPs]
  | ing :: rest, acc => by
    unfold collectServiceIPs
    by_cases h : ing.IP = ""
    · have h0 : ing.IP.length = 0 := (String.length_eq_zero_iff _).mpr h
      simp [h0, h, collectServiceIPs_eq env rest]
    · have h0 : ¬ ing.IP.length = 0 := fun hl => h ((String.length_eq_zero_iff _).mp hl)
      simp [h0, h, collectServiceIPs_eq env rest]

theorem collectServiceIPs_spec (env : Env) (svc : Service) :
    collectServiceIPs env svc.Status.LoadBalancer.Ingress [] = serviceIPsSpec env svc := by
  simp [collectServiceIPs_eq, serviceIPsSpec]

theorem serviceIPsSpec_ne_nil {env : Env} {svc : Service}
    (h : ∃ ing ∈ svc.Status.LoadBalancer.Ingress, ing.IP ≠ "") : serviceIPsSpec env svc ≠ [] := by
  obtain ⟨ing, hmem, hne⟩ := h
  intro hnil
  have : env.ParseIP ing.IP ∈ serviceIPsSpec env svc := by
    unfold serviceIPsSpec
    exact List.mem_map.mpr ⟨ing, List.mem_filter.mpr ⟨hmem, by simpa using hne⟩, rfl⟩
  rw [hnil] at this
  exact absurd this (List.not_mem_nil _)

theorem serviceIPsSpec_eq_nil {env : Env} {svc : Service}
    (h : ∀ ing ∈ svc.Status.LoadBalancer.Ingress, ing.IP = "") : serviceIPsSpec env svc = [] := by
  unfold serviceIPsSpec
  rw [List.map_eq_nil_iff, List.filter_eq_nil_iff]
  intro ing hmem
  simp [h ing hmem]

theorem reconcileDNSEndpoint_disabled {env : Env} {r : HTTPProxyReconciler} {hp : HTTPProxy}
    {st : St} (h : r.CreateDNSEndpoint = false) : reconcileDNSEndpoint env r hp st = (none, st) := by
  simp [reconcileDNSEndpoint, h]

theorem reconcileDNSEndpoint_no_vhost {env : Env} {r : HTTPProxyReconciler} {hp : HTTPProxy}
    {st : St} (h : hp.Spec.VirtualHost = none) : reconcileDNSEndpoint env r hp st = (none, st) := by
  simp [reconcileDNSEndpoint, h]

theorem reconcileDNSEndpoint_no_fqdn {env : Env} {r : HTTPProxyReconciler} {hp : HTTPProxy}
    {st : St} {vh : VirtualHost} (h : hp.Spec.VirtualHost = some vh) (hfq : vh.Fqdn = "") :
    reconcileDNSEndpoint env r hp st = (none, st) := by
  simp [reconcileDNSEndpoint, h, hfq]

/-- The DNS branch past its guards, up to the fetch of the target service. -/
theorem reconcileDNSEndpoint_fetch {env : Env} {r : HTTPProxyReconciler} {hp : HTTPProxy}
    {st : St} {vh : VirtualHost} (hen : r.CreateDNSEndpoint = true)
    (h : hp.Spec.VirtualHost = some vh) (hfq : vh.Fqdn ≠ "") :
    reconcileDNSEndpoint env r hp st =
      match Client.Get env Services r.ServiceKey st with
      | (Except.error err, st1) => (some err, st1)
      | (Except.ok svc, st1) =>
        if serviceIPsSpec env svc = [] then
          (none, st1.log (LogEntry.info ("no IP address for service " ++ r.ServiceKey.String) none))
        else
          match CreateOrUpdate env DNSEndpoints
              { Namespace := hp.Namespace, Name := r.Prefix ++ hp.Name }
              (mutateDNSEndpoint hp vh.Fqdn (serviceIPsSpec env svc)) st1 with
          | ((_, some err), st2) => (some err, st2)
          | ((op, none), st2) =>
            (none, st2.log (LogEntry.info "DNSEndpoint successfully reconciled" (some op))) := by
  have h0 : ¬ vh.Fqdn.length = 0 := fun hl => hfq ((String.length_eq_zero_iff _).mp hl)
  simp only [reconcileDNSEndpoint, hen, h, h0, collectServiceIPs_spec, List.length_eq_zero]
  rfl

theorem DNSEndpoints_law (s : Store) (l : List DNSEndpoint) :
    DNSEndpoints.items (DNSEndpoints.setItems s l) = l := rfl

theorem Certificates_law (s : Store) (l : List Certificate) :
    Certificates.items (Certificates.setItems s l) = l := rfl

/-- The DNS branch touches nothing but the DNSEndpoint collection, and the
calls it makes are the fetch of the target service, fetches and writes of the
derived DNSEndpoint key, and calls of `makeEndpoints` with a non-empty list. -/
theorem reconcileDNSEndpoint_frame (env : Env) (r : HTTPProxyReconciler) (hp : HTTPProxy)
    (st : St) :
    (reconcileDNSEndpoint env r hp st).2.store.HTTPProxies = st.store.HTTPProxies ∧
    (reconcileDNSEndpoint env r hp st).2.store.Services = st.store.Services ∧
    (reconcileDNSEndpoint env r hp st).2.store.Certificates = st.store.Certificates ∧
    ∃ cs, (reconcileDNSEndpoint env r hp st).2.calls = st.calls ++ cs ∧
      ∀ c ∈ cs, c = Call.get Kind.Service r.ServiceKey ∨
        c = Call.get Kind.DNSEndpoint (derivedKey r hp) ∨
        c = Call.create Kind.DNSEndpoint (derivedKey r hp) ∨
        c = Call.update Kind.DNSEndpoint (derivedKey r hp) ∨
        ∃ fqdn ips, c = Call.makeEndpoints fqdn ips ∧ ips ≠ [] := by
  have htriv : ∀ x : Option Err × St, x = (none, st) →
      x.2.store.HTTPProxies = st.store.HTTPProxies ∧ x.2.store.Services = st.store.Services ∧
      x.2.store.Certificates = st.store.Certificates ∧
      ∃ cs, x.2.calls = st.calls ++ cs ∧
        ∀ c ∈ cs, c = Call.get Kind.Service r.ServiceKey ∨
          c = Call.get Kind.DNSEndpoint (derivedKey r hp) ∨
          c = Call.create Kind.DNSEndpoint (derivedKey r hp) ∨
          c = Call.update Kind.DNSEndpoint (derivedKey r hp) ∨
          ∃ fqdn ips, c = Call.makeEndpoints fqdn ips ∧ ips ≠ [] := by
    intro x hx
    subst hx
    exact ⟨rfl, rfl, rfl, [], by simp, by simp⟩
  by_cases hen : r.CreateDNSEndpoint = true
  swap
  · exact htriv _ (reconcileDNSEndpoint_disabled (by simpa using hen))
  cases hvh : hp.Spec.VirtualHost with
  | none => exact htriv _ (reconcileDNSEndpoint_no_vhost hvh)
  | some vh =>
    by_cases hfq : vh.Fqdn = ""
    · exact htriv _ (reconcileDNSEndpoint_no_fqdn hvh hfq)
    rw [reconcileDNSEndpoint_fetch hen hvh hfq]
    have hget : ∀ c ∈ [Call.get Services.kind r.ServiceKey],
        c = Call.get Kind.Service r.ServiceKey ∨
        c = Call.get Kind.DNSEndpoint (derivedKey r hp) ∨
        c = Call.create Kind.DNSEndpoint (derivedKey r hp) ∨
        c = Call.update Kind.DNSEndpoint (derivedKey r hp) ∨
        ∃ fqdn ips, c = Call.makeEndpoints fqdn ips ∧ ips ≠ [] := by
      intro c hc
      exact Or.inl (by simpa using hc)
    rcases Client.Get_cases env Services r.ServiceKey st with
      ⟨msg, _, hg⟩ | ⟨_, _, hg⟩ | ⟨svc, _, _, hg⟩
    · rw [hg]
      exact ⟨rfl, rfl, rfl, [Call.get Services.kind r.ServiceKey], rfl, hget⟩
    · rw [hg]
      exact ⟨rfl, rfl, rfl, [Call.get Services.kind r.ServiceKey], rfl, hget⟩
    · rw [hg]
      by_cases hips : serviceIPsSpec env svc = []
      · simp only [hips, if_true]
        exact ⟨rfl, rfl, rfl, [Call.get Services.kind r.ServiceKey], rfl, hget⟩
      · simp only [hips, if_false]
        obtain ⟨⟨cs, hcs, hmem⟩, _, hstore⟩ := CreateOrUpdate_frame env DNSEndpoints
          ({ Namespace := hp.Namespace, Name := r.Prefix ++ hp.Name } : DNSEndpoint)
          (mutateDNSEndpoint hp vh.Fqdn (serviceIPsSpec env svc))
          (st.record (Call.get Services.kind r.ServiceKey))
        rcases hX : CreateOrUpdate env DNSEndpoints
          ({ Namespace := hp.Namespace, Name := r.Prefix ++ hp.Name } : DNSEndpoint)
          (mutateDNSEndpoint hp vh.Fqdn (serviceIPsSpec env svc))
          (st.record (Call.get Services.kind r.ServiceKey)) with ⟨⟨op, _ | e⟩, st2⟩
        all_goals
          rw [hX] at hcs hstore
          simp only [St.log_store, St.log_calls, St.record_store, St.record_calls] at hcs hstore ⊢
          have hst : st2.store.HTTPProxies = st.store.HTTPProxies ∧
              st2.store.Services = st.store.Services ∧
              st2.store.Certificates = st.store.Certificates := by
            rcases hstore with h | ⟨l, h⟩
            · rw [h]; exact ⟨rfl, rfl, rfl⟩
            · rw [h]; exact ⟨rfl, rfl, rfl⟩
          refine ⟨hst.1, hst.2.1, hst.2.2, Call.get Services.kind r.ServiceKey :: cs,
            by simp [hcs], ?_⟩
          intro c hc
          rcases List.mem_cons.mp hc with hc | hc
          · exact Or.inl hc
          · rcases hmem c hc with h | h | h | ⟨o, h⟩
            · exact Or.inr (Or.inl h)
            · exact Or.inr (Or.inr (Or.inl h))
            · exact Or.inr (Or.inr (Or.inr (Or.inl h)))
            · rw [mutateDNSEndpoint_calls] at h
              exact Or.inr (Or.inr (Or.inr (Or.inr
                ⟨_, _, List.mem_singleton.mp h, hips⟩)))

theorem Resource.find_congr {α : Type} (res : Resource α) {s s1 : Store}
    (h : res.items s = res.items s1) (key : ObjectKey) : res.find s key = res.find s1 key := by
  simp [Resource.find, h]

/-- Postcondition of the DNS branch: past its guards, with the target service
stored and holding an address, a pass that reports no error leaves a
DNSEndpoint under the derived key whose endpoints are `makeEndpoints` of the
fqdn and the service's addresses. -/
theorem reconcileDNSEndpoint_post {env : Env} {r : HTTPProxyReconciler} {hp : HTTPProxy}
    {st st1 : St} {vh : VirtualHost} {svc : Service} (hen : r.CreateDNSEndpoint = true)
    (hvh : hp.Spec.VirtualHost = some vh) (hfq : vh.Fqdn ≠ "")
    (hs : Services.find st.store r.ServiceKey = some svc)
    (hips : serviceIPsSpec env svc ≠ [])
    (h : reconcileDNSEndpoint env r hp st = (none, st1)) :
    ∃ de, DNSEndpoints.find st1.store (derivedKey r hp) = some de ∧
      de.Spec.Endpoints = makeEndpoints vh.Fqdn (serviceIPsSpec env svc) := by
  rw [reconcileDNSEndpoint_fetch hen hvh hfq] at h
  rcases Client.Get_cases env Services r.ServiceKey st with
    ⟨msg, _, hg⟩ | ⟨_, hn, hg⟩ | ⟨svc1, _, hs1, hg⟩
  · rw [hg] at h
    simp at h
  · rw [hs] at hn
    cases hn
  · rw [hs] at hs1
    cases hs1
    rw [hg] at h
    simp only [hips, if_false] at h
    rcases hX : CreateOrUpdate env DNSEndpoints
      ({ Namespace := hp.Namespace, Name := r.Prefix ++ hp.Name } : DNSEndpoint)
      (mutateDNSEndpoint hp vh.Fqdn (serviceIPsSpec env svc))
      (st.record (Call.get Services.kind r.ServiceKey)) with ⟨⟨op, _ | e⟩, st2⟩
    · rw [hX] at h
      simp only [Prod.mk.injEq, true_and] at h
      obtain ⟨_, new, hnew, _, hfind⟩ := CreateOrUpdate_ok DNSEndpoints_law hX
      refine ⟨new, ?_, (mutateDNSEndpoint_ok hnew).1⟩
      rw [← h]
      exact hfind
    · rw [hX] at h
      simp at h

/-- Second pass of the DNS branch: once a pass has reported no error, a pass
over any state holding the same services and DNSEndpoints reports no error
either, leaves the store as it is, writes nothing, and every upsert it logs
reports `None` (unchanged). -/
theorem reconcileDNSEndpoint_idem {env : Env} {r : HTTPProxyReconciler} {hp : HTTPProxy}
    {st st1 : St} (h : reconcileDNSEndpoint env r hp st = (none, st1)) (st2 : St)
    (hS : st2.store.Services = st.store.Services)
    (hD : st2.store.DNSEndpoints = st1.store.DNSEndpoints) :
    ∃ st3 cs ls, reconcileDNSEndpoint env r hp st2 = (none, st3) ∧ st3.store = st2.store ∧
      st3.calls = st2.calls ++ cs ∧ st3.logs = st2.logs ++ ls ∧
      (∀ c ∈ cs, c.isWrite = false) ∧
      (∀ msg op, LogEntry.info msg (some op) ∈ ls → op = OperationResult.None) := by
  have htriv : reconcileDNSEndpoint env r hp st2 = (none, st2) →
      ∃ st3 cs ls, reconcileDNSEndpoint env r hp st2 = (none, st3) ∧ st3.store = st2.store ∧
      st3.calls = st2.calls ++ cs ∧ st3.logs = st2.logs ++ ls ∧
      (∀ c ∈ cs, c.isWrite = false) ∧
      (∀ msg op, LogEntry.info msg (some op) ∈ ls → op = OperationResult.None) := by
    intro hx
    exact ⟨st2, [], [], hx, rfl, by simp, by simp, by simp, by simp⟩
  by_cases hen : r.CreateDNSEndpoint = true
  swap
  · exact htriv (reconcileDNSEndpoint_disabled (by simpa using hen))
  cases hvh : hp.Spec.VirtualHost with
  | none => exact htriv (reconcileDNSEndpoint_no_vhost hvh)
  | some vh =>
    by_cases hfq : vh.Fqdn = ""
    · exact htriv (reconcileDNSEndpoint_no_fqdn hvh hfq)
    rw [reconcileDNSEndpoint_fetch hen hvh hfq] at h ⊢
    rcases Client.Get_cases env Services r.ServiceKey st with
      ⟨msg, _, hg⟩ | ⟨_, _, hg⟩ | ⟨svc, hf, hs, hg⟩
    · rw [hg] at h
      simp at h
    · rw [hg] at h
      simp at h
    · rw [hg] at h
      have hs2 : Services.find st2.store r.ServiceKey = some svc := by
        rw [Services.find_congr (show Services.items st2.store = Services.items st.store from hS)]
        exact hs
      rw [Client.Get_of_found hf hs2]
      by_cases hips : serviceIPsSpec env svc = []
      · simp only [hips, if_true]
        refine ⟨_, [Call.get Services.kind r.ServiceKey],
          [LogEntry.info ("no IP address for service " ++ r.ServiceKey.String) none],
          rfl, rfl, rfl, rfl, ?_, ?_⟩
        · intro c hc
          rw [List.mem_singleton.mp hc]
          rfl
        · intro msg op hm
          simp at hm
      · simp only [hips, if_false] at h ⊢
        rcases hX : CreateOrUpdate env DNSEndpoints
          ({ Namespace := hp.Namespace, Name := r.Prefix ++ hp.Name } : DNSEndpoint)
          (mutateDNSEndpoint hp vh.Fqdn (serviceIPsSpec env svc))
          (st.record (Call.get Services.kind r.ServiceKey)) with ⟨⟨op, _ | e⟩, st4⟩
        swap
        · rw [hX] at h
          simp at h
        rw [hX] at h
        simp only [Prod.mk.injEq, true_and] at h
        obtain ⟨hfd, new, hnew, _, hfind⟩ := CreateOrUpdate_ok DNSEndpoints_law hX
        have hfind2 : DNSEndpoints.find (st2.record (Call.get Services.kind r.ServiceKey)).store
            (DNSEndpoints.key ({ Namespace := hp.Namespace, Name := r.Prefix ++ hp.Name } :
              DNSEndpoint)) = some new := by
          rw [← hfind]
          apply DNSEndpoints.find_congr
          show st2.store.DNSEndpoints = st4.store.DNSEndpoints
          rw [hD, ← h]
          rfl
        rw [CreateOrUpdate_unchanged hfd hfind2 (mutateDNSEndpoint_ok hnew).2.2]
        refine ⟨_, [Call.get Services.kind r.ServiceKey,
            Call.get DNSEndpoints.kind (DNSEndpoints.key
              ({ Namespace := hp.Namespace, Name := r.Prefix ++ hp.Name } : DNSEndpoint)),
            Call.makeEndpoints vh.Fqdn (serviceIPsSpec env svc)],
          [LogEntry.info "DNSEndpoint successfully reconciled" (some OperationResult.None)],
          rfl, rfl, by simp, rfl, ?_, ?_⟩
        · intro c hc
          simp only [List.mem_cons, List.mem_singleton, List.not_mem_nil, or_false] at hc
          rcases hc with hc | hc | hc <;> rw [hc] <;> rfl
        · intro msg op hm
          simp only [List.mem_singleton, LogEntry.info.injEq, Option.some.injEq] at hm
          exact hm.2

/-! ## Lemmas: the certificate branch -/

theorem mapIndex_eq_true_iff (m : List (String × String)) (k : String) :
    mapIndex m k = "true" ↔ m.lookup k = some "true" := by
  unfold mapIndex
  cases m.lookup k with
  | none => simp
  | some v => simp

theorem certificateInputs_some {hp : HTTPProxy} {vh : VirtualHost} {tls : TLS}
    (hacme : hp.Annotations.lookup testACMETLSAnnotation = some "true")
    (hvh : hp.Spec.VirtualHost = some vh) (hfq : vh.Fqdn ≠ "") (htls : vh.TLS = some tls)
    (hsec : tls.SecretName ≠ "") : certificateInputs hp = some (vh, tls) := by
  simp [certificateInputs, (mapIndex_eq_true_iff _ _).mpr hacme, hvh, hfq, htls, hsec]

theorem certificateInputs_some_inv {hp : HTTPProxy} {vh : VirtualHost} {tls : TLS}
    (h : certificateInputs hp = some (vh, tls)) :
    hp.Annotations.lookup testACMETLSAnnotation = some "true" ∧
    hp.Spec.VirtualHost = some vh ∧ vh.Fqdn ≠ "" ∧ vh.TLS = some tls ∧ tls.SecretName ≠ "" := by
  unfold certificateInputs at h
  by_cases hacme : mapIndex hp.Annotations testACMETLSAnnotation = "true"
  swap
  · simp [hacme] at h
  cases hvh : hp.Spec.VirtualHost with
  | none => simp [hvh] at h
  | some vh1 =>
    by_cases hfq : vh1.Fqdn = ""
    · simp [hvh, hfq] at h
    cases htls : vh1.TLS with
    | none => simp [hvh, htls] at h
    | some tls1 =>
      by_cases hsec : tls1.SecretName = ""
      · simp [hvh, htls, hsec] at h
      simp [hacme, hvh, hfq, htls, hsec] at h
      obtain ⟨h1, h2⟩ := h
      subst h1
      subst h2
      exact ⟨(mapIndex_eq_true_iff _ _).mp hacme, rfl, hfq, htls, hsec⟩

theorem reconcileCertificate_disabled {env : Env} {r : HTTPProxyReconciler} {hp : HTTPProxy}
    {st : St} (h : r.CreateCertificate = false) : reconcileCertificate env r hp st = (none, st) := by
  simp [reconcileCertificate, h]

theorem reconcileCertificate_skip {env : Env} {r : HTTPProxyReconciler} {hp : HTTPProxy}
    {st : St} (h : certificateInputs hp = none) : reconcileCertificate env r hp st = (none, st) := by
  unfold certificateInputs at h
  unfold reconcileCertificate
  by_cases hen : r.CreateCertificate = true
  swap
  · simp [hen]
  by_cases hacme : mapIndex hp.Annotations testACMETLSAnnotation = "true"
  swap
  · simp [hacme]
  cases hvh : hp.Spec.VirtualHost with
  | none => simp
  | some vh =>
    by_cases hfq : vh.Fqdn = ""
    · simp [hfq]
    cases htls : vh.TLS with
    | none => simp [htls]
    | some tls =>
      by_cases hsec : tls.SecretName = ""
      · simp [htls, hsec]
      simp [hacme, hvh, hfq, htls, hsec] at h

/-- The certificate branch past its guards. -/
theorem reconcileCertificate_main {env : Env} {r : HTTPProxyReconciler} {hp : HTTPProxy}
    {st : St} {vh : VirtualHost} {tls : TLS} (hen : r.CreateCertificate = true)
    (h : certificateInputs hp = some (vh, tls)) :
    reconcileCertificate env r hp st =
      if (resolveIssuer r hp).1 = "" then (none, st.log (LogEntry.info "no issuer name" none))
      else
        match CreateOrUpdate env Certificates
            { Namespace := hp.Namespace, Name := r.Prefix ++ hp.Name }
            (mutateCertificate hp vh tls (resolveIssuer r hp).1 (resolveIssuer r hp).2) st with
        | ((_, some err), st2) => (some err, st2)
        | ((op, none), st2) =>
          (none, st2.log (LogEntry.info "Certificate successfully reconciled" (some op))) := by
  obtain ⟨hacme, hvh, hfq, htls, hsec⟩ := certificateInputs_some_inv h
  simp only [reconcileCertificate, hen, (mapIndex_eq_true_iff _ _).mpr hacme, hvh, hfq, htls, hsec]
  rfl

/-- The certificate branch touches nothing but the Certificate collection, and
the calls it makes are fetches and writes of the derived Certificate key. -/
theorem reconcileCertificate_frame (env : Env) (r : HTTPProxyReconciler) (hp : HTTPProxy)
    (st : St) :
    (reconcileCertificate env r hp st).2.store.HTTPProxies = st.store.HTTPProxies ∧
    (reconcileCertificate env r hp st).2.store.Services = st.store.Services ∧
    (reconcileCertificate env r hp st).2.store.DNSEndpoints = st.store.DNSEndpoints ∧
    ∃ cs, (reconcileCertificate env r hp st).2.calls = st.calls ++ cs ∧
      ∀ c ∈ cs, c = Call.get Kind.Certificate (derivedKey r hp) ∨
        c = Call.create Kind.Certificate (derivedKey r hp) ∨
        c = Call.update Kind.Certificate (derivedKey r hp) := by
  have htriv : ∀ x : Option Err × St, x = (none, st) →
      x.2.store.HTTPProxies = st.store.HTTPProxies ∧ x.2.store.Services = st.store.Services ∧
      x.2.store.DNSEndpoints = st.store.DNSEndpoints ∧
      ∃ cs, x.2.calls = st.calls ++ cs ∧
        ∀ c ∈ cs, c = Call.get Kind.Certificate (derivedKey r hp) ∨
          c = Call.create Kind.Certificate (derivedKey r hp) ∨
          c = Call.update Kind.Certificate (derivedKey r hp) := by
    intro x hx
    subst hx
    exact ⟨rfl, rfl, rfl, [], by simp, by simp⟩
  by_cases hen : r.CreateCertificate = true
  swap
  · exact htriv _ (reconcileCertificate_disabled (by simpa using hen))
  cases hin : certificateInputs hp with
  | none => exact htriv _ (reconcileCertificate_skip hin)
  | some p =>
    obtain ⟨vh, tls⟩ := p
    rw [reconcileCertificate_main hen hin]
    by_cases hname : (resolveIssuer r hp).1 = ""
    · simp only [hname, if_true]
      exact ⟨rfl, rfl, rfl, [], by simp, by simp⟩
    · simp only [hname, if_false]
      obtain ⟨⟨cs, hcs, hmem⟩, _, hstore⟩ := CreateOrUpdate_frame env Certificates
        ({ Namespace := hp.Namespace, Name := r.Prefix ++ hp.Name } : Certificate)
        (mutateCertificate hp vh tls (resolveIssuer r hp).1 (resolveIssuer r hp).2) st
      rcases hX : CreateOrUpdate env Certificates
        ({ Namespace := hp.Namespace, Name := r.Prefix ++ hp.Name } : Certificate)
        (mutateCertificate hp vh tls (resolveIssuer r hp).1 (resolveIssuer r hp).2) st
        with ⟨⟨op, _ | e⟩, st2⟩
      all_goals
        rw [hX] at hcs hstore
        simp only [St.log_store, St.log_calls] at hcs hstore ⊢
        have hst : st2.store.HTTPProxies = st.store.HTTPProxies ∧
            st2.store.Services = st.store.Services ∧
            st2.store.DNSEndpoints = st.store.DNSEndpoints := by
          rcases hstore with h | ⟨l, h⟩
          · rw [h]; exact ⟨rfl, rfl, rfl⟩
          · rw [h]; exact ⟨rfl, rfl, rfl⟩
        refine ⟨hst.1, hst.2.1, hst.2.2, cs, hcs, ?_⟩
        intro c hc
        rcases hmem c hc with h | h | h | ⟨o, h⟩
        · exact Or.inl h
        · exact Or.inr (Or.inl h)
        · exact Or.inr (Or.inr h)
        · rw [mutateCertificate_calls] at h
          exact absurd h (List.not_mem_nil _)

/-- Postcondition of the certificate branch: past its guards and with an
issuer name, a pass that reports no error leaves a Certificate under the
derived key carrying the fqdn, the secret name and the resolved issuer. -/
theorem reconcileCertificate_post {env : Env} {r : HTTPProxyReconciler} {hp : HTTPProxy}
    {st st1 : St} {vh : VirtualHost} {tls : TLS} (hen : r.CreateCertificate = true)
    (hin : certificateInputs hp = some (vh, tls)) (hname : (resolveIssuer r hp).1 ≠ "")
    (h : reconcileCertificate env r hp st = (none, st1)) :
    ∃ crt, Certificates.find st1.store (derivedKey r hp) = some crt ∧
      crt.Spec.DNSNames = [vh.Fqdn] ∧ crt.Spec.CommonName = vh.Fqdn ∧
      crt.Spec.SecretName = tls.SecretName ∧
      crt.Spec.IssuerRef = { Name := (resolveIssuer r hp).1, Kind := (resolveIssuer r hp).2 } := by
  rw [reconcileCertificate_main hen hin] at h
  simp only [hname, if_false] at h
  rcases hX : CreateOrUpdate env Certificates
    ({ Namespace := hp.Namespace, Name := r.Prefix ++ hp.Name } : Certificate)
    (mutateCertificate hp vh tls (resolveIssuer r hp).1 (resolveIssuer r hp).2) st
    with ⟨⟨op, _ | e⟩, st2⟩
  · rw [hX] at h
    simp only [Prod.mk.injEq, true_and] at h
    obtain ⟨_, new, hnew, _, hfind⟩ := CreateOrUpdate_ok Certificates_law hX
    obtain ⟨h1, h2, h3, h4, _⟩ := mutateCertificate_ok hnew
    refine ⟨new, ?_, h1, h3, h2, h4⟩
    rw [← h]
    exact hfind
  · rw [hX] at h
    simp at h

/-- Second pass of the certificate branch: once a pass has reported no error,
a pass over any state holding the same certificates reports no error either,
leaves the store as it is, writes nothing, and every upsert it logs reports
`None` (unchanged). -/
theorem reconcileCertificate_idem {env : Env} {r : HTTPProxyReconciler} {hp : HTTPProxy}
    {st st1 : St} (h : reconcileCertificate env r hp st = (none, st1)) (st2 : St)
    (hC : st2.store.Certificates = st1.store.Certificates) :
    ∃ st3 cs ls, reconcileCertificate env r hp st2 = (none, st3) ∧ st3.store = st2.store ∧
      st3.calls = st2.calls ++ cs ∧ st3.logs = st2.logs ++ ls ∧
      (∀ c ∈ cs, c.isWrite = false) ∧
      (∀ msg op, LogEntry.info msg (some op) ∈ ls → op = OperationResult.None) := by
  have htriv : reconcileCertificate env r hp st2 = (none, st2) →
      ∃ st3 cs ls, reconcileCertificate env r hp st2 = (none, st3) ∧ st3.store = st2.store ∧
      st3.calls = st2.calls ++ cs ∧ st3.logs = st2.logs ++ ls ∧
      (∀ c ∈ cs, c.isWrite = false) ∧
      (∀ msg op, LogEntry.info msg (some op) ∈ ls → op = OperationResult.None) := by
    intro hx
    exact ⟨st2, [], [], hx, rfl, by simp, by simp, by simp, by simp⟩
  by_cases hen : r.CreateCertificate = true
  swap
  · exact htriv (reconcileCertificate_disabled (by simpa using hen))
  cases hin : certificateInputs hp with
  | none => exact htriv (reconcileCertificate_skip hin)
  | some p =>
    obtain ⟨vh, tls⟩ := p
    rw [reconcileCertificate_main hen hin] at h ⊢
    by_cases hname : (resolveIssuer r hp).1 = ""
    · simp only [hname, if_true]
      refine ⟨_, [], [LogEntry.info "no issuer name" none], rfl, rfl, by simp, rfl, ?_, ?_⟩
      · intro c hc
        exact absurd hc (List.not_mem_nil _)
      · intro msg op hm
        simp at hm
    · simp only [hname, if_false] at h ⊢
      rcases hX : CreateOrUpdate env Certificates
        ({ Namespace := hp.Namespace, Name := r.Prefix ++ hp.Name } : Certificate)
        (mutateCertificate hp vh tls (resolveIssuer r hp).1 (resolveIssuer r hp).2) st
        with ⟨⟨op, _ | e⟩, st4⟩
      swap
      · rw [hX] at h
        simp at h
      rw [hX] at h
      simp only [Prod.mk.injEq, true_and] at h
      obtain ⟨hfd, new, hnew, _, hfind⟩ := CreateOrUpdate_ok Certificates_law hX
      have hfind2 : Certificates.find st2.store
          (Certificates.key ({ Namespace := hp.Namespace, Name := r.Prefix ++ hp.Name } :
            Certificate)) = some new := by
        rw [← hfind]
        apply Certificates.find_congr
        show st2.store.Certificates = st4.store.Certificates
        rw [hC, ← h]
        rfl
      rw [CreateOrUpdate_unchanged hfd hfind2 (mutateCertificate_ok hnew).2.2.2.2.2.2.2]
      refine ⟨_, [Call.get Certificates.kind (Certificates.key
            ({ Namespace := hp.Namespace, Name := r.Prefix ++ hp.Name } : Certificate))],
        [LogEntry.info "Certificate successfully reconciled" (some OperationResult.None)],
        rfl, rfl, by simp, rfl, ?_, ?_⟩
      · intro c hc
        rw [List.mem_singleton.mp hc]
        rfl
      · intro msg op hm
        simp only [List.mem_singleton, LogEntry.info.injEq, Option.some.injEq] at hm
        exact hm.2

/-! ## Lemmas: Reconcile -/

theorem mapIndex_ne_true {m : List (String × String)} {k : String}
    (h : m.lookup k ≠ some "true") : mapIndex m k ≠ "true" :=
  fun hm => h ((mapIndex_eq_true_iff m k).mp hm)

/-- The pass once the HTTPProxy has been fetched. -/
theorem Reconcile_fetched {env : Env} {r : HTTPProxyReconciler} {req : Request} {st : St}
    {hp : HTTPProxy}
    (hfault : env.faults (Call.get Kind.HTTPProxy ⟨req.Namespace, req.Name⟩) = none)
    (hstored : HTTPProxies.find st.store ⟨req.Namespace, req.Name⟩ = some hp) :
    Reconcile env r req st =
      if mapIndex hp.Annotations excludeAnnotation = "true" then
        (({}, none), st.record (Call.get Kind.HTTPProxy ⟨req.Namespace, req.Name⟩))
      else
        match reconcileDNSEndpoint env r hp
            (st.record (Call.get Kind.HTTPProxy ⟨req.Namespace, req.Name⟩)) with
        | (some err, st2) =>
          (({}, some err), st2.log (LogEntry.error err "unable to reconcile DNSEndpoint"))
        | (none, st2) =>
          match reconcileCertificate env r hp st2 with
          | (some err, st3) =>
            (({}, some err), st3.log (LogEntry.error err "unable to reconcile Certificate"))
          | (none, st3) => (({}, none), st3) := by
  have hg : Client.Get env HTTPProxies ⟨req.Namespace, req.Name⟩ st = _ :=
    Client.Get_of_found hfault hstored
  simp only [Reconcile, hg]
  rfl

/-- The pass when the fetch of the HTTPProxy meets a store failure. -/
theorem Reconcile_fetch_failed {env : Env} {r : HTTPProxyReconciler} {req : Request} {st : St}
    {msg : String}
    (hfault : env.faults (Call.get Kind.HTTPProxy ⟨req.Namespace, req.Name⟩) = some msg) :
    Reconcile env r req st =
      (({}, some (Err.store msg)),
        (st.record (Call.get Kind.HTTPProxy ⟨req.Namespace, req.Name⟩)).log
          (LogEntry.error (Err.store msg) "unable to get HTTPProxy resources")) := by
  have hg : Client.Get env HTTPProxies ⟨req.Namespace, req.Name⟩ st = _ :=
    Client.Get_of_fault hfault
  simp only [Reconcile, hg]
  rfl

/-- The pass when no HTTPProxy is stored under the requested name. -/
theorem Reconcile_absent {env : Env} {r : HTTPProxyReconciler} {req : Request} {st : St}
    (hfault : env.faults (Call.get Kind.HTTPProxy ⟨req.Namespace, req.Name⟩) = none)
    (habsent : HTTPProxies.find st.store ⟨req.Namespace, req.Name⟩ = none) :
    Reconcile env r req st =
      (({}, none), st.record (Call.get Kind.HTTPProxy ⟨req.Namespace, req.Name⟩)) := by
  have hg : Client.Get env HTTPProxies ⟨req.Namespace, req.Name⟩ st = _ :=
    Client.Get_of_absent hfault habsent
  simp only [Reconcile, hg]
  rfl

/-- The pass over a fetched, non-excluded HTTPProxy, in terms of its two
branches: the error is the DNS branch's, else the certificate branch's; the
store and the trace are those the last branch run left. -/
theorem Reconcile_branches {env : Env} {r : HTTPProxyReconciler} {req : Request} {st : St}
    {hp : HTTPProxy}
    (hfault : env.faults (Call.get Kind.HTTPProxy ⟨req.Namespace, req.Name⟩) = none)
    (hstored : HTTPProxies.find st.store ⟨req.Namespace, req.Name⟩ = some hp)
    (hnotexcluded : hp.Annotations.lookup excludeAnnotation ≠ some "true") :
    (∃ e st2, reconcileDNSEndpoint env r hp
        (st.record (Call.get Kind.HTTPProxy ⟨req.Namespace, req.Name⟩)) = (some e, st2) ∧
      Reconcile env r req st =
        (({}, some e), st2.log (LogEntry.error e "unable to reconcile DNSEndpoint"))) ∨
    (∃ st2 e st3, reconcileDNSEndpoint env r hp
        (st.record (Call.get Kind.HTTPProxy ⟨req.Namespace, req.Name⟩)) = (none, st2) ∧
      reconcileCertificate env r hp st2 = (some e, st3) ∧
      Reconcile env r req st =
        (({}, some e), st3.log (LogEntry.error e "unable to reconcile Certificate"))) ∨
    (∃ st2 st3, reconcileDNSEndpoint env r hp
        (st.record (Call.get Kind.HTTPProxy ⟨req.Namespace, req.Name⟩)) = (none, st2) ∧
      reconcileCertificate env r hp st2 = (none, st3) ∧
      Reconcile env r req st = (({}, none), st3)) := by
  rw [Reconcile_fetched hfault hstored]
  simp only [mapIndex_ne_true hnotexcluded, if_false]
  rcases hdns : reconcileDNSEndpoint env r hp
    (st.record (Call.get Kind.HTTPProxy ⟨req.Namespace, req.Name⟩)) with ⟨_ | e, st2⟩
  · rcases hcrt : reconcileCertificate env r hp st2 with ⟨_ | e, st3⟩
    · exact Or.inr (Or.inr ⟨st2, st3, rfl, hcrt, by simp only [hcrt]⟩)
    · exact Or.inr (Or.inl ⟨st2, e, st3, rfl, hcrt, by simp only [hcrt]⟩)
  · exact Or.inl ⟨e, st2, rfl, rfl⟩

/-- The pass over an excluded HTTPProxy. -/
theorem Reconcile_excluded_eq {env : Env} {r : HTTPProxyReconciler} {req : Request} {st : St}
    {hp : HTTPProxy}
    (hfault : env.faults (Call.get Kind.HTTPProxy ⟨req.Namespace, req.Name⟩) = none)
    (hstored : HTTPProxies.find st.store ⟨req.Namespace, req.Name⟩ = some hp)
    (hexcluded : hp.Annotations.lookup excludeAnnotation = some "true") :
    Reconcile env r req st =
      (({}, none), st.record (Call.get Kind.HTTPProxy ⟨req.Namespace, req.Name⟩)) := by
  rw [Reconcile_fetched hfault hstored]
  simp [(mapIndex_eq_true_iff _ _).mpr hexcluded]

theorem resolveIssuer_eq_spec (r : HTTPProxyReconciler) (hp : HTTPProxy) :
    resolveIssuer r hp =
      resolveIssuerSpec hp.Annotations r.DefaultIssuerName r.DefaultIssuerKind := by
  unfold resolveIssuer resolveIssuerSpec
  cases hp.Annotations.lookup clusterIssuerNameAnnotation with
  | some b => rfl
  | none =>
    cases hp.Annotations.lookup issuerNameAnnotation with
    | some a => rfl
    | none => rfl

theorem resolveIssuer_cluster {r : HTTPProxyReconciler} {hp : HTTPProxy} {b : String}
    (h : hp.Annotations.lookup clusterIssuerNameAnnotation = some b) :
    resolveIssuer r hp = (b, ClusterIssuerKind) := by
  simp [resolveIssuer_eq_spec, resolveIssuerSpec, h]

theorem resolveIssuer_issuer {r : HTTPProxyReconciler} {hp : HTTPProxy} {a : String}
    (hc : hp.Annotations.lookup clusterIssuerNameAnnotation = none)
    (h : hp.Annotations.lookup issuerNameAnnotation = some a) :
    resolveIssuer r hp = (a, IssuerKind) := by
  simp [resolveIssuer_eq_spec, resolveIssuerSpec, h, hc]

theorem resolveIssuer_default {r : HTTPProxyReconciler} {hp : HTTPProxy}
    (hc : hp.Annotations.lookup clusterIssuerNameAnnotation = none)
    (h : hp.Annotations.lookup issuerNameAnnotation = none) :
    resolveIssuer r hp = (r.DefaultIssuerName, r.DefaultIssuerKind) := by
  simp [resolveIssuer_eq_spec, resolveIssuerSpec, h, hc]

theorem certificateInputs_none {hp : HTTPProxy}
    (h : hp.Annotations.lookup testACMETLSAnnotation ≠ some "true" ∨
      hp.Spec.VirtualHost = none ∨
      ∃ vh, hp.Spec.VirtualHost = some vh ∧
        (vh.Fqdn = "" ∨ vh.TLS = none ∨ ∃ tls, vh.TLS = some tls ∧ tls.SecretName = "")) :
    certificateInputs hp = none := by
  cases hin : certificateInputs hp with
  | none => rfl
  | some p =>
    obtain ⟨vh, tls⟩ := p
    obtain ⟨hacme, hvh, hfq, htls, hsec⟩ := certificateInputs_some_inv hin
    rcases h with h | h | ⟨vh1, h1, h⟩
    · exact absurd hacme h
    · rw [hvh] at h
      cases h
    · rw [hvh] at h1
      cases h1
      rcases h with h | h | ⟨tls1, h1, h⟩
      · exact absurd h hfq
      · rw [htls] at h
        cases h
      · rw [htls] at h1
        cases h1
        exact absurd h hsec

/-- The DNS branch ends at once on an HTTPProxy without a virtual host or with
an empty fqdn. -/
theorem reconcileDNSEndpoint_null {env : Env} {r : HTTPProxyReconciler} {hp : HTTPProxy}
    {st : St}
    (h : hp.Spec.VirtualHost = none ∨ ∃ vh, hp.Spec.VirtualHost = some vh ∧ vh.Fqdn = "") :
    reconcileDNSEndpoint env r hp st = (none, st) := by
  rcases h with h | ⟨vh, h, hfq⟩
  · exact reconcileDNSEndpoint_no_vhost h
  · exact reconcileDNSEndpoint_no_fqdn h hfq

/-- The certificate a successful pass leaves: for a fetched, non-excluded
HTTPProxy that passes the guards of the certificate branch and resolves to an
issuer name, a pass without error leaves a Certificate under the derived key
carrying the fqdn, the secret name and the resolved issuer. -/
theorem Reconcile_certificate_found {env : Env} {r : HTTPProxyReconciler} {req : Request}
    {st : St} {hp : HTTPProxy} {vh : VirtualHost} {tls : TLS}
    (henabled : r.CreateCertificate = true)
    (hfault : env.faults (Call.get Kind.HTTPProxy ⟨req.Namespace, req.Name⟩) = none)
    (hstored : HTTPProxies.find st.store ⟨req.Namespace, req.Name⟩ = some hp)
    (hnotexcluded : hp.Annotations.lookup excludeAnnotation ≠ some "true")
    (hin : certificateInputs hp = some (vh, tls))
    (hissuer : (resolveIssuer r hp).1 ≠ "")
    (hok : (Reconcile env r req st).1.2 = none) :
    ∃ crt, Certificates.find (Reconcile env r req st).2.store (derivedKey r hp) = some crt ∧
      crt.Spec.DNSNames = [vh.Fqdn] ∧ crt.Spec.CommonName = vh.Fqdn ∧
      crt.Spec.SecretName = tls.SecretName ∧
      crt.Spec.IssuerRef = { Name := (resolveIssuer r hp).1, Kind := (resolveIssuer r hp).2 } := by
  rcases Reconcile_branches (r := r) hfault hstored hnotexcluded with
    ⟨e, st2, _, heq⟩ | ⟨st2, e, st3, _, _, heq⟩ | ⟨st2, st3, _, hcrt, heq⟩
  · rw [heq] at hok
    cases hok
  · rw [heq] at hok
    cases hok
  · rw [heq]
    exact reconcileCertificate_post henabled hin hissuer hcrt

/-- Where a pass ends: either it made the fetch of the HTTPProxy and nothing
else, or the HTTPProxy was fetched and the store and trace are those the DNS
branch left, or those the certificate branch left after the DNS branch. -/
theorem Reconcile_state (env : Env) (r : HTTPProxyReconciler) (req : Request) (st : St) :
    ((Reconcile env r req st).2.store = st.store ∧
      (Reconcile env r req st).2.calls =
        st.calls ++ [Call.get Kind.HTTPProxy ⟨req.Namespace, req.Name⟩]) ∨
    ∃ hp, HTTPProxies.find st.store ⟨req.Namespace, req.Name⟩ = some hp ∧
      (((Reconcile env r req st).2.store =
          (reconcileDNSEndpoint env r hp
            (st.record (Call.get Kind.HTTPProxy ⟨req.Namespace, req.Name⟩))).2.store ∧
        (Reconcile env r req st).2.calls =
          (reconcileDNSEndpoint env r hp
            (st.record (Call.get Kind.HTTPProxy ⟨req.Namespace, req.Name⟩))).2.calls) ∨
      ((Reconcile env r req st).2.store =
          (reconcileCertificate env r hp (reconcileDNSEndpoint env r hp
            (st.record (Call.get Kind.HTTPProxy ⟨req.Namespace, req.Name⟩))).2).2.store ∧
        (Reconcile env r req st).2.calls =
          (reconcileCertificate env r hp (reconcileDNSEndpoint env r hp
            (st.record (Call.get Kind.HTTPProxy ⟨req.Namespace, req.Name⟩))).2).2.calls)) := by
  cases hfault : env.faults (Call.get Kind.HTTPProxy ⟨req.Namespace, req.Name⟩) with
  | some msg =>
    rw [Reconcile_fetch_failed hfault]
    exact Or.inl ⟨rfl, rfl⟩
  | none =>
    cases hstored : HTTPProxies.find st.store ⟨req.Namespace, req.Name⟩ with
    | none =>
      rw [Reconcile_absent hfault hstored]
      exact Or.inl ⟨rfl, rfl⟩
    | some hp =>
      by_cases hex : hp.Annotations.lookup excludeAnnotation = some "true"
      · rw [Reconcile_excluded_eq hfault hstored hex]
        exact Or.inl ⟨rfl, rfl⟩
      · refine Or.inr ⟨hp, rfl, ?_⟩
        rcases Reconcile_branches (r := r) hfault hstored hex with
          ⟨e, st2, hd, heq⟩ | ⟨st2, e, st3, hd, hc, heq⟩ | ⟨st2, st3, hd, hc, heq⟩
        · rw [heq, hd]
          exact Or.inl ⟨rfl, rfl⟩
        · rw [heq, hd, hc]
          exact Or.inr ⟨rfl, rfl⟩
        · rw [heq, hd, hc]
          exact Or.inr ⟨rfl, rfl⟩

theorem derivedKey_of_find {r : HTTPProxyReconciler} {req : Request} {s : Store} {hp : HTTPProxy}
    (h : HTTPProxies.find s ⟨req.Namespace, req.Name⟩ = some hp) :
    derivedKey r hp = ⟨req.Namespace, r.Prefix ++ req.Name⟩ := by
  have hk := HTTPProxies.find_key h
  have h1 : hp.Namespace = req.Namespace := congrArg ObjectKey.Namespace hk
  have h2 : hp.Name = req.Name := congrArg ObjectKey.Name hk
  simp [derivedKey, h1, h2]

/-- The calls of a pass: the fetch of the HTTPProxy, then calls of the DNS
branch (only when it is enabled) and of the certificate branch (only when it
is enabled); `makeEndpoints` is called with a non-empty list only. -/
theorem Reconcile_calls (env : Env) (r : HTTPProxyReconciler) (req : Request) (st : St) :
    ∃ cs, (Reconcile env r req st).2.calls =
        st.calls ++ Call.get Kind.HTTPProxy ⟨req.Namespace, req.Name⟩ :: cs ∧
      ∀ c ∈ cs,
        (r.CreateDNSEndpoint = true ∧
          (c = Call.get Kind.Service r.ServiceKey ∨
            c = Call.get Kind.DNSEndpoint ⟨req.Namespace, r.Prefix ++ req.Name⟩ ∨
            c = Call.create Kind.DNSEndpoint ⟨req.Namespace, r.Prefix ++ req.Name⟩ ∨
            c = Call.update Kind.DNSEndpoint ⟨req.Namespace, r.Prefix ++ req.Name⟩ ∨
            ∃ fqdn ips, c = Call.makeEndpoints fqdn ips ∧ ips ≠ [])) ∨
        (r.CreateCertificate = true ∧
          (c = Call.get Kind.Certificate ⟨req.Namespace, r.Prefix ++ req.Name⟩ ∨
            c = Call.create Kind.Certificate ⟨req.Namespace, r.Prefix ++ req.Name⟩ ∨
            c = Call.update Kind.Certificate ⟨req.Namespace, r.Prefix ++ req.Name⟩)) := by
  rcases Reconcile_state env r req st with ⟨_, hc⟩ | ⟨hp, hfind, h⟩
  · exact ⟨[], by simpa using hc, by simp⟩
  · have hkey : derivedKey r hp = ⟨req.Namespace, r.Prefix ++ req.Name⟩ :=
      derivedKey_of_find hfind
    -- the calls of the DNS branch, none when it is disabled
    have hdns : ∃ cs, (reconcileDNSEndpoint env r hp
          (st.record (Call.get Kind.HTTPProxy ⟨req.Namespace, req.Name⟩))).2.calls =
          st.calls ++ Call.get Kind.HTTPProxy ⟨req.Namespace, req.Name⟩ :: cs ∧
        ∀ c ∈ cs, r.CreateDNSEndpoint = true ∧
          (c = Call.get Kind.Service r.ServiceKey ∨
            c = Call.get Kind.DNSEndpoint ⟨req.Namespace, r.Prefix ++ req.Name⟩ ∨
            c = Call.create Kind.DNSEndpoint ⟨req.Namespace, r.Prefix ++ req.Name⟩ ∨
            c = Call.update Kind.DNSEndpoint ⟨req.Namespace, r.Prefix ++ req.Name⟩ ∨
            ∃ fqdn ips, c = Call.makeEndpoints fqdn ips ∧ ips ≠ []) := by
      by_cases hen : r.CreateDNSEndpoint = true
      · obtain ⟨_, _, _, cs, hcs, hmem⟩ := reconcileDNSEndpoint_frame env r hp
          (st.record (Call.get Kind.HTTPProxy ⟨req.Namespace, req.Name⟩))
        rw [hkey] at hmem
        exact ⟨cs, by simp [hcs], fun c hc => ⟨hen, hmem c hc⟩⟩
      · rw [reconcileDNSEndpoint_disabled (by simpa using hen)]
        exact ⟨[], by simp, by simp⟩
    obtain ⟨cs1, hcs1, hmem1⟩ := hdns
    rcases h with ⟨_, hc⟩ | ⟨_, hc⟩
    · exact ⟨cs1, by rw [hc, hcs1], fun c hc => Or.inl (hmem1 c hc)⟩
    · have hcrt : ∃ cs, (reconcileCertificate env r hp (reconcileDNSEndpoint env r hp
            (st.record (Call.get Kind.HTTPProxy ⟨req.Namespace, req.Name⟩))).2).2.calls =
            (reconcileDNSEndpoint env r hp
              (st.record (Call.get Kind.HTTPProxy ⟨req.Namespace, req.Name⟩))).2.calls ++ cs ∧
          ∀ c ∈ cs, r.CreateCertificate = true ∧
            (c = Call.get Kind.Certificate ⟨req.Namespace, r.Prefix ++ req.Name⟩ ∨
              c = Call.create Kind.Certificate ⟨req.Namespace, r.Prefix ++ req.Name⟩ ∨
              c = Call.update Kind.Certificate ⟨req.Namespace, r.Prefix ++ req.Name⟩) := by
        by_cases hen : r.CreateCertificate = true
        · obtain ⟨_, _, _, cs, hcs, hmem⟩ := reconcileCertificate_frame env r hp
            (reconcileDNSEndpoint env r hp
              (st.record (Call.get Kind.HTTPProxy ⟨req.Namespace, req.Name⟩))).2
          rw [hkey] at hmem
          exact ⟨cs, hcs, fun c hc => ⟨hen, hmem c hc⟩⟩
        · rw [reconcileCertificate_disabled (by simpa using hen)]
          exact ⟨[], by simp, by simp⟩
      obtain ⟨cs2, hcs2, hmem2⟩ := hcrt
      refine ⟨cs1 ++ cs2, by rw [hc, hcs2, hcs1]; simp, ?_⟩
      intro c hc
      rcases List.mem_append.mp hc with hc | hc
      · exact Or.inl (hmem1 c hc)
      · exact Or.inr (hmem2 c hc)

/-- What a pass may change: never the HTTPProxies or the Services; the
DNSEndpoints only when the DNS feature is enabled; the Certificates only when
the certificate feature is enabled. -/
theorem Reconcile_frame (env : Env) (r : HTTPProxyReconciler) (req : Request) (st : St) :
    (Reconcile env r req st).2.store.HTTPProxies = st.store.HTTPProxies ∧
    (Reconcile env r req st).2.store.Services = st.store.Services ∧
    (r.CreateDNSEndpoint = false →
      (Reconcile env r req st).2.store.DNSEndpoints = st.store.DNSEndpoints) ∧
    (r.CreateCertificate = false →
      (Reconcile env r req st).2.store.Certificates = st.store.Certificates) := by
  rcases Reconcile_state env r req st with ⟨hs, _⟩ | ⟨hp, _, h⟩
  · rw [hs]
    exact ⟨rfl, rfl, fun _ => rfl, fun _ => rfl⟩
  · obtain ⟨d1, d2, d3, _⟩ := reconcileDNSEndpoint_frame env r hp
      (st.record (Call.get Kind.HTTPProxy ⟨req.Namespace, req.Name⟩))
    obtain ⟨c1, c2, c3, _⟩ := reconcileCertificate_frame env r hp
      (reconcileDNSEndpoint env r hp
        (st.record (Call.get Kind.HTTPProxy ⟨req.Namespace, req.Name⟩))).2
    have hdd : r.CreateDNSEndpoint = false → (reconcileDNSEndpoint env r hp
        (st.record (Call.get Kind.HTTPProxy ⟨req.Namespace, req.Name⟩))).2.store = st.store := by
      intro hen
      rw [reconcileDNSEndpoint_disabled hen]
      rfl
    have hcd : r.CreateCertificate = false → ∀ st2, (reconcileCertificate env r hp st2).2 = st2 := by
      intro hen st2
      rw [reconcileCertificate_disabled hen]
    rcases h with ⟨hs, _⟩ | ⟨hs, _⟩
    · rw [hs]
      exact ⟨d1, d2, fun hen => by rw [hdd hen], fun _ => d3⟩
    · rw [hs]
      refine ⟨c1.trans d1, c2.trans d2, fun hen => ?_, fun hen => ?_⟩
      · rw [c3, hdd hen]
      · rw [hcd hen]
        exact d3

/-- The DNSEndpoints a pass over a fetched, non-excluded HTTPProxy leaves are
those its DNS branch leaves. -/
theorem Reconcile_DNSEndpoints {env : Env} {r : HTTPProxyReconciler} {req : Request} {st : St}
    {hp : HTTPProxy}
    (hfault : env.faults (Call.get Kind.HTTPProxy ⟨req.Namespace, req.Name⟩) = none)
    (hstored : HTTPProxies.find st.store ⟨req.Namespace, req.Name⟩ = some hp)
    (hnotexcluded : hp.Annotations.lookup excludeAnnotation ≠ some "true") :
    (Reconcile env r req st).2.store.DNSEndpoints =
      (reconcileDNSEndpoint env r hp
        (st.record (Call.get Kind.HTTPProxy ⟨req.Namespace, req.Name⟩))).2.store.DNSEndpoints := by
  rcases Reconcile_branches (r := r) hfault hstored hnotexcluded with
    ⟨e, st2, hd, heq⟩ | ⟨st2, e, st3, hd, hc, heq⟩ | ⟨st2, st3, hd, hc, heq⟩
  · rw [heq, hd]
    rfl
  · have := (reconcileCertificate_frame env r hp st2).2.2.1
    rw [hc] at this
    rw [heq, hd]
    exact this
  · have := (reconcileCertificate_frame env r hp st2).2.2.1
    rw [hc] at this
    rw [heq, hd]
    exact this

/-! ## Lemmas: nothing is deleted -/

/-- The three things `CreateOrUpdate` can do to the store: nothing, append one
object with the given object's key, or replace the objects stored under that
key by one with the same key. -/
theorem CreateOrUpdate_store_cases {α : Type} [DecidableEq α] (env : Env) (res : Resource α)
    (obj : α) (f : MutateFn α) (st : St) :
    (CreateOrUpdate env res obj f st).2.store = st.store ∨
    (∃ new, res.key new = res.key obj ∧
      (CreateOrUpdate env res obj f st).2.store =
        res.setItems st.store (res.items st.store ++ [new])) ∨
    (∃ new, res.key new = res.key obj ∧
      (CreateOrUpdate env res obj f st).2.store =
        res.setItems st.store
          ((res.items st.store).map (fun o => if res.key o = res.key obj then new else o))) := by
  rcases Client.Get_cases env res (res.key obj) st with ⟨msg, _, hg⟩ | ⟨_, hn, hg⟩ | ⟨ex, _, hs, hg⟩
  · simp only [CreateOrUpdate, hg, IsNotFound]
    exact Or.inl rfl
  · simp only [CreateOrUpdate, hg, IsNotFound, mutate]
    rcases hfo : f obj with ⟨_ | o1, cs⟩
    · exact Or.inl rfl
    · by_cases hk : res.key o1 = res.key obj
      · simp only [hk, if_true, Client.Create]
        cases env.faults (Call.create res.kind (res.key obj)) with
        | some msg => exact Or.inl rfl
        | none =>
          cases hfind : res.find (St.record st (Call.get res.kind (res.key obj))).store
              (res.key obj) with
          | some x =>
            have hx : res.find st.store (res.key obj) = some x := hfind
            rw [hn] at hx
            cases hx
          | none => exact Or.inr (Or.inl ⟨o1, hk, rfl⟩)
      · simp only [hk, if_false]
        exact Or.inl rfl
  · simp only [CreateOrUpdate, hg, mutate]
    rcases hfo : f ex with ⟨_ | o1, cs⟩
    · exact Or.inl rfl
    · by_cases hk : res.key o1 = res.key obj
      · simp only [hk, if_true]
        by_cases he : ex = o1
        · simp only [he, if_true]
          exact Or.inl rfl
        · simp only [he, if_false, Client.Update, hk]
          cases env.faults (Call.update res.kind (res.key obj)) with
          | some msg => exact Or.inl rfl
          | none =>
            cases hfind : res.find (St.record st (Call.get res.kind (res.key obj))).store
                (res.key obj) with
            | none =>
              have hx : res.find st.store (res.key obj) = none := hfind
              rw [hs] at hx
              cases hx
            | some x => exact Or.inr (Or.inr ⟨o1, hk, rfl⟩)
      · simp only [hk, if_false]
        exact Or.inl rfl

theorem find_append_singleton_other {α : Type} (key : α → ObjectKey) (l : List α) (new : α)
    (k : ObjectKey) (h : key new ≠ k) :
    (l ++ [new]).find? (fun o => decide (key o = k)) = l.find? (fun o => decide (key o = k)) := by
  simp [List.find?_append, h]

theorem find_append_isSome {α : Type} (p : α → Bool) (l l1 : List α)
    (h : (l.find? p).isSome = true) : ((l ++ l1).find? p).isSome = true := by
  rw [List.find?_append]
  cases hl : l.find? p with
  | none => rw [hl] at h; cases h
  | some x => rfl

theorem find_replace_other {α : Type} (key : α → ObjectKey) (l : List α) (new : α)
    (k0 k : ObjectKey) (hnew : key new = k0) (h : k ≠ k0) :
    (l.map (fun o => if key o = k0 then new else o)).find? (fun o => decide (key o = k)) =
      l.find? (fun o => decide (key o = k)) := by
  induction l with
  | nil => rfl
  | cons x xs ih =>
    by_cases hx : key x = k0
    · have hxk : ¬ key x = k := fun hc => h (hc.symm.trans hx)
      have hnk : ¬ key new = k := fun hc => h (hc.symm.trans hnew)
      have hk0 : ¬ k0 = k := fun hc => h hc.symm
      simp [List.find?_cons, hx, hk0, hnk, ih]
    · simp [List.find?_cons, hx, ih]

theorem find_replace_isSome {α : Type} (key : α → ObjectKey) (l : List α) (new : α)
    (k0 k : ObjectKey) (hnew : key new = k0)
    (h : (l.find? (fun o => decide (key o = k))).isSome = true) :
    ((l.map (fun o => if key o = k0 then new else o)).find?
      (fun o => decide (key o = k))).isSome = true := by
  by_cases hk : k = k0
  · subst hk
    obtain ⟨x, hx, hpx⟩ := List.find?_isSome.mp h
    apply List.find?_isSome.mpr
    refine ⟨new, List.mem_map.mpr ⟨x, hx, ?_⟩, by simp [hnew]⟩
    have : key x = k := by simpa using hpx
    simp [this]
  · rw [find_replace_other key l new k0 k hnew hk]
    exact h

/-- `CreateOrUpdate` never removes a key from its collection and leaves what
is stored under every other key as it is. -/
theorem CreateOrUpdate_preserves {α : Type} [DecidableEq α] (env : Env) (res : Resource α)
    (obj : α) (f : MutateFn α) (st : St)
    (hlaw : ∀ s l, res.items (res.setItems s l) = l) (k : ObjectKey) :
    (k ≠ res.key obj →
      res.find (CreateOrUpdate env res obj f st).2.store k = res.find st.store k) ∧
    ((res.find st.store k).isSome = true →
      (res.find (CreateOrUpdate env res obj f st).2.store k).isSome = true) := by
  rcases CreateOrUpdate_store_cases env res obj f st with h | ⟨new, hk, h⟩ | ⟨new, hk, h⟩
  · rw [h]
    exact ⟨fun _ => rfl, fun hs => hs⟩
  · rw [h]
    simp only [Resource.find, hlaw]
    refine ⟨fun hne => ?_, fun hs => find_append_isSome _ _ _ hs⟩
    exact find_append_singleton_other res.key _ new k (fun hc => hne (hc.symm.trans hk))
  · rw [h]
    simp only [Resource.find, hlaw]
    exact ⟨fun hne => find_replace_other res.key _ new _ k hk hne,
      fun hs => find_replace_isSome res.key _ new _ k hk hs⟩

/-- The DNS branch never removes a DNSEndpoint and leaves every DNSEndpoint
but the one under the derived key as it is. -/
theorem reconcileDNSEndpoint_preserves (env : Env) (r : HTTPProxyReconciler) (hp : HTTPProxy)
    (st : St) (k : ObjectKey) :
    (k ≠ derivedKey r hp →
      DNSEndpoints.find (reconcileDNSEndpoint env r hp st).2.store k =
        DNSEndpoints.find st.store k) ∧
    ((DNSEndpoints.find st.store k).isSome = true →
      (DNSEndpoints.find (reconcileDNSEndpoint env r hp st).2.store k).isSome = true) := by
  have htriv : ∀ x : Option Err × St, x.2.store = st.store →
      (k ≠ derivedKey r hp → DNSEndpoints.find x.2.store k = DNSEndpoints.find st.store k) ∧
      ((DNSEndpoints.find st.store k).isSome = true →
        (DNSEndpoints.find x.2.store k).isSome = true) := by
    intro x hx
    rw [hx]
    exact ⟨fun _ => rfl, fun hs => hs⟩
  by_cases hen : r.CreateDNSEndpoint = true
  swap
  · exact htriv _ (by rw [reconcileDNSEndpoint_disabled (by simpa using hen)])
  cases hvh : hp.Spec.VirtualHost with
  | none => exact htriv _ (by rw [reconcileDNSEndpoint_no_vhost hvh])
  | some vh =>
    by_cases hfq : vh.Fqdn = ""
    · exact htriv _ (by rw [reconcileDNSEndpoint_no_fqdn hvh hfq])
    rw [reconcileDNSEndpoint_fetch hen hvh hfq]
    rcases Client.Get_cases env Services r.ServiceKey st with
      ⟨msg, _, hg⟩ | ⟨_, _, hg⟩ | ⟨svc, _, _, hg⟩
    · rw [hg]
      exact htriv _ rfl
    · rw [hg]
      exact htriv _ rfl
    · rw [hg]
      dsimp only
      by_cases hips : serviceIPsSpec env svc = []
      · rw [if_pos hips]
        exact htriv _ rfl
      · rw [if_neg hips]
        have hpres := CreateOrUpdate_preserves env DNSEndpoints
          ({ Namespace := hp.Namespace, Name := r.Prefix ++ hp.Name } : DNSEndpoint)
          (mutateDNSEndpoint hp vh.Fqdn (serviceIPsSpec env svc))
          (st.record (Call.get Services.kind r.ServiceKey)) DNSEndpoints_law k
        rcases hX : CreateOrUpdate env DNSEndpoints
          ({ Namespace := hp.Namespace, Name := r.Prefix ++ hp.Name } : DNSEndpoint)
          (mutateDNSEndpoint hp vh.Fqdn (serviceIPsSpec env svc))
          (st.record (Call.get Services.kind r.ServiceKey)) with ⟨⟨op, _ | e⟩, st2⟩
        all_goals
          rw [hX] at hpres
          exact hpres

/-- The certificate branch never removes a Certificate and leaves every
Certificate but the one under the derived key as it is. -/
theorem reconcileCertificate_preserves (env : Env) (r : HTTPProxyReconciler) (hp : HTTPProxy)
    (st : St) (k : ObjectKey) :
    (k ≠ derivedKey r hp →
      Certificates.find (reconcileCertificate env r hp st).2.store k =
        Certificates.find st.store k) ∧
    ((Certificates.find st.store k).isSome = true →
      (Certificates.find (reconcileCertificate env r hp st).2.store k).isSome = true) := by
  have htriv : ∀ x : Option Err × St, x.2.store = st.store →
      (k ≠ derivedKey r hp → Certificates.find x.2.store k = Certificates.find st.store k) ∧
      ((Certificates.find st.store k).isSome = true →
        (Certificates.find x.2.store k).isSome = true) := by
    intro x hx
    rw [hx]
    exact ⟨fun _ => rfl, fun hs => hs⟩
  by_cases hen : r.CreateCertificate = true
  swap
  · exact htriv _ (by rw [reconcileCertificate_disabled (by simpa using hen)])
  cases hin : certificateInputs hp with
  | none => exact htriv _ (by rw [reconcileCertificate_skip hin])
  | some p =>
    obtain ⟨vh, tls⟩ := p
    rw [reconcileCertificate_main hen hin]
    by_cases hname : (resolveIssuer r hp).1 = ""
    · rw [if_pos hname]
      exact htriv _ rfl
    · rw [if_neg hname]
      have hpres := CreateOrUpdate_preserves env Certificates
        ({ Namespace := hp.Namespace, Name := r.Prefix ++ hp.Name } : Certificate)
        (mutateCertificate hp vh tls (resolveIssuer r hp).1 (resolveIssuer r hp).2) st
        Certificates_law k
      rcases hX : CreateOrUpdate env Certificates
        ({ Namespace := hp.Namespace, Name := r.Prefix ++ hp.Name } : Certificate)
        (mutateCertificate hp vh tls (resolveIssuer r hp).1 (resolveIssuer r hp).2) st
        with ⟨⟨op, _ | e⟩, st2⟩
      all_goals
        rw [hX] at hpres
        exact hpres

/-- The DNS branch writes nothing when the stored target service holds no
address, whether or not the fetch of the service succeeds. -/
theorem reconcileDNSEndpoint_zero_store {env : Env} {r : HTTPProxyReconciler} {hp : HTTPProxy}
    {st : St} {svc : Service} (hsvc : Services.find st.store r.ServiceKey = some svc)
    (hzero : ∀ ing ∈ svc.Status.LoadBalancer.Ingress, ing.IP = "") :
    (reconcileDNSEndpoint env r hp st).2.store = st.store := by
  by_cases hen : r.CreateDNSEndpoint = true
  swap
  · rw [reconcileDNSEndpoint_disabled (by simpa using hen)]
  cases hvh : hp.Spec.VirtualHost with
  | none => rw [reconcileDNSEndpoint_no_vhost hvh]
  | some vh =>
    by_cases hfq : vh.Fqdn = ""
    · rw [reconcileDNSEndpoint_no_fqdn hvh hfq]
    rw [reconcileDNSEndpoint_fetch hen hvh hfq]
    rcases Client.Get_cases env Services r.ServiceKey st with
      ⟨msg, _, hg⟩ | ⟨_, hn, hg⟩ | ⟨svc1, _, hs, hg⟩
    · rw [hg]
      rfl
    · rw [hsvc] at hn
      cases hn
    · rw [hsvc] at hs
      cases hs
      rw [hg]
      dsimp only
      rw [if_pos (serviceIPsSpec_eq_nil hzero)]
      rfl

/-- A pass never removes a DNSEndpoint or a Certificate, and leaves what is
stored under every key but the derived one as it is. -/
theorem Reconcile_preserves (env : Env) (r : HTTPProxyReconciler) (req : Request) (st : St)
    (k : ObjectKey) :
    (k ≠ ⟨req.Namespace, r.Prefix ++ req.Name⟩ →
      DNSEndpoints.find (Reconcile env r req st).2.store k = DNSEndpoints.find st.store k ∧
      Certificates.find (Reconcile env r req st).2.store k = Certificates.find st.store k) ∧
    ((DNSEndpoints.find st.store k).isSome = true →
      (DNSEndpoints.find (Reconcile env r req st).2.store k).isSome = true) ∧
    ((Certificates.find st.store k).isSome = true →
      (Certificates.find (Reconcile env r req st).2.store k).isSome = true) := by
  rcases Reconcile_state env r req st with ⟨hs, _⟩ | ⟨hp, hfind, h⟩
  · rw [hs]
    exact ⟨fun _ => ⟨rfl, rfl⟩, fun h => h, fun h => h⟩
  · have hkey : derivedKey r hp = ⟨req.Namespace, r.Prefix ++ req.Name⟩ :=
      derivedKey_of_find hfind
    obtain ⟨d1, d2⟩ := reconcileDNSEndpoint_preserves env r hp
      (st.record (Call.get Kind.HTTPProxy ⟨req.Namespace, req.Name⟩)) k
    obtain ⟨c1, c2⟩ := reconcileCertificate_preserves env r hp
      (reconcileDNSEndpoint env r hp
        (st.record (Call.get Kind.HTTPProxy ⟨req.Namespace, req.Name⟩))).2 k
    rw [hkey] at d1 c1
    have hdc : (reconcileDNSEndpoint env r hp
        (st.record (Call.get Kind.HTTPProxy ⟨req.Namespace, req.Name⟩))).2.store.Certificates =
        st.store.Certificates :=
      (reconcileDNSEndpoint_frame env r hp
        (st.record (Call.get Kind.HTTPProxy ⟨req.Namespace, req.Name⟩))).2.2.1
    have hcd : (reconcileCertificate env r hp (reconcileDNSEndpoint env r hp
        (st.record (Call.get Kind.HTTPProxy ⟨req.Namespace, req.Name⟩))).2).2.store.DNSEndpoints =
        (reconcileDNSEndpoint env r hp
          (st.record (Call.get Kind.HTTPProxy ⟨req.Namespace, req.Name⟩))).2.store.DNSEndpoints :=
      (reconcileCertificate_frame env r hp _).2.2.1
    have hcfind : ∀ k1, Certificates.find (reconcileDNSEndpoint env r hp
        (st.record (Call.get Kind.HTTPProxy ⟨req.Namespace, req.Name⟩))).2.store k1 =
        Certificates.find st.store k1 := fun k1 => Certificates.find_congr hdc k1
    have hdfind : ∀ k1, DNSEndpoints.find (reconcileCertificate env r hp (reconcileDNSEndpoint env r hp
        (st.record (Call.get Kind.HTTPProxy ⟨req.Namespace, req.Name⟩))).2).2.store k1 =
        DNSEndpoints.find (reconcileDNSEndpoint env r hp
          (st.record (Call.get Kind.HTTPProxy ⟨req.Namespace, req.Name⟩))).2.store k1 :=
      fun k1 => DNSEndpoints.find_congr hcd k1
    rcases h with ⟨hs, _⟩ | ⟨hs, _⟩
    · rw [hs]
      refine ⟨fun hne => ⟨d1 hne, hcfind k⟩, d2, fun hsome => ?_⟩
      rw [hcfind k]
      exact hsome
    · rw [hs]
      refine ⟨fun hne => ⟨?_, ?_⟩, fun hsome => ?_, fun hsome => ?_⟩
      · rw [hdfind k]
        exact d1 hne
      · rw [c1 hne]
        exact hcfind k
      · rw [hdfind k]
        exact d2 hsome
      · apply c2
        rw [hcfind k]
        exact hsome

/-! ## Lemmas: the watch router -/

theorem fillRequests_eq : ∀ (items : List HTTPProxy) (i : Nat) (requests : List Request),
    i + items.length ≤ requests.length →
    fillRequests items i requests =
      requests.take i ++ items.map (fun hp => { Namespace := hp.Namespace, Name := hp.Name }) ++
        requests.drop (i + items.length)
  | [], i, requests, _ => by simp [fillRequests]
  | hp :: rest, i, requests, h => by
    have hlt : i < requests.length := by
      simp at h
      omega
    rw [fillRequests, fillRequests_eq rest (i + 1) _ (by simp at h ⊢; omega)]
    rw [List.set_eq_take_append_cons_drop, if_pos hlt]
    have h1 : (List.take i requests ++
        ({ Namespace := hp.Namespace, Name := hp.Name } : Request) ::
          List.drop (i + 1) requests).take (i + 1) =
        List.take i requests ++ [{ Namespace := hp.Namespace, Name := hp.Name }] := by
      rw [List.take_append_eq_append_take]
      simp [List.length_take, Nat.min_eq_left (Nat.le_of_lt hlt)]
    have h2 : (List.take i requests ++
        ({ Namespace := hp.Namespace, Name := hp.Name } : Request) ::
          List.drop (i + 1) requests).drop (i + 1 + rest.length) =
        requests.drop (i + (hp :: rest).length) := by
      rw [List.drop_append_eq_append_drop]
      simp [List.length_take, Nat.min_eq_left (Nat.le_of_lt hlt)]
      have hsub : i + 1 + rest.length - i = rest.length + 1 := by omega
      rw [List.drop_eq_nil_of_le (by simp; omega), hsub]
      simp [List.drop_drop]
      congr 1
      omega
    rw [h1, h2]
    simp

/-- The loop of `listHPs` over a fresh slice yields one request per item. -/
theorem fillRequests_fresh (items : List HTTPProxy) :
    fillRequests items 0 (List.replicate items.length ({ Namespace := "", Name := "" } : Request)) =
      items.map (fun hp => { Namespace := hp.Namespace, Name := hp.Name }) := by
  rw [fillRequests_eq items 0 _ (by simp)]
  simp

/-! ## The claims -/

/-- C1 (DNS branch postcondition). With CreateDNSEndpoint enabled, for a stored
HTTPProxy that is not excluded (the exclusion annotation is absent or is not
exactly "true") and has a non-empty fqdn, and a stored target service with at
least one ingress entry whose IP is non-empty: if the fetch of the HTTPProxy
meets no store failure and the DNS branch reports no error (its store
operations succeed), then after Reconcile the store holds a DNSEndpoint in the
HTTPProxy's namespace under the name Prefix+name whose endpoints are exactly
makeEndpoints(fqdn, ips), ips being the service's non-empty ingress IPs, parsed,
in service order: one record with DNS name fqdn and those targets, whatever
the store held under that name before. -/
theorem Reconcile_dns_postcondition (env : Env) (r : HTTPProxyReconciler) (req : Request)
    (st : St) (hp : HTTPProxy) (vh : VirtualHost) (svc : Service)
    (henabled : r.CreateDNSEndpoint = true)
    (hfault : env.faults (Call.get Kind.HTTPProxy ⟨req.Namespace, req.Name⟩) = none)
    (hstored : HTTPProxies.find st.store ⟨req.Namespace, req.Name⟩ = some hp)
    (hnotexcluded : hp.Annotations.lookup excludeAnnotation ≠ some "true")
    (hvh : hp.Spec.VirtualHost = some vh) (hfqdn : vh.Fqdn ≠ "")
    (hsvc : Services.find st.store r.ServiceKey = some svc)
    (hip : ∃ ing ∈ svc.Status.LoadBalancer.Ingress, ing.IP ≠ "")
    (hok : (reconcileDNSEndpoint env r hp
      (st.record (Call.get Kind.HTTPProxy ⟨req.Namespace, req.Name⟩))).1 = none) :
    ∃ de, DNSEndpoints.find (Reconcile env r req st).2.store
        ⟨hp.Namespace, r.Prefix ++ hp.Name⟩ = some de ∧
      de.Spec.Endpoints = makeEndpoints vh.Fqdn (serviceIPsSpec env svc) ∧
      de.Spec.Endpoints = [Endpoint.mk vh.Fqdn
        ((svc.Status.LoadBalancer.Ingress.filter (fun ing => decide (ing.IP ≠ ""))).map
          (fun ing => env.ParseIP ing.IP))] := by
  rw [Reconcile_fetched hfault hstored]
  simp only [mapIndex_ne_true hnotexcluded, if_false]
  rcases hdns : reconcileDNSEndpoint env r hp
    (st.record (Call.get Kind.HTTPProxy ⟨req.Namespace, req.Name⟩)) with ⟨_ | e, st2⟩
  swap
  · rw [hdns] at hok
    cases hok
  have hsvc1 : Services.find
      (st.record (Call.get Kind.HTTPProxy ⟨req.Namespace, req.Name⟩)).store r.ServiceKey =
      some svc := hsvc
  obtain ⟨de, hfind, hend⟩ := reconcileDNSEndpoint_post henabled hvh hfqdn hsvc1
    (serviceIPsSpec_ne_nil hip) hdns
  have hframe := (reconcileCertificate_frame env r hp st2).2.2.1
  refine ⟨de, ?_, hend, by rw [hend]; rfl⟩
  have hfinal : ∀ x : Option Err × St, x.2.store.DNSEndpoints = st2.store.DNSEndpoints →
      DNSEndpoints.find
        (match x with
          | (some err, st3) =>
            ((({} : Result), some err),
              st3.log (LogEntry.error err "unable to reconcile Certificate"))
          | (none, st3) => (({}, none), st3)).2.store ⟨hp.Namespace, r.Prefix ++ hp.Name⟩
        = some de := by
    intro x hx
    rw [← hfind]
    apply DNSEndpoints.find_congr
    rcases x with ⟨_ | e, st3⟩ <;> exact hx
  exact hfinal _ hframe

/-- C1, on the worked scenario: the stale DNSEndpoint `a/x-foo` is replaced. -/
theorem Reconcile_dns_postcondition_witness :
    ∃ de, DNSEndpoints.find (Reconcile exampleEnv exampleReconciler exampleRequest
        exampleState).2.store ⟨"a", "x-foo"⟩ = some de ∧
      de.Spec.Endpoints = makeEndpoints "foo.example.com" (serviceIPsSpec exampleEnv exampleService) ∧
      de.Spec.Endpoints = [Endpoint.mk "foo.example.com" [exampleEnv.ParseIP "10.0.0.1"]] :=
  Reconcile_dns_postcondition exampleEnv exampleReconciler exampleRequest exampleState
    exampleProxy exampleVirtualHost exampleService (by decide) (by decide) (by decide)
    (by decide) (by decide) (by decide) (by decide) (by decide) (by decide)

/-- C3 (exclusion). For every configuration and store, and every stored
HTTPProxy whose exclusion annotation is exactly "true" (the fetch meeting no
store failure): Reconcile returns success, leaves the store unchanged, and the
only call it makes is the fetch of the HTTPProxy, so the target service is not
fetched and no DNSEndpoint or Certificate is created or updated, whatever the
other fields, annotations and the target service are. -/
theorem Reconcile_excluded (env : Env) (r : HTTPProxyReconciler) (req : Request) (st : St)
    (hp : HTTPProxy)
    (hfault : env.faults (Call.get Kind.HTTPProxy ⟨req.Namespace, req.Name⟩) = none)
    (hstored : HTTPProxies.find st.store ⟨req.Namespace, req.Name⟩ = some hp)
    (hexcluded : hp.Annotations.lookup excludeAnnotation = some "true") :
    (Reconcile env r req st).1 = ({}, none) ∧
    (Reconcile env r req st).2.store = st.store ∧
    callsSince st (Reconcile env r req st).2 =
      [Call.get Kind.HTTPProxy ⟨req.Namespace, req.Name⟩] ∧
    logsSince st (Reconcile env r req st).2 = [] := by
  rw [Reconcile_excluded_eq hfault hstored hexcluded]
  exact ⟨rfl, rfl, callsSince_of_eq _ rfl, logsSince_of_eq _ (by simp)⟩

/-- C3, on the worked scenario with the HTTPProxy excluded. -/
theorem Reconcile_excluded_witness :
    (Reconcile exampleEnv exampleReconciler exampleRequest exampleExcludedState).1 = ({}, none) ∧
    (Reconcile exampleEnv exampleReconciler exampleRequest exampleExcludedState).2.store =
      exampleExcludedState.store ∧
    callsSince exampleExcludedState
      (Reconcile exampleEnv exampleReconciler exampleRequest exampleExcludedState).2 =
      [Call.get Kind.HTTPProxy ⟨"a", "foo"⟩] ∧
    logsSince exampleExcludedState
      (Reconcile exampleEnv exampleReconciler exampleRequest exampleExcludedState).2 = [] :=
  Reconcile_excluded exampleEnv exampleReconciler exampleRequest exampleExcludedState
    exampleExcludedProxy (by decide) (by decide) (by decide)

/-- C2 (certificate branch postcondition). With CreateCertificate enabled, for
a stored, non-excluded HTTPProxy whose tls-acme annotation is exactly "true",
whose fqdn is non-empty, whose TLS block has a non-empty secretName and whose
resolved issuer name is non-empty: if Reconcile reports no error (the fetch,
the DNS branch and the store operations succeed), then afterwards the store
holds a Certificate in the HTTPProxy's namespace under the name Prefix+name
(the HTTPProxy's own name when Prefix is empty) with DNSNames = [fqdn],
CommonName = fqdn, SecretName = the TLS secretName and IssuerRef = the resolved
name and kind; with neither issuer annotation on the object the IssuerRef is
DefaultIssuerName and DefaultIssuerKind. -/
theorem Reconcile_certificate_postcondition (env : Env) (r : HTTPProxyReconciler)
    (req : Request) (st : St) (hp : HTTPProxy) (vh : VirtualHost) (tls : TLS)
    (henabled : r.CreateCertificate = true)
    (hfault : env.faults (Call.get Kind.HTTPProxy ⟨req.Namespace, req.Name⟩) = none)
    (hstored : HTTPProxies.find st.store ⟨req.Namespace, req.Name⟩ = some hp)
    (hnotexcluded : hp.Annotations.lookup excludeAnnotation ≠ some "true")
    (hacme : hp.Annotations.lookup testACMETLSAnnotation = some "true")
    (hvh : hp.Spec.VirtualHost = some vh) (hfqdn : vh.Fqdn ≠ "")
    (htls : vh.TLS = some tls) (hsecret : tls.SecretName ≠ "")
    (hissuer : (resolveIssuer r hp).1 ≠ "")
    (hok : (Reconcile env r req st).1.2 = none) :
    ∃ crt, Certificates.find (Reconcile env r req st).2.store
        ⟨hp.Namespace, r.Prefix ++ hp.Name⟩ = some crt ∧
      crt.Spec.DNSNames = [vh.Fqdn] ∧ crt.Spec.CommonName = vh.Fqdn ∧
      crt.Spec.SecretName = tls.SecretName ∧
      crt.Spec.IssuerRef = { Name := (resolveIssuer r hp).1, Kind := (resolveIssuer r hp).2 } ∧
      (r.Prefix = "" → Certificates.find (Reconcile env r req st).2.store
        ⟨hp.Namespace, hp.Name⟩ = some crt) ∧
      (hp.Annotations.lookup issuerNameAnnotation = none →
        hp.Annotations.lookup clusterIssuerNameAnnotation = none →
        crt.Spec.IssuerRef = { Name := r.DefaultIssuerName, Kind := r.DefaultIssuerKind }) := by
  obtain ⟨crt, hfind, h1, h2, h3, h4⟩ := Reconcile_certificate_found henabled hfault hstored
    hnotexcluded (certificateInputs_some hacme hvh hfqdn htls hsecret) hissuer hok
  refine ⟨crt, hfind, h1, h2, h3, h4, ?_, ?_⟩
  · intro hpre
    have hkey : (⟨hp.Namespace, hp.Name⟩ : ObjectKey) = derivedKey r hp := by
      simp [derivedKey, hpre]
    rw [hkey]
    exact hfind
  · intro hi hc
    rw [h4, resolveIssuer_default hc hi]

/-- C2, on the worked scenario: Certificate `a/x-foo` with issuer `ca1`. -/
theorem Reconcile_certificate_postcondition_witness :
    ∃ crt, Certificates.find (Reconcile exampleEnv exampleReconciler exampleRequest
        exampleState).2.store ⟨"a", "x-foo"⟩ = some crt ∧
      crt.Spec.DNSNames = ["foo.example.com"] ∧ crt.Spec.CommonName = "foo.example.com" ∧
      crt.Spec.SecretName = "foo-tls" ∧
      crt.Spec.IssuerRef = { Name := "ca1", Kind := "Issuer" } := by
  obtain ⟨crt, h1, h2, h3, h4, h5, _⟩ :=
    Reconcile_certificate_postcondition exampleEnv exampleReconciler exampleRequest exampleState
      exampleProxy exampleVirtualHost { SecretName := "foo-tls" } (by decide) (by decide)
      (by decide) (by decide) (by decide) (by decide) (by decide) (by decide) (by decide)
      (by decide) (by decide)
  exact ⟨crt, h1, h2, h3, h4, h5⟩

/-- C4 (issuer resolution). The issuer resolution of reconcileCertificate equals
the reference definition for every annotation map and every default name and
kind: the cluster-issuer annotation, when present, gives (its value,
ClusterIssuer), also when the issuer annotation is present too; otherwise the
issuer annotation, when present, gives (its value, Issuer), whatever
DefaultIssuerKind is; otherwise the result is (DefaultIssuerName,
DefaultIssuerKind). In particular, with both annotations on one object, the
Certificate a successful pass leaves has the cluster-issuer annotation's value
as issuer name and ClusterIssuer as issuer kind. -/
theorem resolveIssuer_refines_spec (env : Env) (r : HTTPProxyReconciler) (req : Request)
    (st : St) (hp : HTTPProxy) (vh : VirtualHost) (tls : TLS) (a b : String) :
    resolveIssuer r hp =
      resolveIssuerSpec hp.Annotations r.DefaultIssuerName r.DefaultIssuerKind ∧
    (hp.Annotations.lookup clusterIssuerNameAnnotation = some b →
      resolveIssuer r hp = (b, ClusterIssuerKind)) ∧
    (hp.Annotations.lookup clusterIssuerNameAnnotation = none →
      hp.Annotations.lookup issuerNameAnnotation = some a →
      resolveIssuer r hp = (a, IssuerKind)) ∧
    (hp.Annotations.lookup clusterIssuerNameAnnotation = none →
      hp.Annotations.lookup issuerNameAnnotation = none →
      resolveIssuer r hp = (r.DefaultIssuerName, r.DefaultIssuerKind)) ∧
    (r.CreateCertificate = true →
      env.faults (Call.get Kind.HTTPProxy ⟨req.Namespace, req.Name⟩) = none →
      HTTPProxies.find st.store ⟨req.Namespace, req.Name⟩ = some hp →
      hp.Annotations.lookup excludeAnnotation ≠ some "true" →
      hp.Annotations.lookup testACMETLSAnnotation = some "true" →
      hp.Spec.VirtualHost = some vh → vh.Fqdn ≠ "" → vh.TLS = some tls → tls.SecretName ≠ "" →
      hp.Annotations.lookup issuerNameAnnotation = some a →
      hp.Annotations.lookup clusterIssuerNameAnnotation = some b → b ≠ "" →
      (Reconcile env r req st).1.2 = none →
      ∃ crt, Certificates.find (Reconcile env r req st).2.store
          ⟨hp.Namespace, r.Prefix ++ hp.Name⟩ = some crt ∧
        crt.Spec.IssuerRef = { Name := b, Kind := ClusterIssuerKind }) := by
  refine ⟨resolveIssuer_eq_spec r hp, resolveIssuer_cluster, resolveIssuer_issuer,
    resolveIssuer_default, ?_⟩
  intro henabled hfault hstored hnotexcluded hacme hvh hfqdn htls hsecret _ hb hbne hok
  have hres : resolveIssuer r hp = (b, ClusterIssuerKind) := resolveIssuer_cluster hb
  obtain ⟨crt, hfind, _, _, _, h4⟩ := Reconcile_certificate_found henabled hfault hstored
    hnotexcluded (certificateInputs_some hacme hvh hfqdn htls hsecret)
    (by rw [hres]; exact hbne) hok
  exact ⟨crt, hfind, by rw [h4, hres]⟩

/-- C4, on the worked scenario with both issuer annotations on the HTTPProxy. -/
theorem resolveIssuer_refines_spec_witness :
    ∃ crt, Certificates.find (Reconcile exampleEnv exampleReconciler exampleRequest
        exampleBothIssuersState).2.store ⟨"a", "x-foo"⟩ = some crt ∧
      crt.Spec.IssuerRef = { Name := "custom-cluster-issuer", Kind := "ClusterIssuer" } :=
  (resolveIssuer_refines_spec exampleEnv exampleReconciler exampleRequest exampleBothIssuersState
    exampleBothIssuersProxy exampleVirtualHost { SecretName := "foo-tls" } "custom-issuer"
    "custom-cluster-issuer").2.2.2.2 (by decide) (by decide) (by decide) (by decide) (by decide)
    (by decide) (by decide) (by decide) (by decide) (by decide) (by decide) (by decide)
    (by decide)

/-- C7 (no issuer, no certificate). Whenever the resolved issuer name is the
empty string, reconcileCertificate returns no error, leaves the store
unchanged and makes no call at all, so it creates or updates no Certificate,
whatever the other certificate preconditions are. The resolved name is empty
when DefaultIssuerName is empty and neither issuer annotation is present, when
the cluster-issuer annotation is present with an empty value, and when the
issuer annotation alone is present with an empty value, whatever
DefaultIssuerName is. Conversely, with DefaultIssuerName empty and a non-empty
issuer annotation (and no cluster-issuer annotation), a pass of the branch past
its guards that reports no error leaves the Certificate with that issuer name
and kind Issuer. -/
theorem reconcileCertificate_no_issuer (env : Env) (r : HTTPProxyReconciler) (hp : HTTPProxy)
    (st : St) :
    ((resolveIssuer r hp).1 = "" →
      (reconcileCertificate env r hp st).1 = none ∧
      (reconcileCertificate env r hp st).2.store = st.store ∧
      callsSince st (reconcileCertificate env r hp st).2 = []) ∧
    (r.DefaultIssuerName = "" → hp.Annotations.lookup issuerNameAnnotation = none →
      hp.Annotations.lookup clusterIssuerNameAnnotation = none → (resolveIssuer r hp).1 = "") ∧
    (hp.Annotations.lookup clusterIssuerNameAnnotation = some "" →
      (resolveIssuer r hp).1 = "") ∧
    (hp.Annotations.lookup issuerNameAnnotation = some "" →
      hp.Annotations.lookup clusterIssuerNameAnnotation = none → (resolveIssuer r hp).1 = "") ∧
    (∀ (vh : VirtualHost) (tls : TLS) (v : String) (st1 : St),
      r.CreateCertificate = true → r.DefaultIssuerName = "" →
      hp.Annotations.lookup issuerNameAnnotation = some v → v ≠ "" →
      hp.Annotations.lookup clusterIssuerNameAnnotation = none →
      hp.Annotations.lookup testACMETLSAnnotation = some "true" →
      hp.Spec.VirtualHost = some vh → vh.Fqdn ≠ "" → vh.TLS = some tls → tls.SecretName ≠ "" →
      reconcileCertificate env r hp st = (none, st1) →
      ∃ crt, Certificates.find st1.store ⟨hp.Namespace, r.Prefix ++ hp.Name⟩ = some crt ∧
        crt.Spec.IssuerRef = { Name := v, Kind := IssuerKind }) := by
  refine ⟨?_, ?_, ?_, ?_, ?_⟩
  · intro hname
    by_cases hen : r.CreateCertificate = true
    swap
    · rw [reconcileCertificate_disabled (by simpa using hen)]
      exact ⟨rfl, rfl, callsSince_of_eq _ (by simp)⟩
    cases hin : certificateInputs hp with
    | none =>
      rw [reconcileCertificate_skip hin]
      exact ⟨rfl, rfl, callsSince_of_eq _ (by simp)⟩
    | some p =>
      obtain ⟨vh, tls⟩ := p
      rw [reconcileCertificate_main hen hin, if_pos hname]
      exact ⟨rfl, rfl, callsSince_of_eq _ (by simp)⟩
  · intro hd hi hc
    rw [resolveIssuer_default hc hi]
    exact hd
  · intro hc
    rw [resolveIssuer_cluster hc]
  · intro hi hc
    rw [resolveIssuer_issuer hc hi]
  · intro vh tls v st1 hen _ hi hv hc hacme hvh hfqdn htls hsecret hrun
    have hres : resolveIssuer r hp = (v, IssuerKind) := resolveIssuer_issuer hc hi
    obtain ⟨crt, hfind, _, _, _, h4⟩ := reconcileCertificate_post hen
      (certificateInputs_some hacme hvh hfqdn htls hsecret) (by rw [hres]; exact hv) hrun
    exact ⟨crt, hfind, by rw [h4, hres]⟩

/-- C7, on the worked scenario without a default issuer name: no annotation
gives no certificate, the issuer annotation gives one of kind Issuer. -/
theorem reconcileCertificate_no_issuer_witness :
    ((reconcileCertificate exampleEnv exampleNoIssuerReconciler exampleProxy exampleState).1 = none ∧
      (reconcileCertificate exampleEnv exampleNoIssuerReconciler exampleProxy exampleState).2.store =
        exampleState.store ∧
      callsSince exampleState
        (reconcileCertificate exampleEnv exampleNoIssuerReconciler exampleProxy exampleState).2 = []) ∧
    ∃ crt, Certificates.find
        (reconcileCertificate exampleEnv exampleNoIssuerReconciler exampleIssuerProxy
          exampleState).2.store ⟨"a", "x-foo"⟩ = some crt ∧
      crt.Spec.IssuerRef = { Name := "custom-issuer", Kind := "Issuer" } :=
  ⟨(reconcileCertificate_no_issuer exampleEnv exampleNoIssuerReconciler exampleProxy
      exampleState).1
      ((reconcileCertificate_no_issuer exampleEnv exampleNoIssuerReconciler exampleProxy
        exampleState).2.1 (by decide) (by decide) (by decide)),
    (reconcileCertificate_no_issuer exampleEnv exampleNoIssuerReconciler exampleIssuerProxy
      exampleState).2.2.2.2 exampleVirtualHost { SecretName := "foo-tls" } "custom-issuer"
      (reconcileCertificate exampleEnv exampleNoIssuerReconciler exampleIssuerProxy exampleState).2
      (by decide) (by decide) (by decide) (by decide) (by decide) (by decide) (by decide)
      (by decide) (by decide) (by decide) (by decide)⟩

/-- C9 (certificate preconditions). For every HTTPProxy for which the tls-acme
annotation is absent or not exactly "true", or the virtual host is absent, or
the fqdn is empty, or the TLS block is absent, or the TLS secretName is empty:
reconcileCertificate returns no error and changes nothing (no call, no write),
whatever the issuer configuration and annotations are. The DNS branch is
unaffected: for such an HTTPProxy, fetched and not excluded, the error and the
store of the whole pass are those of the DNS branch, and when the DNS
preconditions hold and the DNS branch reports no error the DNSEndpoint is in
the store afterwards. -/
theorem reconcileCertificate_missing_precondition (env : Env) (r : HTTPProxyReconciler)
    (hp : HTTPProxy) (st : St)
    (hmissing : hp.Annotations.lookup testACMETLSAnnotation ≠ some "true" ∨
      hp.Spec.VirtualHost = none ∨
      ∃ vh, hp.Spec.VirtualHost = some vh ∧
        (vh.Fqdn = "" ∨ vh.TLS = none ∨ ∃ tls, vh.TLS = some tls ∧ tls.SecretName = "")) :
    reconcileCertificate env r hp st = (none, st) ∧
    ∀ (req : Request) (st0 : St),
      env.faults (Call.get Kind.HTTPProxy ⟨req.Namespace, req.Name⟩) = none →
      HTTPProxies.find st0.store ⟨req.Namespace, req.Name⟩ = some hp →
      hp.Annotations.lookup excludeAnnotation ≠ some "true" →
      (Reconcile env r req st0).1.2 = (reconcileDNSEndpoint env r hp
        (st0.record (Call.get Kind.HTTPProxy ⟨req.Namespace, req.Name⟩))).1 ∧
      (Reconcile env r req st0).2.store = (reconcileDNSEndpoint env r hp
        (st0.record (Call.get Kind.HTTPProxy ⟨req.Namespace, req.Name⟩))).2.store ∧
      ∀ (vh : VirtualHost) (svc : Service), r.CreateDNSEndpoint = true →
        hp.Spec.VirtualHost = some vh → vh.Fqdn ≠ "" →
        Services.find st0.store r.ServiceKey = some svc →
        (∃ ing ∈ svc.Status.LoadBalancer.Ingress, ing.IP ≠ "") →
        (reconcileDNSEndpoint env r hp
          (st0.record (Call.get Kind.HTTPProxy ⟨req.Namespace, req.Name⟩))).1 = none →
        ∃ de, DNSEndpoints.find (Reconcile env r req st0).2.store
            ⟨hp.Namespace, r.Prefix ++ hp.Name⟩ = some de ∧
          de.Spec.Endpoints = makeEndpoints vh.Fqdn (serviceIPsSpec env svc) := by
  have hskip : ∀ st1 : St, reconcileCertificate env r hp st1 = (none, st1) :=
    fun st1 => reconcileCertificate_skip (certificateInputs_none hmissing)
  refine ⟨hskip st, ?_⟩
  intro req st0 hfault hstored hnotexcluded
  have hrec : (Reconcile env r req st0).1.2 = (reconcileDNSEndpoint env r hp
        (st0.record (Call.get Kind.HTTPProxy ⟨req.Namespace, req.Name⟩))).1 ∧
      (Reconcile env r req st0).2.store = (reconcileDNSEndpoint env r hp
        (st0.record (Call.get Kind.HTTPProxy ⟨req.Namespace, req.Name⟩))).2.store := by
    rcases Reconcile_branches (r := r) hfault hstored hnotexcluded with
      ⟨e, st2, hd, heq⟩ | ⟨st2, e, st3, _, hc, _⟩ | ⟨st2, st3, hd, hc, heq⟩
    · rw [heq, hd]
      exact ⟨rfl, rfl⟩
    · rw [hskip st2] at hc
      cases hc
    · rw [hskip st2] at hc
      cases hc
      rw [heq, hd]
      exact ⟨rfl, rfl⟩
  obtain ⟨h1, h2⟩ := hrec
  refine ⟨h1, h2, ?_⟩
  intro vh svc hen hvh hfqdn hsvc hip hok
  rw [h2]
  rcases hdns : reconcileDNSEndpoint env r hp
    (st0.record (Call.get Kind.HTTPProxy ⟨req.Namespace, req.Name⟩)) with ⟨_ | e, st2⟩
  · have hsvc1 : Services.find
        (st0.record (Call.get Kind.HTTPProxy ⟨req.Namespace, req.Name⟩)).store r.ServiceKey =
        some svc := hsvc
    exact reconcileDNSEndpoint_post hen hvh hfqdn hsvc1 (serviceIPsSpec_ne_nil hip) hdns
  · rw [hdns] at hok
    cases hok

/-- C9, on the worked scenario with the tls-acme annotation set to "aaa": no
certificate, and the DNSEndpoint `a/x-foo` is still there. -/
theorem reconcileCertificate_missing_precondition_witness :
    reconcileCertificate exampleEnv exampleReconciler exampleNoAcmeProxy exampleNoAcmeState =
      (none, exampleNoAcmeState) ∧
    ∃ de, DNSEndpoints.find (Reconcile exampleEnv exampleReconciler exampleRequest
        exampleNoAcmeState).2.store ⟨"a", "x-foo"⟩ = some de ∧
      de.Spec.Endpoints =
        makeEndpoints "foo.example.com" (serviceIPsSpec exampleEnv exampleService) :=
  ⟨(reconcileCertificate_missing_precondition exampleEnv exampleReconciler exampleNoAcmeProxy
      exampleNoAcmeState (by decide)).1,
    ((reconcileCertificate_missing_precondition exampleEnv exampleReconciler exampleNoAcmeProxy
      exampleNoAcmeState (by decide)).2 exampleRequest exampleNoAcmeState (by decide)
      (by decide) (by decide)).2.2 exampleVirtualHost exampleService (by decide) (by decide)
      (by decide) (by decide) (by decide) (by decide)⟩

/-- C10 (null fields are safe). For every fetched HTTPProxy whose virtual-host
block is absent or whose fqdn is empty, with or without annotations, for every
configuration and store (the target service may be missing): Reconcile returns
success, leaves the store unchanged, and the only call it makes is the fetch
of the HTTPProxy, so the target service is not fetched. And for an HTTPProxy
with an fqdn and the tls-acme annotation "true" but no TLS block, the
certificate branch returns success and changes nothing. The absent blocks are
`none` values the embedding matches on, so no pass dereferences one. -/
theorem Reconcile_null_fields (env : Env) (r : HTTPProxyReconciler) (req : Request) (st : St)
    (hp : HTTPProxy)
    (hfault : env.faults (Call.get Kind.HTTPProxy ⟨req.Namespace, req.Name⟩) = none)
    (hstored : HTTPProxies.find st.store ⟨req.Namespace, req.Name⟩ = some hp)
    (hnull : hp.Spec.VirtualHost = none ∨
      ∃ vh, hp.Spec.VirtualHost = some vh ∧ vh.Fqdn = "") :
    (Reconcile env r req st).1 = ({}, none) ∧
    (Reconcile env r req st).2.store = st.store ∧
    callsSince st (Reconcile env r req st).2 =
      [Call.get Kind.HTTPProxy ⟨req.Namespace, req.Name⟩] ∧
    ∀ (hp2 : HTTPProxy) (vh2 : VirtualHost) (st2 : St),
      hp2.Annotations.lookup testACMETLSAnnotation = some "true" →
      hp2.Spec.VirtualHost = some vh2 → vh2.Fqdn ≠ "" → vh2.TLS = none →
      reconcileCertificate env r hp2 st2 = (none, st2) := by
  have hmain : Reconcile env r req st =
      (({}, none), st.record (Call.get Kind.HTTPProxy ⟨req.Namespace, req.Name⟩)) := by
    by_cases hex : hp.Annotations.lookup excludeAnnotation = some "true"
    · exact Reconcile_excluded_eq hfault hstored hex
    · rw [Reconcile_fetched hfault hstored]
      have hcrt : certificateInputs hp = none := by
        apply certificateInputs_none
        rcases hnull with h | ⟨vh, h, hfq⟩
        · exact Or.inr (Or.inl h)
        · exact Or.inr (Or.inr ⟨vh, h, Or.inl hfq⟩)
      simp only [mapIndex_ne_true hex, if_false, reconcileDNSEndpoint_null hnull,
        reconcileCertificate_skip hcrt]
  rw [hmain]
  refine ⟨rfl, rfl, callsSince_of_eq _ rfl, ?_⟩
  intro hp2 vh2 st2 _ hvh2 _ htls2
  exact reconcileCertificate_skip
    (certificateInputs_none (Or.inr (Or.inr ⟨vh2, hvh2, Or.inr (Or.inl htls2)⟩)))

/-- C10, on the HTTPProxies of the test "should not crash with null fields":
one without a virtual host (and no target service in the store), one without a
TLS block. -/
theorem Reconcile_null_fields_witness :
    ((Reconcile exampleEnv exampleReconciler exampleRequest exampleNullState).1 = ({}, none) ∧
      (Reconcile exampleEnv exampleReconciler exampleRequest exampleNullState).2.store =
        exampleNullState.store ∧
      callsSince exampleNullState
        (Reconcile exampleEnv exampleReconciler exampleRequest exampleNullState).2 =
        [Call.get Kind.HTTPProxy ⟨"a", "foo"⟩]) ∧
    reconcileCertificate exampleEnv exampleReconciler exampleNoTLSProxy exampleNullState =
      (none, exampleNullState) :=
  have h := Reconcile_null_fields exampleEnv exampleReconciler exampleRequest exampleNullState
    exampleNullProxy (by decide) (by decide) (by decide)
  ⟨⟨h.1, h.2.1, h.2.2.1⟩,
    h.2.2.2 exampleNoTLSProxy { Fqdn := "foo2.example.com" } exampleNullState (by decide)
      (by decide) (by decide) (by decide)⟩

/-- C5 (idempotence). For every configuration, request and state on which
Reconcile reports no error, a second Reconcile of the same request on any
state holding the store the first pass left (so the same HTTPProxy and the
same target service), under the same environment, reports no error again and
leaves that store exactly as it is: it makes no create and no update call, so
no derived resource gets a new version, and every upsert it logs reports
`None`, controller-runtime's "unchanged". -/
theorem Reconcile_idempotent (env : Env) (r : HTTPProxyReconciler) (req : Request)
    (st st2 : St)
    (hok : (Reconcile env r req st).1.2 = none)
    (hstore : st2.store = (Reconcile env r req st).2.store) :
    (Reconcile env r req st2).1.2 = none ∧
    (Reconcile env r req st2).2.store = st2.store ∧
    (∀ c ∈ callsSince st2 (Reconcile env r req st2).2, c.isWrite = false) ∧
    (∀ msg op, LogEntry.info msg (some op) ∈ logsSince st2 (Reconcile env r req st2).2 →
      op = OperationResult.None) := by
  have hsimple : Reconcile env r req st2 =
      (({}, none), st2.record (Call.get Kind.HTTPProxy ⟨req.Namespace, req.Name⟩)) →
      (Reconcile env r req st2).1.2 = none ∧
      (Reconcile env r req st2).2.store = st2.store ∧
      (∀ c ∈ callsSince st2 (Reconcile env r req st2).2, c.isWrite = false) ∧
      (∀ msg op, LogEntry.info msg (some op) ∈ logsSince st2 (Reconcile env r req st2).2 →
        op = OperationResult.None) := by
    intro heq
    rw [heq]
    refine ⟨rfl, rfl, ?_, ?_⟩
    · intro c hc
      rw [callsSince_of_eq [Call.get Kind.HTTPProxy ⟨req.Namespace, req.Name⟩] rfl] at hc
      rw [List.mem_singleton.mp hc]
      rfl
    · intro msg op hm
      rw [logsSince_of_eq [] (by simp)] at hm
      exact absurd hm (List.not_mem_nil _)
  cases hfault : env.faults (Call.get Kind.HTTPProxy ⟨req.Namespace, req.Name⟩) with
  | some msg =>
    rw [Reconcile_fetch_failed hfault] at hok
    cases hok
  | none =>
    have hHP : st2.store.HTTPProxies = st.store.HTTPProxies := by
      rw [hstore]
      exact (Reconcile_frame env r req st).1
    have hfind2 : HTTPProxies.find st2.store ⟨req.Namespace, req.Name⟩ =
        HTTPProxies.find st.store ⟨req.Namespace, req.Name⟩ :=
      HTTPProxies.find_congr hHP _
    cases hstored : HTTPProxies.find st.store ⟨req.Namespace, req.Name⟩ with
    | none => exact hsimple (Reconcile_absent hfault (hfind2.trans hstored))
    | some hp =>
      have hstored2 := hfind2.trans hstored
      by_cases hex : hp.Annotations.lookup excludeAnnotation = some "true"
      · exact hsimple (Reconcile_excluded_eq hfault hstored2 hex)
      rcases Reconcile_branches (r := r) hfault hstored hex with
        ⟨e, st3, hd, heq⟩ | ⟨st3, e, st4, hd, hc, heq⟩ | ⟨st3, st4, hd, hc, heq⟩
      · rw [heq] at hok
        cases hok
      · rw [heq] at hok
        cases hok
      rw [heq] at hstore
      have hdf := reconcileDNSEndpoint_frame env r hp
        (st.record (Call.get Kind.HTTPProxy ⟨req.Namespace, req.Name⟩))
      have hcf := reconcileCertificate_frame env r hp st3
      rw [hd] at hdf
      rw [hc] at hcf
      obtain ⟨st5, cs1, ls1, hrun1, hst5, hcs1, hls1, hw1, ho1⟩ :=
        reconcileDNSEndpoint_idem hd
          (st2.record (Call.get Kind.HTTPProxy ⟨req.Namespace, req.Name⟩))
          (by
            show st2.store.Services = st.store.Services
            rw [hstore]
            exact hcf.2.1.trans hdf.2.1)
          (by
            show st2.store.DNSEndpoints = st3.store.DNSEndpoints
            rw [hstore]
            exact hcf.2.2.1)
      obtain ⟨st6, cs2, ls2, hrun2, hst6, hcs2, hls2, hw2, ho2⟩ :=
        reconcileCertificate_idem hc st5
          (by
            rw [hst5]
            show st2.store.Certificates = st4.store.Certificates
            rw [hstore])
      have hfinal : Reconcile env r req st2 = (({}, none), st6) := by
        rw [Reconcile_fetched hfault hstored2]
        simp only [mapIndex_ne_true hex, if_false, hrun1, hrun2]
      rw [hfinal]
      refine ⟨rfl, ?_, ?_, ?_⟩
      · show st6.store = st2.store
        rw [hst6, hst5]
        rfl
      · intro c hc
        rw [callsSince_of_eq (Call.get Kind.HTTPProxy ⟨req.Namespace, req.Name⟩ :: (cs1 ++ cs2))
          (by show st6.calls = _; rw [hcs2, hcs1]; simp)] at hc
        rcases List.mem_cons.mp hc with hc | hc
        · rw [hc]
          rfl
        · rcases List.mem_append.mp hc with hc | hc
          · exact hw1 c hc
          · exact hw2 c hc
      · intro msg op hm
        rw [logsSince_of_eq (ls1 ++ ls2)
          (by show st6.logs = _; rw [hls2, hls1]; simp)] at hm
        rcases List.mem_append.mp hm with hm | hm
        · exact ho1 msg op hm
        · exact ho2 msg op hm

/-- C5, on the worked scenario: the second pass over the store the first pass
left changes nothing. -/
theorem Reconcile_idempotent_witness :
    (Reconcile exampleEnv exampleReconciler exampleRequest
      (Reconcile exampleEnv exampleReconciler exampleRequest exampleState).2).1.2 = none ∧
    (Reconcile exampleEnv exampleReconciler exampleRequest
      (Reconcile exampleEnv exampleReconciler exampleRequest exampleState).2).2.store =
      (Reconcile exampleEnv exampleReconciler exampleRequest exampleState).2.store :=
  have h := Reconcile_idempotent exampleEnv exampleReconciler exampleRequest exampleState
    (Reconcile exampleEnv exampleReconciler exampleRequest exampleState).2 (by decide) rfl
  ⟨h.1, h.2.1⟩

/-- C6 (zero addresses). For every HTTPProxy with a non-empty fqdn and every
fetched target service none of whose ingress entries has a non-empty IP (no
entries, or entries with an empty IP only): reconcileDNSEndpoint returns no
error, leaves the store unchanged, and the only call it makes is the fetch of
the target service, so it creates or updates no DNSEndpoint and does not call
makeEndpoints. And in every pass of Reconcile, on every state, each call of
makeEndpoints has a non-empty address list. -/
theorem reconcileDNSEndpoint_zero_addresses (env : Env) (r : HTTPProxyReconciler)
    (hp : HTTPProxy) (vh : VirtualHost) (svc : Service) (st : St)
    (hvh : hp.Spec.VirtualHost = some vh) (hfqdn : vh.Fqdn ≠ "")
    (hfault : env.faults (Call.get Kind.Service r.ServiceKey) = none)
    (hsvc : Services.find st.store r.ServiceKey = some svc)
    (hzero : ∀ ing ∈ svc.Status.LoadBalancer.Ingress, ing.IP = "") :
    (reconcileDNSEndpoint env r hp st).1 = none ∧
    (reconcileDNSEndpoint env r hp st).2.store = st.store ∧
    (∀ c ∈ callsSince st (reconcileDNSEndpoint env r hp st).2,
      c = Call.get Kind.Service r.ServiceKey) ∧
    (∀ (req : Request) (st0 : St) (fqdn : String) (ips : List IP),
      Call.makeEndpoints fqdn ips ∈ callsSince st0 (Reconcile env r req st0).2 → ips ≠ []) := by
  have hbranch : (reconcileDNSEndpoint env r hp st).1 = none ∧
      (reconcileDNSEndpoint env r hp st).2.store = st.store ∧
      (∀ c ∈ callsSince st (reconcileDNSEndpoint env r hp st).2,
        c = Call.get Kind.Service r.ServiceKey) := by
    by_cases hen : r.CreateDNSEndpoint = true
    · have hg : Client.Get env Services r.ServiceKey st = _ := Client.Get_of_found hfault hsvc
      have heq : reconcileDNSEndpoint env r hp st =
          (none, (st.record (Call.get Kind.Service r.ServiceKey)).log
            (LogEntry.info ("no IP address for service " ++ r.ServiceKey.String) none)) := by
        rw [reconcileDNSEndpoint_fetch hen hvh hfqdn, hg]
        simp only [serviceIPsSpec_eq_nil hzero, if_true]
        rfl
      rw [heq]
      refine ⟨rfl, rfl, ?_⟩
      intro c hc
      rw [callsSince_of_eq [Call.get Kind.Service r.ServiceKey] rfl] at hc
      exact List.mem_singleton.mp hc
    · rw [reconcileDNSEndpoint_disabled (by simpa using hen)]
      refine ⟨rfl, rfl, ?_⟩
      intro c hc
      rw [callsSince_of_eq [] (by simp)] at hc
      exact absurd hc (List.not_mem_nil _)
  refine ⟨hbranch.1, hbranch.2.1, hbranch.2.2, ?_⟩
  intro req st0 fqdn ips hmem
  obtain ⟨cs, hcs, hall⟩ := Reconcile_calls env r req st0
  rw [callsSince_of_eq _ hcs] at hmem
  rcases List.mem_cons.mp hmem with h | h
  · cases h
  · rcases hall _ h with ⟨_, h1 | h1 | h1 | h1 | ⟨f, i, h1, hne⟩⟩ | ⟨_, h1 | h1 | h1⟩
    · cases h1
    · cases h1
    · cases h1
    · cases h1
    · cases h1
      exact hne
    · cases h1
    · cases h1
    · cases h1

/-- C6, on the worked scenario with the service still waiting for its
address: only the service is fetched, nothing is written. -/
theorem reconcileDNSEndpoint_zero_addresses_witness :
    (reconcileDNSEndpoint exampleEnv exampleReconciler exampleProxy examplePendingState).1 = none ∧
    (reconcileDNSEndpoint exampleEnv exampleReconciler exampleProxy examplePendingState).2.store =
      examplePendingState.store ∧
    (∀ c ∈ callsSince examplePendingState
        (reconcileDNSEndpoint exampleEnv exampleReconciler exampleProxy examplePendingState).2,
      c = Call.get Kind.Service ⟨"ingress", "contour"⟩) :=
  have h := reconcileDNSEndpoint_zero_addresses exampleEnv exampleReconciler exampleProxy
    exampleVirtualHost examplePendingService examplePendingState (by decide) (by decide)
    (by decide) (by decide) (by decide)
  ⟨h.1, h.2.1, h.2.2.1⟩

/-- C8 (feature toggles gate only their own branch). (1) With CreateCertificate
false, for every request and state, Reconcile leaves the Certificates as they
are and makes no call on a Certificate, and the DNSEndpoints it leaves are
those it leaves with CreateCertificate true. (2) With CreateDNSEndpoint false,
for every request and state (the target service may be absent), Reconcile
leaves the DNSEndpoints as they are, makes no call on a DNSEndpoint, does not
fetch any Service and does not call makeEndpoints; and for a fetched,
non-excluded HTTPProxy that meets the certificate preconditions, a pass that
reports no error still leaves the Certificate under Prefix+name. -/
theorem Reconcile_feature_toggles (env : Env) (r : HTTPProxyReconciler) (req : Request)
    (st : St) :
    (r.CreateCertificate = false →
      (Reconcile env r req st).2.store.Certificates = st.store.Certificates ∧
      (∀ c ∈ callsSince st (Reconcile env r req st).2, ∀ key,
        c ≠ Call.get Kind.Certificate key ∧ c ≠ Call.create Kind.Certificate key ∧
        c ≠ Call.update Kind.Certificate key) ∧
      (Reconcile env r req st).2.store.DNSEndpoints =
        (Reconcile env { r with CreateCertificate := true } req st).2.store.DNSEndpoints) ∧
    (r.CreateDNSEndpoint = false →
      (Reconcile env r req st).2.store.DNSEndpoints = st.store.DNSEndpoints ∧
      (∀ c ∈ callsSince st (Reconcile env r req st).2,
        (∀ key, c ≠ Call.get Kind.Service key ∧ c ≠ Call.get Kind.DNSEndpoint key ∧
          c ≠ Call.create Kind.DNSEndpoint key ∧ c ≠ Call.update Kind.DNSEndpoint key) ∧
        ∀ fqdn ips, c ≠ Call.makeEndpoints fqdn ips) ∧
      ∀ (hp : HTTPProxy) (vh : VirtualHost) (tls : TLS), r.CreateCertificate = true →
        env.faults (Call.get Kind.HTTPProxy ⟨req.Namespace, req.Name⟩) = none →
        HTTPProxies.find st.store ⟨req.Namespace, req.Name⟩ = some hp →
        hp.Annotations.lookup excludeAnnotation ≠ some "true" →
        hp.Annotations.lookup testACMETLSAnnotation = some "true" →
        hp.Spec.VirtualHost = some vh → vh.Fqdn ≠ "" → vh.TLS = some tls →
        tls.SecretName ≠ "" → (resolveIssuer r hp).1 ≠ "" →
        (Reconcile env r req st).1.2 = none →
        ∃ crt, Certificates.find (Reconcile env r req st).2.store
            ⟨hp.Namespace, r.Prefix ++ hp.Name⟩ = some crt ∧
          crt.Spec.DNSNames = [vh.Fqdn] ∧ crt.Spec.CommonName = vh.Fqdn ∧
          crt.Spec.SecretName = tls.SecretName ∧
          crt.Spec.IssuerRef =
            { Name := (resolveIssuer r hp).1, Kind := (resolveIssuer r hp).2 }) := by
  obtain ⟨cs, hcs, hall⟩ := Reconcile_calls env r req st
  refine ⟨?_, ?_⟩
  · intro hoff
    refine ⟨(Reconcile_frame env r req st).2.2.2 hoff, ?_, ?_⟩
    · intro c hc key
      rw [callsSince_of_eq _ hcs] at hc
      rcases List.mem_cons.mp hc with h | h
      · subst h
        exact ⟨by simp, by simp, by simp⟩
      · rcases hall c h with ⟨_, h1 | h1 | h1 | h1 | ⟨f, i, h1, _⟩⟩ | ⟨hon, _⟩
        · subst h1
          exact ⟨by simp, by simp, by simp⟩
        · subst h1
          exact ⟨by simp, by simp, by simp⟩
        · subst h1
          exact ⟨by simp, by simp, by simp⟩
        · subst h1
          exact ⟨by simp, by simp, by simp⟩
        · subst h1
          exact ⟨by simp, by simp, by simp⟩
        · rw [hoff] at hon
          cases hon
    · cases hfault : env.faults (Call.get Kind.HTTPProxy ⟨req.Namespace, req.Name⟩) with
      | some msg => rw [Reconcile_fetch_failed hfault, Reconcile_fetch_failed hfault]
      | none =>
        cases hstored : HTTPProxies.find st.store ⟨req.Namespace, req.Name⟩ with
        | none => rw [Reconcile_absent hfault hstored, Reconcile_absent hfault hstored]
        | some hp =>
          by_cases hex : hp.Annotations.lookup excludeAnnotation = some "true"
          · rw [Reconcile_excluded_eq hfault hstored hex, Reconcile_excluded_eq hfault hstored hex]
          · rw [Reconcile_DNSEndpoints hfault hstored hex,
              Reconcile_DNSEndpoints hfault hstored hex]
            rfl
  · intro hoff
    refine ⟨(Reconcile_frame env r req st).2.2.1 hoff, ?_, ?_⟩
    · intro c hc
      rw [callsSince_of_eq _ hcs] at hc
      rcases List.mem_cons.mp hc with h | h
      · subst h
        exact ⟨fun key => ⟨by simp, by simp, by simp, by simp⟩, fun _ _ => by simp⟩
      · rcases hall c h with ⟨hon, _⟩ | ⟨_, h1 | h1 | h1⟩
        · rw [hoff] at hon
          cases hon
        · subst h1
          exact ⟨fun key => ⟨by simp, by simp, by simp, by simp⟩, fun _ _ => by simp⟩
        · subst h1
          exact ⟨fun key => ⟨by simp, by simp, by simp, by simp⟩, fun _ _ => by simp⟩
        · subst h1
          exact ⟨fun key => ⟨by simp, by simp, by simp, by simp⟩, fun _ _ => by simp⟩
    · intro hp vh tls hen hfault hstored hex hacme hvh hfqdn htls hsecret hissuer hok
      exact Reconcile_certificate_found hen hfault hstored hex
        (certificateInputs_some hacme hvh hfqdn htls hsecret) hissuer hok

/-- C8, on the worked scenario: with the certificate feature off no
certificate appears; with the DNS feature off and the target service absent,
the certificate still does. -/
theorem Reconcile_feature_toggles_witness :
    (Reconcile exampleEnv exampleDNSOnlyReconciler exampleRequest exampleState).2.store.Certificates =
      exampleState.store.Certificates ∧
    ∃ crt, Certificates.find (Reconcile exampleEnv exampleCertificateOnlyReconciler exampleRequest
        exampleNoServiceState).2.store ⟨"a", "x-foo"⟩ = some crt ∧
      crt.Spec.SecretName = "foo-tls" :=
  ⟨((Reconcile_feature_toggles exampleEnv exampleDNSOnlyReconciler exampleRequest
      exampleState).1 (by decide)).1,
    by
      obtain ⟨crt, h1, _, _, h4, _⟩ :=
        ((Reconcile_feature_toggles exampleEnv exampleCertificateOnlyReconciler exampleRequest
          exampleNoServiceState).2 (by decide)).2.2 exampleProxy exampleVirtualHost
          { SecretName := "foo-tls" } (by decide) (by decide) (by decide) (by decide)
          (by decide) (by decide) (by decide) (by decide) (by decide) (by decide) (by decide)
      exact ⟨crt, h1, h4⟩⟩

/-- C12 (fetching the virtual host). For every request and state: when the
fetch of the HTTPProxy reports an error, Reconcile returns success if the
error is NotFound and exactly that error otherwise; in both cases the store is
unchanged and the only call of the pass is that fetch, so neither the target
service nor a derived resource is read or written. The fetch reports NotFound
when no HTTPProxy is stored under the requested name, and the store's error
when the store fails. -/
theorem Reconcile_fetch_virtual_host (env : Env) (r : HTTPProxyReconciler) (req : Request)
    (st : St) :
    (∀ (e : Err) (st1 : St),
      Client.Get env HTTPProxies ⟨req.Namespace, req.Name⟩ st = (Except.error e, st1) →
      (Reconcile env r req st).1 = ({}, if IsNotFound e then none else some e) ∧
      (Reconcile env r req st).2.store = st.store ∧
      callsSince st (Reconcile env r req st).2 =
        [Call.get Kind.HTTPProxy ⟨req.Namespace, req.Name⟩]) ∧
    (env.faults (Call.get Kind.HTTPProxy ⟨req.Namespace, req.Name⟩) = none →
      HTTPProxies.find st.store ⟨req.Namespace, req.Name⟩ = none →
      (Reconcile env r req st).1 = ({}, none) ∧
      (Reconcile env r req st).2.store = st.store ∧
      callsSince st (Reconcile env r req st).2 =
        [Call.get Kind.HTTPProxy ⟨req.Namespace, req.Name⟩]) ∧
    (∀ msg, env.faults (Call.get Kind.HTTPProxy ⟨req.Namespace, req.Name⟩) = some msg →
      (Reconcile env r req st).1 = ({}, some (Err.store msg)) ∧
      (Reconcile env r req st).2.store = st.store ∧
      callsSince st (Reconcile env r req st).2 =
        [Call.get Kind.HTTPProxy ⟨req.Namespace, req.Name⟩]) := by
  have habs : env.faults (Call.get Kind.HTTPProxy ⟨req.Namespace, req.Name⟩) = none →
      HTTPProxies.find st.store ⟨req.Namespace, req.Name⟩ = none →
      (Reconcile env r req st).1 = ({}, none) ∧
      (Reconcile env r req st).2.store = st.store ∧
      callsSince st (Reconcile env r req st).2 =
        [Call.get Kind.HTTPProxy ⟨req.Namespace, req.Name⟩] := by
    intro hf hn
    rw [Reconcile_absent hf hn]
    exact ⟨rfl, rfl, callsSince_of_eq _ rfl⟩
  have hfail : ∀ msg, env.faults (Call.get Kind.HTTPProxy ⟨req.Namespace, req.Name⟩) = some msg →
      (Reconcile env r req st).1 = ({}, some (Err.store msg)) ∧
      (Reconcile env r req st).2.store = st.store ∧
      callsSince st (Reconcile env r req st).2 =
        [Call.get Kind.HTTPProxy ⟨req.Namespace, req.Name⟩] := by
    intro msg hf
    rw [Reconcile_fetch_failed hf]
    exact ⟨rfl, rfl, callsSince_of_eq _ rfl⟩
  refine ⟨?_, habs, hfail⟩
  intro e st1 hget
  rcases Client.Get_cases env HTTPProxies ⟨req.Namespace, req.Name⟩ st with
    ⟨msg, hf, hg⟩ | ⟨hf, hn, hg⟩ | ⟨o, _, _, hg⟩
  · rw [hg] at hget
    cases hget
    exact hfail msg hf
  · rw [hg] at hget
    cases hget
    exact habs hf hn
  · rw [hg] at hget
    cases hget

/-- C12, on an empty store (NotFound, success) and on a store whose fetch
fails (the error is returned). -/
theorem Reconcile_fetch_virtual_host_witness :
    ((Reconcile exampleEnv exampleReconciler exampleRequest exampleEmptyState).1 = ({}, none) ∧
      (Reconcile exampleEnv exampleReconciler exampleRequest exampleEmptyState).2.store =
        exampleEmptyState.store) ∧
    ((Reconcile exampleFetchFailingEnv exampleReconciler exampleRequest exampleState).1 =
        ({}, some (Err.store "connection refused")) ∧
      (Reconcile exampleFetchFailingEnv exampleReconciler exampleRequest exampleState).2.store =
        exampleState.store) :=
  have h1 := (Reconcile_fetch_virtual_host exampleEnv exampleReconciler exampleRequest
    exampleEmptyState).2.1 (by decide) (by decide)
  have h2 := (Reconcile_fetch_virtual_host exampleFetchFailingEnv exampleReconciler exampleRequest
    exampleState).2.2 "connection refused" (by decide)
  ⟨⟨h1.1, h1.2.1⟩, ⟨h2.1, h2.2.1⟩⟩

/-- C11, as the specification states it, fails: on the worked scenario without
the target service every hypothesis of the claim holds (DNS feature enabled,
the HTTPProxy stored, not excluded, fqdn non-empty, no service stored under
ServiceKey and no store failure), yet Reconcile returns the NotFound error of
the service fetch instead of success. -/
theorem Reconcile_absent_service_counterexample :
    exampleReconciler.CreateDNSEndpoint = true ∧
    exampleEnv.faults (Call.get Kind.HTTPProxy ⟨"a", "foo"⟩) = none ∧
    HTTPProxies.find exampleNoServiceState.store ⟨"a", "foo"⟩ = some exampleProxy ∧
    exampleProxy.Annotations.lookup excludeAnnotation ≠ some "true" ∧
    exampleProxy.Spec.VirtualHost = some exampleVirtualHost ∧ exampleVirtualHost.Fqdn ≠ "" ∧
    exampleEnv.faults (Call.get Kind.Service exampleReconciler.ServiceKey) = none ∧
    Services.find exampleNoServiceState.store exampleReconciler.ServiceKey = none ∧
    (Reconcile exampleEnv exampleReconciler exampleRequest exampleNoServiceState).1.2 =
      some (Err.notFound Kind.Service ⟨"ingress", "contour"⟩) ∧
    (Reconcile exampleEnv exampleReconciler exampleRequest exampleNoServiceState).1.2 ≠ none := by
  decide

/-- C11, amended (absent target service). With CreateDNSEndpoint enabled, for
a fetched, non-excluded HTTPProxy with a non-empty fqdn, when no service is
stored under ServiceKey and the fetch of it reports NotFound: Reconcile
returns that NotFound error (the pass fails, to be retried by the caller), and
it mutates no resource: the store is unchanged and the only calls of the pass
are the two fetches, so nothing is created or updated and the certificate
branch is not run. -/
theorem Reconcile_absent_service (env : Env) (r : HTTPProxyReconciler) (req : Request)
    (st : St) (hp : HTTPProxy) (vh : VirtualHost)
    (henabled : r.CreateDNSEndpoint = true)
    (hfault : env.faults (Call.get Kind.HTTPProxy ⟨req.Namespace, req.Name⟩) = none)
    (hstored : HTTPProxies.find st.store ⟨req.Namespace, req.Name⟩ = some hp)
    (hnotexcluded : hp.Annotations.lookup excludeAnnotation ≠ some "true")
    (hvh : hp.Spec.VirtualHost = some vh) (hfqdn : vh.Fqdn ≠ "")
    (hsfault : env.faults (Call.get Kind.Service r.ServiceKey) = none)
    (habsent : Services.find st.store r.ServiceKey = none) :
    (Reconcile env r req st).1 = ({}, some (Err.notFound Kind.Service r.ServiceKey)) ∧
    IsNotFound (Err.notFound Kind.Service r.ServiceKey) = true ∧
    (Reconcile env r req st).2.store = st.store ∧
    callsSince st (Reconcile env r req st).2 =
      [Call.get Kind.HTTPProxy ⟨req.Namespace, req.Name⟩, Call.get Kind.Service r.ServiceKey] := by
  have habsent1 : Services.find
      (st.record (Call.get Kind.HTTPProxy ⟨req.Namespace, req.Name⟩)).store r.ServiceKey = none :=
    habsent
  have hget : Client.Get env Services r.ServiceKey
      (st.record (Call.get Kind.HTTPProxy ⟨req.Namespace, req.Name⟩)) = _ :=
    Client.Get_of_absent hsfault habsent1
  have hdns : reconcileDNSEndpoint env r hp
      (st.record (Call.get Kind.HTTPProxy ⟨req.Namespace, req.Name⟩)) =
      (some (Err.notFound Kind.Service r.ServiceKey),
        (st.record (Call.get Kind.HTTPProxy ⟨req.Namespace, req.Name⟩)).record
          (Call.get Kind.Service r.ServiceKey)) := by
    rw [reconcileDNSEndpoint_fetch henabled hvh hfqdn, hget]
    rfl
  rcases Reconcile_branches (r := r) hfault hstored hnotexcluded with
    ⟨e, st2, hd, heq⟩ | ⟨st2, e, st3, hd, _, _⟩ | ⟨st2, st3, hd, _, _⟩
  · rw [hdns] at hd
    cases hd
    rw [heq]
    exact ⟨rfl, rfl, rfl, callsSince_of_eq _ (by simp)⟩
  · rw [hdns] at hd
    cases hd
  · rw [hdns] at hd
    cases hd

/-- C11 amended, on the worked scenario without the target service. -/
theorem Reconcile_absent_service_witness :
    (Reconcile exampleEnv exampleReconciler exampleRequest exampleNoServiceState).1 =
      ({}, some (Err.notFound Kind.Service ⟨"ingress", "contour"⟩)) ∧
    (Reconcile exampleEnv exampleReconciler exampleRequest exampleNoServiceState).2.store =
      exampleNoServiceState.store :=
  have h := Reconcile_absent_service exampleEnv exampleReconciler exampleRequest
    exampleNoServiceState exampleProxy exampleVirtualHost (by decide) (by decide) (by decide)
    (by decide) (by decide) (by decide) (by decide) (by decide)
  ⟨h.1, h.2.2.1⟩

/-- C14 (a DNS-branch error aborts the certificate branch and is reported). For
a fetched, non-excluded HTTPProxy, whatever the toggles and the certificate
preconditions are: (1) if reconcileDNSEndpoint fails, Reconcile returns that
same error, leaves the Certificates as they are and makes no call on a
Certificate; the branch fails with the error of the target-service fetch when
that fetch fails, and with the error of the DNSEndpoint upsert when the upsert
fails. (2) If the DNS branch succeeds and reconcileCertificate fails, which it
does with the error of the certificate upsert when the upsert fails, Reconcile
returns the certificate error. (3) For every request and state, Reconcile
returns an error exactly when the fetch of the HTTPProxy failed, or the
HTTPProxy was fetched, is not excluded, and the DNS branch failed or, the DNS
branch having succeeded, the certificate branch failed. -/
theorem Reconcile_error_propagation (env : Env) (r : HTTPProxyReconciler) (req : Request)
    (st : St) (hp : HTTPProxy)
    (hfault : env.faults (Call.get Kind.HTTPProxy ⟨req.Namespace, req.Name⟩) = none)
    (hstored : HTTPProxies.find st.store ⟨req.Namespace, req.Name⟩ = some hp)
    (hnotexcluded : hp.Annotations.lookup excludeAnnotation ≠ some "true") :
    (∀ (e : Err) (st2 : St),
      reconcileDNSEndpoint env r hp
        (st.record (Call.get Kind.HTTPProxy ⟨req.Namespace, req.Name⟩)) = (some e, st2) →
      (Reconcile env r req st).1 = ({}, some e) ∧
      (Reconcile env r req st).2.store.Certificates = st.store.Certificates ∧
      ∀ c ∈ callsSince st (Reconcile env r req st).2, ∀ key,
        c ≠ Call.get Kind.Certificate key ∧ c ≠ Call.create Kind.Certificate key ∧
        c ≠ Call.update Kind.Certificate key) ∧
    (∀ (vh : VirtualHost) (e : Err) (st1 st2 : St), r.CreateDNSEndpoint = true →
      hp.Spec.VirtualHost = some vh → vh.Fqdn ≠ "" →
      Client.Get env Services r.ServiceKey st1 = (Except.error e, st2) →
      reconcileDNSEndpoint env r hp st1 = (some e, st2)) ∧
    (∀ (vh : VirtualHost) (svc : Service) (op : OperationResult) (e : Err) (st1 st2 st3 : St),
      r.CreateDNSEndpoint = true → hp.Spec.VirtualHost = some vh → vh.Fqdn ≠ "" →
      Client.Get env Services r.ServiceKey st1 = (Except.ok svc, st2) →
      serviceIPsSpec env svc ≠ [] →
      CreateOrUpdate env DNSEndpoints { Namespace := hp.Namespace, Name := r.Prefix ++ hp.Name }
        (mutateDNSEndpoint hp vh.Fqdn (serviceIPsSpec env svc)) st2 = ((op, some e), st3) →
      reconcileDNSEndpoint env r hp st1 = (some e, st3)) ∧
    (∀ (st2 : St) (e : Err) (st3 : St),
      reconcileDNSEndpoint env r hp
        (st.record (Call.get Kind.HTTPProxy ⟨req.Namespace, req.Name⟩)) = (none, st2) →
      reconcileCertificate env r hp st2 = (some e, st3) →
      (Reconcile env r req st).1 = ({}, some e)) ∧
    (∀ (vh : VirtualHost) (tls : TLS) (op : OperationResult) (e : Err) (st2 st3 : St),
      r.CreateCertificate = true →
      hp.Annotations.lookup testACMETLSAnnotation = some "true" →
      hp.Spec.VirtualHost = some vh → vh.Fqdn ≠ "" → vh.TLS = some tls → tls.SecretName ≠ "" →
      (resolveIssuer r hp).1 ≠ "" →
      CreateOrUpdate env Certificates { Namespace := hp.Namespace, Name := r.Prefix ++ hp.Name }
        (mutateCertificate hp vh tls (resolveIssuer r hp).1 (resolveIssuer r hp).2) st2 =
        ((op, some e), st3) →
      reconcileCertificate env r hp st2 = (some e, st3)) ∧
    (∀ (req1 : Request) (st1 : St),
      (Reconcile env r req1 st1).1.2 ≠ none ↔
        ((∃ msg, env.faults (Call.get Kind.HTTPProxy ⟨req1.Namespace, req1.Name⟩) = some msg) ∨
          ∃ hp1, env.faults (Call.get Kind.HTTPProxy ⟨req1.Namespace, req1.Name⟩) = none ∧
            HTTPProxies.find st1.store ⟨req1.Namespace, req1.Name⟩ = some hp1 ∧
            hp1.Annotations.lookup excludeAnnotation ≠ some "true" ∧
            ((reconcileDNSEndpoint env r hp1
                (st1.record (Call.get Kind.HTTPProxy ⟨req1.Namespace, req1.Name⟩))).1 ≠ none ∨
              ((reconcileDNSEndpoint env r hp1
                (st1.record (Call.get Kind.HTTPProxy ⟨req1.Namespace, req1.Name⟩))).1 = none ∧
                (reconcileCertificate env r hp1 (reconcileDNSEndpoint env r hp1
                  (st1.record (Call.get Kind.HTTPProxy ⟨req1.Namespace, req1.Name⟩))).2).1 ≠
                  none)))) := by
  refine ⟨?_, ?_, ?_, ?_, ?_, ?_⟩
  · intro e st2 hdns
    rcases Reconcile_branches (r := r) hfault hstored hnotexcluded with
      ⟨e1, st4, hd, heq⟩ | ⟨st4, e1, st5, hd, _, _⟩ | ⟨st4, st5, hd, _, _⟩
    · rw [hdns] at hd
      cases hd
      have hdf := reconcileDNSEndpoint_frame env r hp
        (st.record (Call.get Kind.HTTPProxy ⟨req.Namespace, req.Name⟩))
      rw [hdns] at hdf
      obtain ⟨_, _, hcert, cs, hcs, hmem⟩ := hdf
      rw [heq]
      refine ⟨rfl, hcert, ?_⟩
      intro c hc key
      rw [callsSince_of_eq (Call.get Kind.HTTPProxy ⟨req.Namespace, req.Name⟩ :: cs)
        (by show st2.calls = _; rw [show st2.calls = _ from hcs]; simp)] at hc
      rcases List.mem_cons.mp hc with h | h
      · subst h
        exact ⟨by simp, by simp, by simp⟩
      · rcases hmem c h with h1 | h1 | h1 | h1 | ⟨f, i, h1, _⟩ <;> subst h1 <;>
          exact ⟨by simp, by simp, by simp⟩
    · rw [hdns] at hd
      cases hd
    · rw [hdns] at hd
      cases hd
  · intro vh e st1 st2 hen hvh hfqdn hget
    rw [reconcileDNSEndpoint_fetch hen hvh hfqdn, hget]
  · intro vh svc op e st1 st2 st3 hen hvh hfqdn hget hips hup
    rw [reconcileDNSEndpoint_fetch hen hvh hfqdn, hget]
    simp only [hips, if_false, hup]
  · intro st2 e st3 hdns hcrt
    rcases Reconcile_branches (r := r) hfault hstored hnotexcluded with
      ⟨e1, st4, hd, _⟩ | ⟨st4, e1, st5, hd, hc, heq⟩ | ⟨st4, st5, hd, hc, _⟩
    · rw [hdns] at hd
      cases hd
    · rw [hdns] at hd
      cases hd
      rw [hcrt] at hc
      cases hc
      rw [heq]
    · rw [hdns] at hd
      cases hd
      rw [hcrt] at hc
      cases hc
  · intro vh tls op e st2 st3 hen hacme hvh hfqdn htls hsecret hissuer hup
    rw [reconcileCertificate_main hen (certificateInputs_some hacme hvh hfqdn htls hsecret),
      if_neg hissuer]
    simp only [hup]
  · intro req1 st1
    cases hf : env.faults (Call.get Kind.HTTPProxy ⟨req1.Namespace, req1.Name⟩) with
    | some msg =>
      rw [Reconcile_fetch_failed hf]
      exact ⟨fun _ => Or.inl ⟨msg, rfl⟩, fun _ => by simp⟩
    | none =>
      cases hs : HTTPProxies.find st1.store ⟨req1.Namespace, req1.Name⟩ with
      | none =>
        rw [Reconcile_absent hf hs]
        constructor
        · intro h
          exact absurd rfl h
        · rintro (⟨msg, h⟩ | ⟨hp1, _, h, _⟩)
          · cases h
          · cases h
      | some hp1 =>
        by_cases hex : hp1.Annotations.lookup excludeAnnotation = some "true"
        · rw [Reconcile_excluded_eq hf hs hex]
          constructor
          · intro h
            exact absurd rfl h
          · rintro (⟨msg, h⟩ | ⟨hp2, _, h, hne, _⟩)
            · cases h
            · cases h
              exact absurd hex hne
        · rcases Reconcile_branches (r := r) hf hs hex with
            ⟨e1, st4, hd, heq⟩ | ⟨st4, e1, st5, hd, hc, heq⟩ | ⟨st4, st5, hd, hc, heq⟩
          · rw [heq]
            refine ⟨fun _ => Or.inr ⟨hp1, rfl, rfl, hex, Or.inl (by rw [hd]; simp)⟩,
              fun _ => by simp⟩
          · rw [heq]
            refine ⟨fun _ => Or.inr ⟨hp1, rfl, rfl, hex, Or.inr ⟨by rw [hd], ?_⟩⟩,
              fun _ => by simp⟩
            rw [hd, hc]
            simp
          · rw [heq]
            constructor
            · intro h
              exact absurd rfl h
            · rintro (⟨msg, h⟩ | ⟨hp2, _, h, _, h2⟩)
              · cases h
              · cases h
                rcases h2 with h2 | ⟨_, h2⟩
                · rw [hd] at h2
                  exact absurd rfl h2
                · rw [hd, hc] at h2
                  exact absurd rfl h2

/-- C14, on the worked scenario: without the target service the DNS branch's
NotFound is returned and no Certificate appears; with the store refusing to
create the Certificate, the pass returns that error. -/
theorem Reconcile_error_propagation_witness :
    ((Reconcile exampleEnv exampleReconciler exampleRequest exampleNoServiceState).1 =
        ({}, some (Err.notFound Kind.Service ⟨"ingress", "contour"⟩)) ∧
      (Reconcile exampleEnv exampleReconciler exampleRequest
        exampleNoServiceState).2.store.Certificates = []) ∧
    (Reconcile exampleCreateFailingEnv exampleReconciler exampleRequest exampleState).1 =
      ({}, some (Err.store "quota exceeded")) :=
  have h1 := (Reconcile_error_propagation exampleEnv exampleReconciler exampleRequest
    exampleNoServiceState exampleProxy (by decide) (by decide) (by decide)).1
    (Err.notFound Kind.Service ⟨"ingress", "contour"⟩)
    (reconcileDNSEndpoint exampleEnv exampleReconciler exampleProxy
      (exampleNoServiceState.record (Call.get Kind.HTTPProxy ⟨"a", "foo"⟩))).2 (by decide)
  have h2 := (Reconcile_error_propagation exampleCreateFailingEnv exampleReconciler exampleRequest
    exampleState exampleProxy (by decide) (by decide) (by decide)).2.2.2.1
    (reconcileDNSEndpoint exampleCreateFailingEnv exampleReconciler exampleProxy
      (exampleState.record (Call.get Kind.HTTPProxy ⟨"a", "foo"⟩))).2
    (Err.store "quota exceeded")
    (reconcileCertificate exampleCreateFailingEnv exampleReconciler exampleProxy
      (reconcileDNSEndpoint exampleCreateFailingEnv exampleReconciler exampleProxy
        (exampleState.record (Call.get Kind.HTTPProxy ⟨"a", "foo"⟩))).2).2
    (by decide) (by decide)
  ⟨⟨h1.1, h1.2.1⟩, h2⟩

/-- C13 (watch router). The mapping `listHPs` equals the reference definition
for every event object and every state, and never changes the store. If the
object's namespace differs from ServiceKey.Namespace or its name differs from
ServiceKey.Name, the result is no requests and no call is made (the store is
not listed). Otherwise the one call made is the listing of the HTTPProxies; if
it fails the result is no requests; if it succeeds the result has one request
per stored HTTPProxy, across all namespaces and in store order, the i-th
request carrying the i-th HTTPProxy's namespace and name, so its length is the
number of HTTPProxies and it is empty when there are none. -/
theorem listHPs_refines_spec (env : Env) (r : HTTPProxyReconciler) (a : ObjectMeta) (st : St) :
    (listHPs env r a st).1 = listHPsSpec r.ServiceKey a (Client.List env HTTPProxies st).1 ∧
    (listHPs env r a st).2.store = st.store ∧
    ((a.Namespace ≠ r.ServiceKey.Namespace ∨ a.Name ≠ r.ServiceKey.Name) →
      (listHPs env r a st).1 = [] ∧ callsSince st (listHPs env r a st).2 = []) ∧
    (a.Namespace = r.ServiceKey.Namespace → a.Name = r.ServiceKey.Name →
      callsSince st (listHPs env r a st).2 = [Call.list Kind.HTTPProxy] ∧
      (∀ msg, env.faults (Call.list Kind.HTTPProxy) = some msg → (listHPs env r a st).1 = []) ∧
      (env.faults (Call.list Kind.HTTPProxy) = none →
        (listHPs env r a st).1.length = st.store.HTTPProxies.length ∧
        (∀ i : Nat, (listHPs env r a st).1[i]? =
          (st.store.HTTPProxies[i]?).map
            (fun hp => ({ Namespace := hp.Namespace, Name := hp.Name } : Request))) ∧
        (st.store.HTTPProxies = [] → (listHPs env r a st).1 = []))) := by
  by_cases hns : a.Namespace = r.ServiceKey.Namespace
  swap
  · have heq : listHPs env r a st = ([], st) := by simp [listHPs, hns]
    rw [heq]
    refine ⟨by simp [listHPsSpec, hns], rfl, fun _ => ⟨rfl, callsSince_of_eq _ (by simp)⟩, ?_⟩
    intro h
    exact absurd h hns
  by_cases hname : a.Name = r.ServiceKey.Name
  swap
  · have heq : listHPs env r a st = ([], st) := by simp [listHPs, hns, hname]
    rw [heq]
    refine ⟨by simp [listHPsSpec, hname], rfl, fun _ => ⟨rfl, callsSince_of_eq _ (by simp)⟩, ?_⟩
    intro _ h
    exact absurd h hname
  cases hf : env.faults (Call.list Kind.HTTPProxy) with
  | some msg =>
    have hlist : Client.List env HTTPProxies st =
        (Except.error (Err.store msg), st.record (Call.list Kind.HTTPProxy)) := by
      have hf1 : env.faults (Call.list HTTPProxies.kind) = some msg := hf
      simp [Client.List, hf1]
      rfl
    have heq : listHPs env r a st =
        ([], (st.record (Call.list Kind.HTTPProxy)).log
          (LogEntry.error (Err.store msg) "listing HTTPProxy failed")) := by
      simp [listHPs, hns, hname, hlist]
    rw [heq, hlist]
    refine ⟨by simp [listHPsSpec, hns, hname], rfl, ?_, ?_⟩
    · rintro (h | h)
      · exact absurd hns h
      · exact absurd hname h
    · intro _ _
      refine ⟨callsSince_of_eq _ rfl, fun _ _ => rfl, ?_⟩
      intro h
      cases h
  | none =>
    have hlist : Client.List env HTTPProxies st =
        (Except.ok st.store.HTTPProxies, st.record (Call.list Kind.HTTPProxy)) := by
      have hf1 : env.faults (Call.list HTTPProxies.kind) = none := hf
      simp [Client.List, hf1]
      exact ⟨rfl, rfl⟩
    have heq : listHPs env r a st =
        (st.store.HTTPProxies.map
          (fun hp => ({ Namespace := hp.Namespace, Name := hp.Name } : Request)),
          st.record (Call.list Kind.HTTPProxy)) := by
      simp only [listHPs, hns, hname, hlist, fillRequests_fresh]
      simp
    rw [heq, hlist]
    refine ⟨by simp [listHPsSpec, hns, hname], rfl, ?_, ?_⟩
    · rintro (h | h)
      · exact absurd hns h
      · exact absurd hname h
    · intro _ _
      refine ⟨callsSince_of_eq _ rfl, ?_, ?_⟩
      · intro msg h
        cases h
      · intro _
        refine ⟨by simp, ?_, ?_⟩
        · intro i
          simp [List.getElem?_map]
        · intro hnil
          simp [hnil]

/-- C13, on a store with two HTTPProxies: an event on the target service
yields both requests in order, an event on another object none, and a failing
listing none. -/
theorem listHPs_refines_spec_witness :
    (listHPs exampleEnv exampleReconciler { Namespace := "ingress", Name := "contour" }
      exampleTwoProxiesState).1 =
      [{ Namespace := "a", Name := "foo" }, { Namespace := "b", Name := "bar" }] ∧
    ((listHPs exampleEnv exampleReconciler { Namespace := "ingress", Name := "other" }
      exampleTwoProxiesState).1 = [] ∧
      callsSince exampleTwoProxiesState
        (listHPs exampleEnv exampleReconciler { Namespace := "ingress", Name := "other" }
          exampleTwoProxiesState).2 = []) ∧
    (listHPs exampleListFailingEnv exampleReconciler { Namespace := "ingress", Name := "contour" }
      exampleTwoProxiesState).1 = [] :=
  ⟨(listHPs_refines_spec exampleEnv exampleReconciler { Namespace := "ingress", Name := "contour" }
      exampleTwoProxiesState).1.trans (by decide),
    (listHPs_refines_spec exampleEnv exampleReconciler { Namespace := "ingress", Name := "other" }
      exampleTwoProxiesState).2.2.1 (by decide),
    ((listHPs_refines_spec exampleListFailingEnv exampleReconciler
      { Namespace := "ingress", Name := "contour" } exampleTwoProxiesState).2.2.2
      (by decide) (by decide)).2.1 "timeout" (by decide)⟩

/-- C15 (no delete on precondition loss). For every configuration, state and
request: every key holding a DNSEndpoint or a Certificate before Reconcile
still holds one after it; what is stored under every key other than
(namespace, Prefix+name) of the requested HTTPProxy is the same after as
before, for both derived kinds; the HTTPProxies and Services are unchanged;
and every create or update call of the pass is on one of those two keys, one
per derived kind. A derived resource whose preconditions no longer hold is
left exactly as it is: the DNSEndpoints are unchanged when the DNS feature is
off, the owner is excluded, its virtual host or fqdn is gone, or the stored
target service holds no address; the Certificates are unchanged when the
certificate feature is off, the owner is excluded, or its tls-acme annotation,
virtual host, fqdn, TLS block or secretName is gone. -/
theorem Reconcile_never_deletes (env : Env) (r : HTTPProxyReconciler) (req : Request)
    (st : St) :
    (∀ k, (DNSEndpoints.find st.store k).isSome = true →
      (DNSEndpoints.find (Reconcile env r req st).2.store k).isSome = true) ∧
    (∀ k, (Certificates.find st.store k).isSome = true →
      (Certificates.find (Reconcile env r req st).2.store k).isSome = true) ∧
    (∀ k, k ≠ ⟨req.Namespace, r.Prefix ++ req.Name⟩ →
      DNSEndpoints.find (Reconcile env r req st).2.store k = DNSEndpoints.find st.store k ∧
      Certificates.find (Reconcile env r req st).2.store k = Certificates.find st.store k) ∧
    (Reconcile env r req st).2.store.HTTPProxies = st.store.HTTPProxies ∧
    (Reconcile env r req st).2.store.Services = st.store.Services ∧
    (∀ c ∈ callsSince st (Reconcile env r req st).2, c.isWrite = true →
      c = Call.create Kind.DNSEndpoint ⟨req.Namespace, r.Prefix ++ req.Name⟩ ∨
      c = Call.update Kind.DNSEndpoint ⟨req.Namespace, r.Prefix ++ req.Name⟩ ∨
      c = Call.create Kind.Certificate ⟨req.Namespace, r.Prefix ++ req.Name⟩ ∨
      c = Call.update Kind.Certificate ⟨req.Namespace, r.Prefix ++ req.Name⟩) ∧
    (∀ hp, HTTPProxies.find st.store ⟨req.Namespace, req.Name⟩ = some hp →
      (r.CreateDNSEndpoint = false ∨ hp.Annotations.lookup excludeAnnotation = some "true" ∨
        hp.Spec.VirtualHost = none ∨ (∃ vh, hp.Spec.VirtualHost = some vh ∧ vh.Fqdn = "") ∨
        ∃ svc, Services.find st.store r.ServiceKey = some svc ∧
          ∀ ing ∈ svc.Status.LoadBalancer.Ingress, ing.IP = "") →
      (Reconcile env r req st).2.store.DNSEndpoints = st.store.DNSEndpoints) ∧
    (∀ hp, HTTPProxies.find st.store ⟨req.Namespace, req.Name⟩ = some hp →
      (r.CreateCertificate = false ∨ hp.Annotations.lookup excludeAnnotation = some "true" ∨
        hp.Annotations.lookup testACMETLSAnnotation ≠ some "true" ∨
        hp.Spec.VirtualHost = none ∨
        ∃ vh, hp.Spec.VirtualHost = some vh ∧
          (vh.Fqdn = "" ∨ vh.TLS = none ∨ ∃ tls, vh.TLS = some tls ∧ tls.SecretName = "")) →
      (Reconcile env r req st).2.store.Certificates = st.store.Certificates) := by
  refine ⟨fun k => (Reconcile_preserves env r req st k).2.1,
    fun k => (Reconcile_preserves env r req st k).2.2,
    fun k => (Reconcile_preserves env r req st k).1,
    (Reconcile_frame env r req st).1, (Reconcile_frame env r req st).2.1, ?_, ?_, ?_⟩
  · intro c hc hw
    obtain ⟨cs, hcs, hall⟩ := Reconcile_calls env r req st
    rw [callsSince_of_eq _ hcs] at hc
    rcases List.mem_cons.mp hc with h | h
    · subst h
      cases hw
    · rcases hall c h with ⟨_, h1 | h1 | h1 | h1 | ⟨f, i, h1, _⟩⟩ | ⟨_, h1 | h1 | h1⟩
      · subst h1
        cases hw
      · subst h1
        cases hw
      · exact Or.inl h1
      · exact Or.inr (Or.inl h1)
      · subst h1
        cases hw
      · subst h1
        cases hw
      · exact Or.inr (Or.inr (Or.inl h1))
      · exact Or.inr (Or.inr (Or.inr h1))
  · intro hp hstored hlost
    cases hfault : env.faults (Call.get Kind.HTTPProxy ⟨req.Namespace, req.Name⟩) with
    | some msg => rw [Reconcile_fetch_failed hfault]; rfl
    | none =>
      by_cases hex : hp.Annotations.lookup excludeAnnotation = some "true"
      · rw [Reconcile_excluded_eq hfault hstored hex]
        rfl
      · rw [Reconcile_DNSEndpoints hfault hstored hex]
        have hsame : (reconcileDNSEndpoint env r hp
            (st.record (Call.get Kind.HTTPProxy ⟨req.Namespace, req.Name⟩))).2.store =
            st.store := by
          rcases hlost with h | h | h | h | ⟨svc, hsvc, hzero⟩
          · rw [reconcileDNSEndpoint_disabled h]
            rfl
          · exact absurd h hex
          · rw [reconcileDNSEndpoint_null (Or.inl h)]
            rfl
          · rw [reconcileDNSEndpoint_null (Or.inr h)]
            rfl
          · have hsvc1 : Services.find
                (st.record (Call.get Kind.HTTPProxy ⟨req.Namespace, req.Name⟩)).store
                r.ServiceKey = some svc := hsvc
            exact reconcileDNSEndpoint_zero_store hsvc1 hzero
        rw [hsame]
  · intro hp hstored hlost
    cases hfault : env.faults (Call.get Kind.HTTPProxy ⟨req.Namespace, req.Name⟩) with
    | some msg => rw [Reconcile_fetch_failed hfault]; rfl
    | none =>
      by_cases hex : hp.Annotations.lookup excludeAnnotation = some "true"
      · rw [Reconcile_excluded_eq hfault hstored hex]
        rfl
      · have hskip : ∀ st2 : St, reconcileCertificate env r hp st2 = (none, st2) := by
          intro st2
          rcases hlost with h | h | h
          · exact reconcileCertificate_disabled h
          · exact absurd h hex
          · exact reconcileCertificate_skip (certificateInputs_none h)
        have hdf := fun st2 => (reconcileDNSEndpoint_frame env r hp st2).2.2.1
        rcases Reconcile_branches (r := r) hfault hstored hex with
          ⟨e, st2, hd, heq⟩ | ⟨st2, e, st3, _, hc, _⟩ | ⟨st2, st3, hd, hc, heq⟩
        · have h1 := hdf (st.record (Call.get Kind.HTTPProxy ⟨req.Namespace, req.Name⟩))
          rw [hd] at h1
          rw [heq]
          exact h1
        · rw [hskip st2] at hc
          cases hc
        · rw [hskip st2] at hc
          cases hc
          have h1 := hdf (st.record (Call.get Kind.HTTPProxy ⟨req.Namespace, req.Name⟩))
          rw [hd] at h1
          rw [heq]
          exact h1

/-- C15, on a store whose HTTPProxy has lost its virtual host: the DNSEndpoint
and the Certificate an earlier pass derived are both left exactly as they
were. -/
theorem Reconcile_never_deletes_witness :
    (Reconcile exampleEnv exampleReconciler exampleRequest exampleOrphanState).2.store.DNSEndpoints =
      exampleOrphanState.store.DNSEndpoints ∧
    (Reconcile exampleEnv exampleReconciler exampleRequest exampleOrphanState).2.store.Certificates =
      exampleOrphanState.store.Certificates ∧
    (DNSEndpoints.find (Reconcile exampleEnv exampleReconciler exampleRequest
      exampleState).2.store ⟨"a", "x-foo"⟩).isSome = true :=
  have h := Reconcile_never_deletes exampleEnv exampleReconciler exampleRequest exampleOrphanState
  have h1 := Reconcile_never_deletes exampleEnv exampleReconciler exampleRequest exampleState
  ⟨h.2.2.2.2.2.2.1 exampleNullProxy (by decide) (Or.inr (Or.inr (Or.inl (by decide)))),
    h.2.2.2.2.2.2.2 exampleNullProxy (by decide) (Or.inr (Or.inr (Or.inr (Or.inl (by decide))))),
    h1.1 ⟨"a", "x-foo"⟩ (by decide)⟩

end ContourPlus
